import Mathlib

/-!
Verification development for the estradial repository.

This file gives a shallow embedding, over exact rationals, of the
concentration model (src/src/utils/pharmacokinetics.ts), the reference
cycle generator (src/unnamed/part_008, data/referenceData.ts), and the
schedule optimizer (src/unnamed/part_014, utils/scheduleOptimizer.ts),
and proves or refutes the frozen claims about them.

Modelling conventions:
- JavaScript numbers are modelled as rationals; the transcendental
  Math.exp is a parameter (named e below) of every definition that the
  source reaches it from, and Math.log(2) is a parameter ln2.  Where a
  claim needs a property of the real exponential it is carried as an
  explicit hypothesis (for example monotonicity).
- Math.round is floor of x plus one half, matching the JavaScript
  semantics of rounding half toward positive infinity.
- The memoization cache of calculateMSE (mseCache together with
  hashDoses) is omitted: calculateMSE is modelled as the pure value the
  source computes on a cache miss.
- JavaScript array sort is stable; it is modelled by a stable insertion
  sort parameterized by the boolean comparison derived from the
  numeric comparator of the source.
- Dose records are modelled by values; the source mutates shared dose
  objects in place but every phase restores a field unless the change
  was accepted, so committed states agree with the value semantics.
- The medication sum type comes from src/types/medication.ts which is
  imported by the optimizer but absent from the sources; it is modelled
  from the spec (section 3) as a two-case tagged variant, with the kind
  discriminators isEstradiolMedication and isProgesteroneMedication.
-/

namespace Estradial

/-- JavaScript Math.round on a rational: floor of q plus one half. -/
def jsRound (q : ℚ) : ℚ := (⌊q + 1/2⌋ : ℤ)

/-- Rounding to two decimal places, Math.round(x * 100) / 100. -/
def round2 (q : ℚ) : ℚ := jsRound (q * 100) / 100

/-- Insert x into a list sorted by the boolean comparison le, after all
elements y with le y x, mirroring the placement a stable sort gives. -/
def insertLe (le : α → α → Bool) (x : α) : List α → List α
  | [] => [x]
  | y :: ys => if le y x then y :: insertLe le x ys else x :: y :: ys

/-- Stable sort by a boolean comparison; models JavaScript Array.sort
with a numeric comparator (le a b meaning the comparator is ≤ 0). -/
def jsSortBy (le : α → α → Bool) (l : List α) : List α :=
  l.foldl (fun acc x => insertLe le x acc) []

/-- Route tag of a progesterone medication. -/
inductive Route
  | oral
  | vaginal
  | rectal
deriving DecidableEq, Repr

/-- Estradiol ester kinetic data (data/estradiolEsters.ts). -/
structure EstradiolMed where
  name : String
  D : ℚ
  k1 : ℚ
  k2 : ℚ
  k3 : ℚ
deriving DecidableEq, Repr

/-- Progesterone route kinetic data. -/
structure ProgesteroneMed where
  name : String
  route : Route
  bioavailability : ℚ
  absorptionRate : ℚ
  eliminationRate : ℚ
  volumeOfDistribution : ℚ
deriving DecidableEq, Repr

/-- Modelled from the spec: the medication type of src/types/medication.ts,
a tagged variant with an ester case and a progesterone-route case. -/
inductive Medication
  | estradiol (m : EstradiolMed)
  | progesterone (m : ProgesteroneMed)
deriving DecidableEq, Repr

instance : Inhabited Medication := ⟨.estradiol ⟨"", 0, 0, 0, 0⟩⟩

/-- Name of a medication. -/
def Medication.name : Medication → String
  | .estradiol m => m.name
  | .progesterone m => m.name

/-- Modelled from the spec: kind discriminator of src/types/medication.ts. -/
def isEstradiolMedication : Medication → Bool
  | .estradiol _ => true
  | .progesterone _ => false

/-- Modelled from the spec: kind discriminator of src/types/medication.ts. -/
def isProgesteroneMedication : Medication → Bool
  | .estradiol _ => false
  | .progesterone _ => true

/-- A dose event: day, amount in mg, medication. -/
structure Dose where
  day : ℚ
  dose : ℚ
  medication : Medication
deriving DecidableEq, Repr

/-- One sample of the combined concentration curves. -/
structure ConcentrationPoint where
  time : ℚ
  estradiolConcentration : ℚ
  progesteroneConcentration : ℚ
deriving DecidableEq, Repr

/-- A reference target point; progesterone is optional as in the inline
type of the optimizer. -/
structure ReferencePoint where
  day : ℚ
  estradiol : ℚ
  progesterone : Option ℚ
deriving DecidableEq, Repr

/-- PHARMACOKINETICS.ESTER_EFFECT_DURATION_DAYS. -/
def ESTER_EFFECT_DURATION_DAYS : ℚ := 100

/-- PHARMACOKINETICS.TIME_POINT_STEP. -/
def TIME_POINT_STEP : ℚ := 1/2

/-- PHARMACOKINETICS.STEADY_STATE_START_CYCLE. -/
def STEADY_STATE_START_CYCLE : ℤ := -3

/-- calculateConcentration of utils/pharmacokinetics.ts; e stands for
Math.exp. -/
def calculateConcentration (e : ℚ → ℚ) (t day dose : ℚ) (ester : EstradiolMed) : ℚ :=
  if t < day ∨ t > day + ESTER_EFFECT_DURATION_DAYS then 0
  else
    let deltaT := t - day
    let term1 := e (-deltaT * ester.k1) / ((ester.k1 - ester.k2) * (ester.k1 - ester.k3))
    let term2 := e (-deltaT * ester.k3) / ((ester.k1 - ester.k3) * (ester.k2 - ester.k3))
    let term3 := (e (-deltaT * ester.k2) * (ester.k3 - ester.k1)) /
                 ((ester.k1 - ester.k2) * (ester.k1 - ester.k3) * (ester.k2 - ester.k3))
    max 0 ((dose * ester.D / 5) * ester.k1 * ester.k2 * (term1 + term2 + term3))

/-- calculateProgesteroneConcentration of utils/pharmacokinetics.ts. -/
def calculateProgesteroneConcentration (e : ℚ → ℚ) (t day dose : ℚ) (m : ProgesteroneMed) : ℚ :=
  if t < day then 0
  else
    let deltaT := (t - day) * 24
    let F := m.bioavailability
    let ka := m.absorptionRate
    let ke := m.eliminationRate
    let Vd := m.volumeOfDistribution
    if |ka - ke| < 1 / 10 ^ 10 then
      max 0 ((F * dose * ka * deltaT / Vd) * e (-ke * deltaT))
    else
      max 0 ((F * dose * ka) / (Vd * (ka - ke)) * (e (-ke * deltaT) - e (-ka * deltaT)))

/-- One step of the estradiol reduce of calculateTotalConcentration:
estradiol doses contribute their concentration, progesterone doses
leave the sum unchanged. -/
def estStep (e : ℚ → ℚ) (t : ℚ) (sum : ℚ) (d : Dose) : ℚ :=
  match d.medication with
  | .estradiol m => sum + calculateConcentration e t d.day d.dose m
  | .progesterone _ => sum

/-- One step of the progesterone reduce of calculateTotalConcentration. -/
def progStep (e : ℚ → ℚ) (t : ℚ) (sum : ℚ) (d : Dose) : ℚ :=
  match d.medication with
  | .estradiol _ => sum
  | .progesterone m => sum + calculateProgesteroneConcentration e t d.day d.dose m

/-- calculateTotalConcentration of utils/pharmacokinetics.ts; the legacy
fallback to a bare ester field does not arise because every modelled
dose carries its medication. -/
def calculateTotalConcentration (e : ℚ → ℚ) (doses : List Dose) (timePoints : List ℚ) :
    List ConcentrationPoint :=
  timePoints.map fun t =>
    ⟨t, max 0 (doses.foldl (estStep e t) 0), max 0 (doses.foldl (progStep e t) 0)⟩

/-- Loop body of generateTimePoints, with fuel bounding the number of
loop entries; the source loop runs while t stays at most maxDays. -/
def generateTimePointsGo (maxDays step : ℚ) : ℕ → ℚ → List ℚ
  | 0, _ => []
  | fuel + 1, t => if t ≤ maxDays then t :: generateTimePointsGo maxDays step fuel (t + step) else []

/-- generateTimePoints of utils/pharmacokinetics.ts.  The fuel is chosen
large enough to be inexhaustible whenever step is positive; for
nonpositive step the source loops forever, which the model truncates. -/
def generateTimePoints (maxDays step : ℚ) : List ℚ :=
  generateTimePointsGo maxDays step ((⌊maxDays / step⌋).toNat + 2) 0

/-- Reference cycle selector (data/referenceData.ts). -/
inductive ReferenceCycleType
  | typical
  | hrtTarget
  | conservative
  | highPhysiological
deriving DecidableEq, Repr

/-- Shorthand for a reference point with no progesterone target, the
shape produced by the reference data tables. -/
def rp (day estradiol : ℚ) : ReferencePoint := ⟨day, estradiol, none⟩

/-- TYPICAL_CYCLE_DATA of data/referenceData.ts. -/
def TYPICAL_CYCLE_DATA : List ReferencePoint :=
  [rp 1 34, rp 2 36, rp 3 38, rp 4 42, rp 5 45,
   rp 6 47, rp 7 50, rp 8 55, rp 9 65, rp 10 85,
   rp 11 110, rp 12 126, rp 13 175, rp 14 210,
   rp 15 223,
   rp 16 200, rp 17 150, rp 18 106,
   rp 19 100, rp 20 115, rp 21 125, rp 22 138, rp 23 135, rp 24 125, rp 25 115,
   rp 26 108, rp 27 85, rp 28 55, rp 29 40]

/-- HRT_TARGET_DATA of data/referenceData.ts. -/
def HRT_TARGET_DATA : List ReferencePoint :=
  [rp 1 50, rp 2 50, rp 3 52, rp 4 55, rp 5 58,
   rp 6 62, rp 7 68, rp 8 75, rp 9 85, rp 10 100,
   rp 11 125, rp 12 150, rp 13 200, rp 14 250,
   rp 15 300,
   rp 16 250, rp 17 200, rp 18 200,
   rp 19 200, rp 20 200, rp 21 200, rp 22 200, rp 23 195, rp 24 180, rp 25 160,
   rp 26 130, rp 27 100, rp 28 70, rp 29 55]

/-- CONSERVATIVE_CYCLE_DATA of data/referenceData.ts. -/
def CONSERVATIVE_CYCLE_DATA : List ReferencePoint :=
  [rp 1 21, rp 2 22, rp 3 23, rp 4 24, rp 5 25,
   rp 6 26, rp 7 28, rp 8 32, rp 9 40, rp 10 45,
   rp 11 50, rp 12 52, rp 13 55, rp 14 58,
   rp 15 60,
   rp 16 58, rp 17 54, rp 18 51,
   rp 19 52, rp 20 58, rp 21 62, rp 22 66, rp 23 64, rp 24 60, rp 25 56,
   rp 26 48, rp 27 38, rp 28 30, rp 29 24]

/-- HIGH_PHYSIOLOGICAL_DATA of data/referenceData.ts. -/
def HIGH_PHYSIOLOGICAL_DATA : List ReferencePoint :=
  [rp 1 63, rp 2 65, rp 3 68, rp 4 72, rp 5 75,
   rp 6 80, rp 7 85, rp 8 95, rp 9 120, rp 10 180,
   rp 11 234, rp 12 280, rp 13 400, rp 14 480,
   rp 15 603,
   rp 16 450, rp 17 280, rp 18 179,
   rp 19 165, rp 20 220, rp 21 270, rp 22 306, rp 23 295, rp 24 260, rp 25 220,
   rp 26 200, rp 27 150, rp 28 100, rp 29 75]

/-- REFERENCE_CYCLES of data/referenceData.ts, reduced to the fields the
generator reads: the id and the data table. -/
def REFERENCE_CYCLES : List (ReferenceCycleType × List ReferencePoint) :=
  [(.typical, TYPICAL_CYCLE_DATA),
   (.hrtTarget, HRT_TARGET_DATA),
   (.conservative, CONSERVATIVE_CYCLE_DATA),
   (.highPhysiological, HIGH_PHYSIOLOGICAL_DATA)]

/-- The reduce of generateReferenceCycle picking the table entry whose
day is closest to cycleDay. -/
def closestRefPoint (cycleDay : ℚ) : List ReferencePoint → ReferencePoint
  | [] => rp 0 0
  | h :: t => t.foldl (fun prev curr =>
      if |curr.day - cycleDay| < |prev.day - cycleDay| then curr else prev) h

/-- generateReferenceCycle of data/referenceData.ts: one point per
integer day from 0 to totalDays inclusive, tiled from the 29-day table;
the unknown-cycle-type throw cannot arise since the selector is a
closed enumeration, and the fallback branch is dead because the tables
cover every cycle day from 1 to 29. -/
def generateReferenceCycle (totalDays : ℕ) (cycleType : ReferenceCycleType) :
    List ReferencePoint :=
  match REFERENCE_CYCLES.find? (fun c => c.1 = cycleType) with
  | none => []
  | some cycleInfo =>
    let cycleData := cycleInfo.2
    (List.range (totalDays + 1)).map fun day =>
      let cycleDay : ℚ := (day % 29 : ℕ) + 1
      match cycleData.find? (fun p => p.day = cycleDay) with
      | some referencePoint => ⟨(day : ℚ), referencePoint.estradiol, none⟩
      | none => ⟨(day : ℚ), (closestRefPoint cycleDay cycleData).estradiol, none⟩

/-! Optimizer constants (OPTIMIZATION_CONSTANTS of scheduleOptimizer). -/

def DEFAULT_ESTRADIOL_STARTING_VOLUME_ML : ℚ := 3/20
def MAX_DOSE_ADJUSTMENT_STEPS : ℕ := 10
def MAX_ORAL_VAGINAL_PROGESTERONE_PER_DAY : ℕ := 4
def PROGRESS_CONVERGENCE_RATE : ℚ := 10
def MAX_DISPLAYED_PROGRESS_UNTIL_COMPLETE : ℚ := 95
def SAMPLES_PER_DAY : ℕ := 4
def TIME_POINT_TOLERANCE : ℚ := 1/10
def MIN_IMPROVEMENT_THRESHOLD : ℚ := 1/10000
def NO_IMPROVEMENT_ITERATIONS_LIMIT : ℕ := 3
def ADAPTIVE_GRANULARITY_ENABLED : Bool := true
def INITIAL_GRANULARITY_MULTIPLIER : ℚ := 4
def GRANULARITY_REFINEMENT_TRIGGER : ℕ := 2
def MIN_GRANULARITY_MULTIPLIER : ℚ := 1
def BEAM_WIDTH : ℕ := 3
def SIMPLICITY_WEIGHT : ℚ := 1/50
def DOSE_COMPLEXITY_WEIGHT : ℚ := 1/1000
def PREFER_FEWER_MEDICATIONS : Bool := false
def MEDICATION_VARIETY_PENALTY : ℚ := 0

/-- OptimizationParams; optional source fields are Option values whose
destructuring defaults are applied by the D-suffixed accessors below. -/
structure OptimizationParams where
  availableEsters : List Medication
  scheduleLength : ℕ
  referenceCycleType : ReferenceCycleType
  steadyState : Option Bool := none
  granularity : Option ℚ := none
  maxDosePerInjection : Option ℚ := none
  minDosePerInjection : Option ℚ := none
  maxInjectionsPerCycle : Option ℕ := none
  esterConcentrations : List (String × ℚ)
  progesteroneDoses : Option (List ℚ) := none
  optimizeForAccuracyOnly : Option Bool := none
deriving Repr

def OptimizationParams.steadyStateD (p : OptimizationParams) : Bool :=
  p.steadyState.getD false
def OptimizationParams.granularityD (p : OptimizationParams) : ℚ :=
  p.granularity.getD (1/20)
def OptimizationParams.maxDoseD (p : OptimizationParams) : ℚ :=
  p.maxDosePerInjection.getD 10
def OptimizationParams.minDoseD (p : OptimizationParams) : ℚ :=
  p.minDosePerInjection.getD (1/10)
def OptimizationParams.maxInjD (p : OptimizationParams) : ℕ :=
  p.maxInjectionsPerCycle.getD 10
def OptimizationParams.progDosesD (p : OptimizationParams) : List ℚ :=
  p.progesteroneDoses.getD [100, 200]
def OptimizationParams.accOnlyD (p : OptimizationParams) : Bool :=
  p.optimizeForAccuracyOnly.getD false

/-- Record lookup esterConcentrations[name] with the or-default of the
source: a missing binding and a zero binding both fall back to dflt. -/
def concLookup (tbl : List (String × ℚ)) (nam : String) (dflt : ℚ) : ℚ :=
  match tbl.find? (fun kv => kv.1 = nam) with
  | none => dflt
  | some kv => if kv.2 = 0 then dflt else kv.2

/-- OptimizationResult. -/
structure OptimizationResult where
  doses : List Dose
  score : ℚ
  iterations : ℕ
deriving DecidableEq, Repr

/-- OptimizationState of scheduleOptimizer. -/
structure OptimizationState where
  currentDoses : List Dose
  currentScore : ℚ
  iterations : ℕ
  noImprovementCount : ℕ
  bestScoreThisRun : ℚ
  bestDosesThisRun : List Dose
  currentGranularityMultiplier : ℚ
  iterationsSinceRefinement : ℕ
deriving Repr

/-- getConcentrationAtTime of scheduleOptimizer: the rounded-key lookup
map (createConcentrationLookup, where a later point overwrites an
earlier one with the same rounded key) followed by a first-within-
tolerance linear scan. -/
def getConcentrationAtTime (time : ℚ) (points : List ConcentrationPoint) :
    Option ConcentrationPoint :=
  match points.reverse.find? (fun p => round2 p.time = round2 time) with
  | some exact => some exact
  | none => points.find? (fun p => |p.time - time| < TIME_POINT_TOLERANCE)

/-- Per-sample accumulation step of calculateMSE: running sums and
counts for estradiol and progesterone squared relative errors. -/
structure MSEAccum where
  estSum : ℚ
  estCount : ℕ
  progSum : ℚ
  progCount : ℕ
deriving Repr

/-- Inner loop of calculateMSE over the sub-day sample offsets of one
reference point. -/
def mseAccumPoint (generated : List ConcentrationPoint) (refPoint : ReferencePoint)
    (acc : MSEAccum) (offsets : List ℚ) : MSEAccum :=
  offsets.foldl (fun acc offset =>
    let time := refPoint.day + offset
    match getConcentrationAtTime time generated with
    | none => acc
    | some genPoint =>
      let denom := if refPoint.estradiol = 0 then 1 else refPoint.estradiol
      let estradiolError := (genPoint.estradiolConcentration - refPoint.estradiol) / denom
      let acc1 : MSEAccum :=
        ⟨acc.estSum + estradiolError * estradiolError, acc.estCount + 1,
         acc.progSum, acc.progCount⟩
      match refPoint.progesterone with
      | some p =>
        if p > 0 then
          let progesteroneError := (genPoint.progesteroneConcentration - p) / p
          ⟨acc1.estSum, acc1.estCount,
           acc1.progSum + progesteroneError * progesteroneError, acc1.progCount + 1⟩
        else acc1
      | none => acc1) acc

/-- The sub-day sample offsets i / SAMPLES_PER_DAY. -/
def sampleOffsets : List ℚ :=
  (List.range SAMPLES_PER_DAY).map fun i => (i : ℚ) / (SAMPLES_PER_DAY : ℚ)

/-- The steady-state virtual doses: copies of every dose shifted back by
whole cycles, for cycles STEADY_STATE_START_CYCLE up to -1. -/
def steadyStatePreCycles (doses : List Dose) (scheduleLength : ℕ) : List Dose :=
  ([-3, -2, -1] : List ℤ).flatMap fun cycle =>
    doses.map fun dose => { dose with day := dose.day + (cycle : ℚ) * (scheduleLength : ℚ) }

/-- calculateMSE of scheduleOptimizer, modelled without its memoization
cache (the pure miss value). -/
def calculateMSE (e : ℚ → ℚ) (doses : List Dose)
    (referenceData : List ReferencePoint) (scheduleLength : ℕ) (steadyState : Bool) : ℚ :=
  let dosesForCalc :=
    if steadyState then steadyStatePreCycles doses scheduleLength ++ doses else doses
  let timePoints := generateTimePoints (scheduleLength : ℚ) TIME_POINT_STEP
  let allGenerated := calculateTotalConcentration e dosesForCalc timePoints
  let generated := allGenerated.filter (fun p => p.time ≥ 0)
  let relevantRefData := referenceData.filter
    (fun r => r.day ≥ 0 ∧ r.day < (scheduleLength : ℚ))
  let acc := relevantRefData.foldl
    (fun acc refPoint => mseAccumPoint generated refPoint acc sampleOffsets) ⟨0, 0, 0, 0⟩
  let estradiolMSE := if acc.estCount > 0 then acc.estSum / (acc.estCount : ℚ) else 0
  let progesteroneMSE := if acc.progCount > 0 then acc.progSum / (acc.progCount : ℚ) else 0
  if acc.progCount > 0 then (estradiolMSE + progesteroneMSE) / 2 else estradiolMSE

/-- calculateMultiObjectiveScore of scheduleOptimizer. -/
def calculateMultiObjectiveScore (doses : List Dose) (mseScore : ℚ) (accuracyOnly : Bool) : ℚ :=
  if accuracyOnly then mseScore
  else
    let estradiolCount := doses.countP (fun d => isEstradiolMedication d.medication)
    let simplicityPenalty := (estradiolCount : ℚ) * SIMPLICITY_WEIGHT
    let uniqueDoses := (doses.map (fun d => round2 d.dose)).dedup.length
    let doseComplexityPenalty := (uniqueDoses : ℚ) * DOSE_COMPLEXITY_WEIGHT
    let base := mseScore + simplicityPenalty + doseComplexityPenalty
    if PREFER_FEWER_MEDICATIONS then
      base + ((doses.map (fun d => d.medication.name)).dedup.length : ℚ) * MEDICATION_VARIETY_PENALTY
    else base

/-- Key of the consolidation map: the day together with the medication
name (the source uses the string day-dash-name; the pair is the same
key for the day and name values that actually occur). -/
abbrev ConsKey := ℚ × String

/-- Map.set semantics on an insertion-ordered association list: update
in place if the key is present (merging the dose amounts as the source
does), else append. -/
def consUpdate (m : List (ConsKey × Dose)) (key : ConsKey) (d : Dose) :
    List (ConsKey × Dose) :=
  if m.any (fun kv => kv.1 = key) then
    m.map (fun kv => if kv.1 = key then (kv.1, { kv.2 with dose := kv.2.dose + d.dose }) else kv)
  else m ++ [(key, d)]

/-- consolidateDuplicateMedications of scheduleOptimizer: merge doses of
the same day and medication name, then stable-sort by day. -/
def consolidateDuplicateMedications (doses : List Dose) : List Dose :=
  let consolidated := doses.foldl
    (fun m dose => consUpdate m (dose.day, dose.medication.name) dose) []
  jsSortBy (fun a b => decide (a.day ≤ b.day)) (consolidated.map Prod.snd)

/-- hasRectalProgesteroneOnDay of scheduleOptimizer. -/
def hasRectalProgesteroneOnDay (doses : List Dose) (day : ℚ) (excludeIndex : Option ℕ) : Bool :=
  (doses.enum.any fun di =>
    decide (di.2.day = day) &&
    (match excludeIndex with | none => true | some j => decide (di.1 ≠ j)) &&
    (match di.2.medication with
     | .progesterone m => decide (m.route = Route.rectal)
     | .estradiol _ => false))

/-- countOralVaginalProgesteroneOnDay of scheduleOptimizer. -/
def countOralVaginalProgesteroneOnDay (doses : List Dose) (day : ℚ) : ℕ :=
  doses.countP fun d =>
    decide (d.day = day) &&
    (match d.medication with
     | .progesterone m => decide (m.route = Route.oral ∨ m.route = Route.vaginal)
     | .estradiol _ => false)

/-- canAddMedicationToDay of scheduleOptimizer. -/
def canAddMedicationToDay (medication : Medication) (day : ℚ) (currentDoses : List Dose)
    (maxInjectionsPerCycle : ℕ) : Bool :=
  let dosesOnDay := currentDoses.filter (fun d => d.day = day)
  let medicationsOnDay := dosesOnDay.map (fun d => d.medication.name)
  if isEstradiolMedication medication ∧ medicationsOnDay.contains medication.name then
    false
  else if isEstradiolMedication medication ∧
      currentDoses.countP (fun d => isEstradiolMedication d.medication) ≥
        maxInjectionsPerCycle then
    false
  else
    match medication with
    | .progesterone m =>
      match m.route with
      | .rectal => ¬ hasRectalProgesteroneOnDay currentDoses day none
      | _ => countOralVaginalProgesteroneOnDay currentDoses day <
          MAX_ORAL_VAGINAL_PROGESTERONE_PER_DAY
    | .estradiol _ => true

/-- generateCandidateDays of scheduleOptimizer. -/
def generateCandidateDays (scheduleLength : ℕ) (maxInjections : ℕ) : List ℚ :=
  if maxInjections = 1 then [0]
  else
    let step := (scheduleLength : ℚ) / (maxInjections : ℚ)
    (List.range maxInjections).foldl (fun days (i : ℕ) =>
      let day := min (jsRound ((i : ℚ) * step)) ((scheduleLength : ℚ) - 1)
      if days.contains day then days else days ++ [day]) []

/-- The initialization strategies used by the multi-start loop; the
unseeded RANDOM strategy of the source is never selected by
optimizeSchedule and is left unmodelled. -/
inductive InitStrategy
  | peakDays
  | evenDistribution
  | frontLoaded
  | backLoaded
deriving DecidableEq, Repr

/-- Ordered deduplication, the observable content of a JavaScript Set
built by insertion. -/
def orderedDedup (l : List ℚ) : List ℚ :=
  l.foldl (fun acc x => if acc.contains x then acc else acc ++ [x]) []

/-- generateInitialDays of scheduleOptimizer. -/
def generateInitialDays (strategy : InitStrategy) (scheduleLength : ℕ) (maxInjections : ℕ)
    (referenceData : List ReferencePoint) : List ℚ :=
  match strategy with
  | .peakDays =>
    let peakDays :=
      jsSortBy (fun a b => decide (a ≤ b))
        (((jsSortBy (fun a b => decide (b.estradiol ≤ a.estradiol))
            (referenceData.filter (fun r => r.day ≥ 0 ∧ r.day < (scheduleLength : ℚ)))).take
              maxInjections).map (fun r => ((⌊r.day⌋ : ℤ) : ℚ)))
    if peakDays.length ≥ maxInjections then peakDays
    else generateCandidateDays scheduleLength maxInjections
  | .evenDistribution => generateCandidateDays scheduleLength maxInjections
  | .frontLoaded =>
    let firstThird : ℚ := ((⌊(scheduleLength : ℚ) / 3⌋ : ℤ) : ℚ)
    let frontLoadCount : ℕ := (⌈(maxInjections : ℚ) * (7/10)⌉ : ℤ).toNat
    let remainingCount : ℕ := maxInjections - frontLoadCount
    let frontDays := (List.range frontLoadCount).map fun i =>
      ((⌊((i : ℚ) / (frontLoadCount : ℚ)) * firstThird⌋ : ℤ) : ℚ)
    let restDays := (List.range remainingCount).map fun i =>
      firstThird + ((⌊((i : ℚ) / (remainingCount : ℚ)) * ((scheduleLength : ℚ) - firstThird)⌋ : ℤ) : ℚ)
    (jsSortBy (fun a b => decide (a ≤ b)) (orderedDedup (frontDays ++ restDays))).take
      maxInjections
  | .backLoaded =>
    let lastThirdStart : ℚ := ((⌊(scheduleLength : ℚ) * 2 / 3⌋ : ℤ) : ℚ)
    let backLoadCount : ℕ := (⌈(maxInjections : ℚ) * (7/10)⌉ : ℤ).toNat
    let remainingCount : ℕ := maxInjections - backLoadCount
    let frontDays := (List.range remainingCount).map fun i =>
      ((⌊((i : ℚ) / (remainingCount : ℚ)) * lastThirdStart⌋ : ℤ) : ℚ)
    let backDays := (List.range backLoadCount).map fun i =>
      lastThirdStart +
        ((⌊((i : ℚ) / (backLoadCount : ℚ)) * ((scheduleLength : ℚ) - lastThirdStart)⌋ : ℤ) : ℚ)
    (jsSortBy (fun a b => decide (a ≤ b)) (orderedDedup (frontDays ++ backDays))).take
      maxInjections

/-- The score the optimizer assigns a candidate dose list: its
multi-objective score over its mean squared error, the composition the
source computes at every evaluation site. -/
def scoreOf (e : ℚ → ℚ) (referenceData : List ReferencePoint) (scheduleLength : ℕ)
    (steadyState : Bool) (accuracyOnly : Bool) (doses : List Dose) : ℚ :=
  calculateMultiObjectiveScore doses
    (calculateMSE e doses referenceData scheduleLength steadyState) accuracyOnly

/-- Result triple returned by every phase. -/
structure PhaseResult where
  doses : List Dose
  score : ℚ
  improved : Bool
deriving Repr

/-- The list with the element at one index removed, as the source
filter on indices. -/
def removeAtIdx (l : List Dose) (i : ℕ) : List Dose :=
  (l.enum.filter (fun p => p.1 ≠ i)).map Prod.snd

/-- tryRemoveEstradiolDose of scheduleOptimizer: when the estradiol dose
count exceeds the cap, remove the single estradiol dose whose removal
scores best; the fold carries the best (score, index) found, none
standing for the initial infinite score. -/
def tryRemoveEstradiolDose (e : ℚ → ℚ) (state : OptimizationState)
    (referenceData : List ReferencePoint) (scheduleLength : ℕ) (steadyState : Bool)
    (maxInjectionsPerCycle : ℕ) (accuracyOnly : Bool) : PhaseResult :=
  let ds := state.currentDoses
  if ds.countP (fun d => isEstradiolMedication d.medication) ≤ maxInjectionsPerCycle then
    ⟨ds, state.currentScore, false⟩
  else
    let best := (List.range ds.length).reverse.foldl (fun (best : Option (ℚ × ℕ)) i =>
      match ds.get? i with
      | none => best
      | some d =>
        if ¬ isEstradiolMedication d.medication then best
        else
          let withoutDose := removeAtIdx ds i
          if withoutDose.length = 0 then best
          else
            let s := scoreOf e referenceData scheduleLength steadyState accuracyOnly withoutDose
            match best with
            | none => some (s, i)
            | some b => if s < b.1 then some (s, i) else best) none
    match best with
    | some b => ⟨removeAtIdx ds b.2, b.1, true⟩
    | none => ⟨ds, state.currentScore, false⟩

/-- One up or down stepping loop of the estradiol branch of
tryAdjustDoses: try up to the remaining number of steps, stopping at
the bound, keeping the best (dose, score, accepted) triple. -/
def adjustStepsGo (tryDose : ℕ → ℚ) (stop : ℚ → Bool) (eval : ℚ → ℚ) :
    ℕ → ℕ → ℚ × ℚ × Bool → ℚ × ℚ × Bool
  | 0, _, best => best
  | remaining + 1, n, best =>
    let testDose := tryDose n
    if stop testDose then best
    else
      let newScore := eval testDose
      let best' := if newScore < best.2.1 then (testDose, newScore, true) else best
      adjustStepsGo tryDose stop eval remaining (n + 1) best'

/-- Body of tryAdjustDoses over the remaining doses; done holds the
already-processed prefix with its committed amounts. -/
def tryAdjustDosesGo (e : ℚ → ℚ) (referenceData : List ReferencePoint)
    (scheduleLength : ℕ) (steadyState : Bool) (accuracyOnly : Bool)
    (progesteroneDoses : List ℚ) (effectiveGranularity maxDose minDose : ℚ)
    (concTbl : List (String × ℚ)) :
    List Dose → List Dose → ℚ → Bool → List Dose × ℚ × Bool
  | done, [], score, imp => (done, score, imp)
  | done, d :: todo, score, imp =>
    let eval := fun amt =>
      scoreOf e referenceData scheduleLength steadyState accuracyOnly
        (done ++ { d with dose := amt } :: todo)
    let best :=
      match d.medication with
      | .progesterone _ =>
        progesteroneDoses.foldl (fun (best : ℚ × ℚ × Bool) testDose =>
          if testDose = d.dose then best
          else if testDose > maxDose ∨ testDose < minDose then best
          else
            let newScore := eval testDose
            if newScore < best.2.1 then (testDose, newScore, true) else best)
          (d.dose, score, false)
      | .estradiol _ =>
        let concentration := concLookup concTbl d.medication.name 40
        let originalVolumeMl := d.dose / concentration
        let afterUp := adjustStepsGo
          (fun n => (originalVolumeMl + effectiveGranularity * (n : ℚ)) * concentration)
          (fun t => t > maxDose) eval MAX_DOSE_ADJUSTMENT_STEPS 1 (d.dose, score, false)
        adjustStepsGo
          (fun n => max (1/100) (originalVolumeMl - effectiveGranularity * (n : ℚ)) * concentration)
          (fun t => t < minDose) eval MAX_DOSE_ADJUSTMENT_STEPS 1 afterUp
    tryAdjustDosesGo e referenceData scheduleLength steadyState accuracyOnly
      progesteroneDoses effectiveGranularity maxDose minDose concTbl
      (done ++ [{ d with dose := best.1 }]) todo best.2.1 (imp || best.2.2)

/-- tryAdjustDoses of scheduleOptimizer. -/
def tryAdjustDoses (e : ℚ → ℚ) (state : OptimizationState)
    (referenceData : List ReferencePoint) (scheduleLength : ℕ) (steadyState : Bool)
    (params : OptimizationParams) (accuracyOnly : Bool) : PhaseResult :=
  let effectiveGranularity := params.granularityD * state.currentGranularityMultiplier
  let r := tryAdjustDosesGo e referenceData scheduleLength steadyState accuracyOnly
    params.progDosesD effectiveGranularity params.maxDoseD params.minDoseD
    params.esterConcentrations [] state.currentDoses state.currentScore false
  ⟨r.1, r.2.1, r.2.2⟩

/-- getHighValueDays of scheduleOptimizer, as the insertion-ordered
content of the set it builds. -/
def getHighValueDays (referenceData : List ReferencePoint) (scheduleLength : ℕ)
    (isProgesterone : Bool) : List ℚ :=
  let relevantData := referenceData.filter
    (fun r => r.day ≥ 0 ∧ r.day < (scheduleLength : ℚ))
  let value := fun (r : ReferencePoint) =>
    if isProgesterone then r.progesterone.getD 0 else r.estradiol
  let sortedValues := jsSortBy (fun a b => decide (a ≤ b)) (relevantData.map value)
  let median := (sortedValues.get? (relevantData.length / 2)).getD 0
  orderedDedup ((relevantData.filter (fun r => value r ≥ median)).map
    (fun r => ((⌊r.day⌋ : ℤ) : ℚ)))

/-- Body of tryMoveDays over the remaining doses. -/
def tryMoveDaysGo (e : ℚ → ℚ) (referenceData : List ReferencePoint)
    (scheduleLength : ℕ) (steadyState : Bool) (accuracyOnly : Bool)
    (highE highP : List ℚ) :
    List Dose → List Dose → ℚ → Bool → List Dose × ℚ × Bool
  | done, [], score, imp => (done, score, imp)
  | done, d :: todo, score, imp =>
    let isProg := isProgesteroneMedication d.medication
    let highValueDays := if isProg then highP else highE
    let candidateDays := orderedDedup (highValueDays ++
      [max 0 (d.day - 3), max 0 (d.day - 2), max 0 (d.day - 1),
       min ((scheduleLength : ℚ) - 1) (d.day + 1),
       min ((scheduleLength : ℚ) - 1) (d.day + 2),
       min ((scheduleLength : ℚ) - 1) (d.day + 3)])
    let best := candidateDays.foldl (fun best newDay =>
      if newDay = d.day then best
      else
        let newScore := scoreOf e referenceData scheduleLength steadyState accuracyOnly
          (done ++ { d with day := newDay } :: todo)
        if newScore < best.2.1 then (newDay, newScore, true) else best)
      (d.day, score, false)
    let committed := if best.1 ≠ d.day then ({ d with day := best.1 }, best.2.1) else (d, score)
    tryMoveDaysGo e referenceData scheduleLength steadyState accuracyOnly highE highP
      (done ++ [committed.1]) todo committed.2 (imp || best.2.2)

/-- tryMoveDays of scheduleOptimizer. -/
def tryMoveDays (e : ℚ → ℚ) (state : OptimizationState)
    (referenceData : List ReferencePoint) (scheduleLength : ℕ) (steadyState : Bool)
    (accuracyOnly : Bool) : PhaseResult :=
  let highE := getHighValueDays referenceData scheduleLength false
  let highP := getHighValueDays referenceData scheduleLength true
  let r := tryMoveDaysGo e referenceData scheduleLength steadyState accuracyOnly highE highP
    [] state.currentDoses state.currentScore false
  ⟨r.1, r.2.1, r.2.2⟩

/-- getEstradiolHalfLife of scheduleOptimizer; ln2 stands for
Math.log(2). -/
def getEstradiolHalfLife (ln2 : ℚ) : Medication → ℚ
  | .estradiol m => ln2 / m.k2
  | .progesterone _ => 0

/-- selectBestEstersForGap of scheduleOptimizer: the two estradiol
medications whose derived half-life is closest to forty percent of the
gap; all medications when no estradiol one is available. -/
def selectBestEstersForGap (ln2 gapDays : ℚ) (availableEsters : List Medication) :
    List Medication :=
  let estradiolEsters := availableEsters.filter isEstradiolMedication
  if estradiolEsters.length = 0 then availableEsters
  else
    let targetHalfLife := gapDays * (2/5)
    (jsSortBy (fun a b =>
        decide (|getEstradiolHalfLife ln2 a - targetHalfLife| ≤
                |getEstradiolHalfLife ln2 b - targetHalfLife|)) estradiolEsters).take 2

/-- The no-initial-value reduce picking the list element closest to x. -/
def nearestTo (l : List ℚ) (x : ℚ) : ℚ :=
  match l with
  | [] => 0
  | h :: t => t.foldl (fun prev curr => if |curr - x| < |prev - x| then curr else prev) h

/-- Minimum of a list, the spread Math.min of the source; 0 on the
empty list, on which the source would produce Infinity. -/
def minList (l : List ℚ) : ℚ :=
  match l with
  | [] => 0
  | h :: t => t.foldl min h

/-- Body of trySwitchMedications over the remaining doses. -/
def trySwitchMedicationsGo (e : ℚ → ℚ) (ln2 : ℚ) (referenceData : List ReferencePoint)
    (scheduleLength : ℕ) (steadyState : Bool) (accuracyOnly : Bool)
    (availableEsters : List Medication) (progesteroneDoses : List ℚ)
    (concTbl : List (String × ℚ)) (maxDose : ℚ) :
    List Dose → List Dose → ℚ → Bool → List Dose × ℚ × Bool
  | done, [], score, imp => (done, score, imp)
  | done, d :: todo, score, imp =>
    let cur := done ++ d :: todo
    let candidateEsters :=
      if isEstradiolMedication d.medication then
        let nextInjection := (jsSortBy (fun a b => decide (a.day ≤ b.day))
          (cur.filter (fun x => x.day > d.day ∧ isEstradiolMedication x.medication))).head?
        let gapDays := match nextInjection with
          | some n => n.day - d.day
          | none => (scheduleLength : ℚ) - d.day
        selectBestEstersForGap ln2 gapDays availableEsters
      else availableEsters
    let best := candidateEsters.foldl (fun (best : Medication × ℚ × ℚ × Bool) ester =>
      if ester.name = d.medication.name then best
      else if (match ester with
               | .progesterone m => m.route = Route.rectal
               | .estradiol _ => False : Bool) &&
              hasRectalProgesteroneOnDay cur d.day (some done.length) then best
      else
        let testDose :=
          if isProgesteroneMedication ester then nearestTo progesteroneDoses d.dose
          else if isProgesteroneMedication d.medication then
            min (DEFAULT_ESTRADIOL_STARTING_VOLUME_ML * concLookup concTbl ester.name 40)
              maxDose
          else d.dose
        let newScore := scoreOf e referenceData scheduleLength steadyState accuracyOnly
          (done ++ { d with medication := ester, dose := testDose } :: todo)
        if newScore < best.2.2.1 then (ester, testDose, newScore, true) else best)
      (d.medication, d.dose, score, false)
    trySwitchMedicationsGo e ln2 referenceData scheduleLength steadyState accuracyOnly
      availableEsters progesteroneDoses concTbl maxDose
      (done ++ [{ d with medication := best.1, dose := best.2.1 }]) todo best.2.2.1
      (imp || best.2.2.2)

/-- trySwitchMedications of scheduleOptimizer. -/
def trySwitchMedications (e : ℚ → ℚ) (ln2 : ℚ) (state : OptimizationState)
    (referenceData : List ReferencePoint) (scheduleLength : ℕ) (steadyState : Bool)
    (params : OptimizationParams) (accuracyOnly : Bool) : PhaseResult :=
  if params.availableEsters.length ≤ 1 then ⟨state.currentDoses, state.currentScore, false⟩
  else
    let r := trySwitchMedicationsGo e ln2 referenceData scheduleLength steadyState accuracyOnly
      params.availableEsters params.progDosesD params.esterConcentrations params.maxDoseD
      [] state.currentDoses state.currentScore false
    ⟨r.1, r.2.1, r.2.2⟩

/-- Inner fold of tryAddMedications over the available medications for
one candidate day. -/
def tryAddMedicationsDay (e : ℚ → ℚ) (referenceData : List ReferencePoint)
    (scheduleLength : ℕ) (steadyState : Bool) (accuracyOnly : Bool)
    (availableEsters : List Medication) (progesteroneDoses : List ℚ)
    (concTbl : List (String × ℚ)) (maxInjectionsPerCycle : ℕ) (maxDose : ℚ) (day : ℚ)
    (acc : List Dose × ℚ × Bool) : List Dose × ℚ × Bool :=
  availableEsters.foldl (fun (acc : List Dose × ℚ × Bool) med =>
    if ¬ canAddMedicationToDay med day acc.1 maxInjectionsPerCycle then acc
    else
      let concentration := concLookup concTbl med.name 100
      let initialDose :=
        if isProgesteroneMedication med then progesteroneDoses.headD 0
        else min (DEFAULT_ESTRADIOL_STARTING_VOLUME_ML * concentration) maxDose
      let testDoses := acc.1 ++ [⟨day, initialDose, med⟩]
      let newScore := scoreOf e referenceData scheduleLength steadyState accuracyOnly testDoses
      if newScore < acc.2.1 then (testDoses, newScore, true) else acc) acc

/-- tryAddMedications of scheduleOptimizer. -/
def tryAddMedications (e : ℚ → ℚ) (state : OptimizationState)
    (referenceData : List ReferencePoint) (scheduleLength : ℕ) (steadyState : Bool)
    (params : OptimizationParams) (accuracyOnly : Bool) : PhaseResult :=
  if params.availableEsters.length ≤ 1 then ⟨state.currentDoses, state.currentScore, false⟩
  else
    let importanceScore := fun (r : ReferencePoint) => r.estradiol + (r.progesterone.getD 0) * 10
    let daysByImportance := (jsSortBy
      (fun a b => decide (importanceScore b ≤ importanceScore a))
      (referenceData.filter (fun r => r.day ≥ 0 ∧ r.day < (scheduleLength : ℚ)))).map
        (fun r => ((⌊r.day⌋ : ℤ) : ℚ))
    let r := daysByImportance.foldl (fun acc day =>
      tryAddMedicationsDay e referenceData scheduleLength steadyState accuracyOnly
        params.availableEsters params.progDosesD params.esterConcentrations
        params.maxInjD params.maxDoseD day acc)
      (state.currentDoses, state.currentScore, false)
    ⟨r.1, r.2.1, r.2.2⟩

/-- A progress callback invocation: percentage, current score,
iteration number. -/
abbrev ProgressCall := ℚ × ℚ × ℕ

/-- The loop state: the optimization state together with the calls made
so far to the progress callback. -/
structure LoopState where
  state : OptimizationState
  calls : List ProgressCall
deriving Repr

/-- The estimated progress percentage reported at an iteration: the
exponential-saturation estimate capped below the display maximum. -/
def progressValue (e : ℚ → ℚ) (iterations : ℕ) : ℚ :=
  min MAX_DISPLAYED_PROGRESS_UNTIL_COMPLETE
    (jsRound ((1 - e (-(iterations : ℚ) / PROGRESS_CONVERGENCE_RATE)) * 100))

/-- The commit pattern of every phase call site: replace the working
doses and score when the phase reports an improvement. -/
def commitPhase (s : OptimizationState) (r : PhaseResult) : OptimizationState :=
  if r.improved then { s with currentDoses := r.doses, currentScore := r.score } else s

/-- The five phases of one loop iteration in their fixed order, followed
by the best-snapshot update. -/
def runPhases (e : ℚ → ℚ) (ln2 : ℚ) (params : OptimizationParams)
    (referenceData : List ReferencePoint) (s1 : OptimizationState) : OptimizationState :=
  let scheduleLength := params.scheduleLength
  let steadyState := params.steadyStateD
  let accuracyOnly := params.accOnlyD
  let s2 := commitPhase s1 (tryRemoveEstradiolDose e s1 referenceData scheduleLength
    steadyState params.maxInjD accuracyOnly)
  let s3 := commitPhase s2 (tryAdjustDoses e s2 referenceData scheduleLength steadyState
    params accuracyOnly)
  let s4 := commitPhase s3 (tryMoveDays e s3 referenceData scheduleLength steadyState
    accuracyOnly)
  let s5 := commitPhase s4 (trySwitchMedications e ln2 s4 referenceData scheduleLength
    steadyState params accuracyOnly)
  let s6 := commitPhase s5 (tryAddMedications e s5 referenceData scheduleLength steadyState
    params accuracyOnly)
  if s6.currentScore < s6.bestScoreThisRun then
    { s6 with bestScoreThisRun := s6.currentScore, bestDosesThisRun := s6.currentDoses }
  else s6

/-- The convergence and adaptive-refinement logic closing one loop
iteration; inl continues, inr is the break. -/
def convergenceStep (previousScore : ℚ) (s7 : OptimizationState) :
    OptimizationState ⊕ OptimizationState :=
  let improvement := previousScore - s7.currentScore
  let hasImproved := improvement > MIN_IMPROVEMENT_THRESHOLD
  if ¬ hasImproved then
    let noImp := s7.noImprovementCount + 1
    let since := s7.iterationsSinceRefinement + 1
    if ADAPTIVE_GRANULARITY_ENABLED ∧ since ≥ GRANULARITY_REFINEMENT_TRIGGER ∧
        s7.currentGranularityMultiplier > MIN_GRANULARITY_MULTIPLIER then
      .inl { s7 with
        currentGranularityMultiplier :=
          max MIN_GRANULARITY_MULTIPLIER (s7.currentGranularityMultiplier / 2),
        iterationsSinceRefinement := 0,
        noImprovementCount := 0 }
    else if noImp ≥ NO_IMPROVEMENT_ITERATIONS_LIMIT then
      .inr { s7 with noImprovementCount := noImp, iterationsSinceRefinement := since }
    else
      .inl { s7 with noImprovementCount := noImp, iterationsSinceRefinement := since }
  else
    .inl { s7 with noImprovementCount := 0, iterationsSinceRefinement := 0 }

/-- One iteration of the optimization loop of optimizeSchedule: bump
the iteration counter, report progress every fifth iteration, run the
five phases committing each improvement, update the best snapshot, then
apply the convergence and adaptive-refinement logic; inl continues the
loop, inr is the break. -/
def iterationStep (e : ℚ → ℚ) (ln2 : ℚ) (params : OptimizationParams)
    (referenceData : List ReferencePoint) (hasCallback : Bool) (ls : LoopState) :
    LoopState ⊕ LoopState :=
  let s1 : OptimizationState := { ls.state with iterations := ls.state.iterations + 1 }
  let calls1 :=
    if hasCallback && decide (s1.iterations % 5 = 0) then
      ls.calls ++ [(progressValue e s1.iterations, s1.currentScore, s1.iterations)]
    else ls.calls
  match convergenceStep s1.currentScore (runPhases e ln2 params referenceData s1) with
  | .inl continued => .inl ⟨continued, calls1⟩
  | .inr finished => .inr ⟨finished, calls1⟩

/-- The optimization loop, with fuel standing in for the unbounded
while loop; none means the fuel ran out before the break. -/
def optimizeLoopGo (e : ℚ → ℚ) (ln2 : ℚ) (params : OptimizationParams)
    (referenceData : List ReferencePoint) (hasCallback : Bool) :
    ℕ → LoopState → Option LoopState
  | 0, _ => none
  | fuel + 1, ls =>
    match iterationStep e ln2 params referenceData hasCallback ls with
    | .inl continued => optimizeLoopGo e ln2 params referenceData hasCallback fuel continued
    | .inr finished => some finished

/-- A default state used only to make list indexing total where the
source indexes a list it knows is nonempty. -/
def junkState : OptimizationState := ⟨[], 0, 0, 0, 0, [], 0, 0⟩

/-- The initial beam of optimizeSchedule: one state per multi-start
strategy, rotating the primary medication through the available ones. -/
def initialBeam (e : ℚ → ℚ) (params : OptimizationParams)
    (referenceData : List ReferencePoint) : List OptimizationState :=
  let initialGranularityMultiplier :=
    if ADAPTIVE_GRANULARITY_ENABLED then INITIAL_GRANULARITY_MULTIPLIER else 1
  let estradiolMeds := params.availableEsters.filter isEstradiolMedication
  let primaryMedications :=
    if estradiolMeds.length > 0 then estradiolMeds else params.availableEsters
  let strategies := [InitStrategy.peakDays, InitStrategy.evenDistribution,
    InitStrategy.frontLoaded]
  strategies.enum.map fun is =>
    let primaryEster := (primaryMedications.get? (is.1 % primaryMedications.length)).getD default
    let startingDose :=
      if isProgesteroneMedication primaryEster then (params.progDosesD).headD 0
      else
        min (DEFAULT_ESTRADIOL_STARTING_VOLUME_ML *
          concLookup params.esterConcentrations primaryEster.name 40) params.maxDoseD
    let candidateDays := generateInitialDays is.2 params.scheduleLength params.maxInjD
      referenceData
    let initialDoses := candidateDays.map fun day => (⟨day, startingDose, primaryEster⟩ : Dose)
    let initialMSE := calculateMSE e initialDoses referenceData params.scheduleLength
      params.steadyStateD
    let initialScore := calculateMultiObjectiveScore initialDoses initialMSE params.accOnlyD
    { currentDoses := initialDoses
      currentScore := initialScore
      iterations := 0
      noImprovementCount := 0
      bestScoreThisRun := initialScore
      bestDosesThisRun := initialDoses
      currentGranularityMultiplier := initialGranularityMultiplier
      iterationsSinceRefinement := 0 }

/-- The final validation mapping of optimizeSchedule: progesterone
rounds to its discrete dose grid (single nearest dose for rectal),
estradiol rounds its volume to the granularity and clamps to the
maximum only. -/
def finalizeDose (params : OptimizationParams) (d : Dose) : Dose :=
  match d.medication with
  | .progesterone m =>
    let smallestDose := minList params.progDosesD
    let roundedDose := jsRound (d.dose / smallestDose) * smallestDose
    if m.route = Route.rectal then { d with dose := nearestTo params.progDosesD d.dose }
    else { d with dose := max smallestDose roundedDose }
  | .estradiol _ =>
    let concentration := concLookup params.esterConcentrations d.medication.name 40
    let volumeMl := d.dose / concentration
    let roundedVolumeMl := jsRound (volumeMl / params.granularityD) * params.granularityD
    let roundedDose := roundedVolumeMl * concentration
    { d with dose := min roundedDose params.maxDoseD }

/-- optimizeSchedule of scheduleOptimizer.  The error is the thrown
exception of the source; ok none reports loop fuel exhaustion, which
stands for the source still iterating; hasCallback models whether an
onProgress callback was supplied, and the returned list collects its
invocations. -/
def optimizeSchedule (e : ℚ → ℚ) (ln2 : ℚ) (fuel : ℕ) (params : OptimizationParams)
    (hasCallback : Bool) :
    Except String (Option (OptimizationResult × List ProgressCall)) :=
  if params.availableEsters = [] then .error "At least one ester must be available"
  else
    let referenceData := generateReferenceCycle params.scheduleLength params.referenceCycleType
    let beam := (jsSortBy (fun a b => decide (a.currentScore ≤ b.currentScore))
      (initialBeam e params referenceData)).take BEAM_WIDTH
    let state0 := beam.headD junkState
    match optimizeLoopGo e ln2 params referenceData hasCallback fuel ⟨state0, []⟩ with
    | none => .ok none
    | some lsEnd =>
      let sBest := { lsEnd.state with
        currentDoses := lsEnd.state.bestDosesThisRun,
        currentScore := lsEnd.state.bestScoreThisRun }
      let sCons := { sBest with
        currentDoses := consolidateDuplicateMedications sBest.currentDoses }
      let iterations := sCons.iterations
      let calls :=
        if hasCallback then lsEnd.calls ++ [(100, sCons.currentScore, iterations)]
        else lsEnd.calls
      let finalDoses := (sCons.currentDoses.map (finalizeDose params)).filter
        (fun d => d.dose ≥ params.minDoseD)
      let finalScore := calculateMSE e finalDoses referenceData params.scheduleLength
        params.steadyStateD
      .ok (some (⟨finalDoses, finalScore, iterations⟩, calls))

/-! Derived notions used by the statements and proofs. -/

/-- Number of doses whose medication is an estradiol ester. -/
def estCount (doses : List Dose) : ℕ :=
  doses.countP (fun d => isEstradiolMedication d.medication)

/-- Total dose amount a list carries for one (day, medication name)
pair. -/
def sumDoseFor (l : List Dose) (day : ℚ) (nam : String) : ℚ :=
  ((l.filter (fun d => d.day = day ∧ d.medication.name = nam)).map (fun d => d.dose)).sum

/-- Association-list invariant of the consolidation map: every binding
is keyed by the day and medication name of its value. -/
def WellKeyed (m : List (ConsKey × Dose)) : Prop :=
  ∀ kv ∈ m, kv.1 = (kv.2.day, kv.2.medication.name)

/-- The matched samples one reference point contributes: for each
sub-day offset, the generated point found for that time, if any. -/
def ptSamples (generated : List ConcentrationPoint) (r : ReferencePoint)
    (offsets : List ℚ) : List (ReferencePoint × ConcentrationPoint) :=
  offsets.filterMap fun o =>
    (getConcentrationAtTime (r.day + o) generated).map (fun g => (r, g))

/-- The curve the mean squared error samples against: the total
concentration over the half-day grid, restricted to nonnegative times,
with the steady-state pre-cycles prepended when requested. -/
def generatedCurve (e : ℚ → ℚ) (doses : List Dose) (scheduleLength : ℕ)
    (steadyState : Bool) : List ConcentrationPoint :=
  let dosesForCalc :=
    if steadyState then steadyStatePreCycles doses scheduleLength ++ doses else doses
  (calculateTotalConcentration e dosesForCalc
    (generateTimePoints (scheduleLength : ℚ) TIME_POINT_STEP)).filter
    (fun p => p.time ≥ 0)

/-- The matched samples of calculateMSE: for every in-range reference
point and sub-day offset, the generated point found for that time, if
any. -/
def matchedSamples (e : ℚ → ℚ) (doses : List Dose) (referenceData : List ReferencePoint)
    (scheduleLength : ℕ) (steadyState : Bool) :
    List (ReferencePoint × ConcentrationPoint) :=
  (referenceData.filter (fun r => r.day ≥ 0 ∧ r.day < (scheduleLength : ℚ))).flatMap
    fun r => ptSamples (generatedCurve e doses scheduleLength steadyState) r sampleOffsets

/-- The squared relative estradiol error of one matched sample, with
the zero-target fallback divisor of the source. -/
def estSqErr (s : ReferencePoint × ConcentrationPoint) : ℚ :=
  ((s.2.estradiolConcentration - s.1.estradiol) /
    (if s.1.estradiol = 0 then 1 else s.1.estradiol)) ^ 2

/-- The squared relative progesterone error of one matched sample, when
its progesterone target is present and positive. -/
def progSqErr (s : ReferencePoint × ConcentrationPoint) : Option ℚ :=
  match s.1.progesterone with
  | some p => if p > 0 then some (((s.2.progesteroneConcentration - p) / p) ^ 2) else none
  | none => none

/-- The mean squared error as claim C4 words it: squared relative error
with the target itself as divisor, per-hormone averages, combined
whenever progesterone targets exist anywhere in the reference data. -/
def mseSpecClaim (e : ℚ → ℚ) (doses : List Dose) (referenceData : List ReferencePoint)
    (scheduleLength : ℕ) (steadyState : Bool) : ℚ :=
  let samples := matchedSamples e doses referenceData scheduleLength steadyState
  let estErrs := samples.map fun s =>
    ((s.2.estradiolConcentration - s.1.estradiol) / s.1.estradiol) ^ 2
  let progErrs := samples.filterMap fun s =>
    s.1.progesterone.map fun p => ((s.2.progesteroneConcentration - p) / p) ^ 2
  let estAvg := estErrs.sum / (estErrs.length : ℚ)
  let progAvg := progErrs.sum / (progErrs.length : ℚ)
  if referenceData.any (fun r => r.progesterone.isSome) then (estAvg + progAvg) / 2
  else estAvg

/-- The mean squared error as the code computes it, restated over the
matched sample list: estradiol divisor falls back to 1 on a zero
target, progesterone errors are accumulated only at matched samples
with a positive progesterone target, and the averages are combined
exactly when at least one such sample exists. -/
def mseSpecAmended (e : ℚ → ℚ) (doses : List Dose) (referenceData : List ReferencePoint)
    (scheduleLength : ℕ) (steadyState : Bool) : ℚ :=
  let samples := matchedSamples e doses referenceData scheduleLength steadyState
  let estErrs := samples.map estSqErr
  let progErrs := samples.filterMap progSqErr
  let estAvg := if estErrs.length > 0 then estErrs.sum / (estErrs.length : ℚ) else 0
  let progAvg := if progErrs.length > 0 then progErrs.sum / (progErrs.length : ℚ) else 0
  if progErrs.length > 0 then (estAvg + progAvg) / 2 else estAvg

/-- The state invariant maintained by the optimization loop, for fixed
exponential model, parameters and reference data: purity of the dose
medications according to whether an estradiol medication is available,
the estradiol cap on both the working and best dose lists, consistency
of the working score, and the counter bookkeeping facts. -/
structure StateInv (e : ℚ → ℚ) (params : OptimizationParams)
    (referenceData : List ReferencePoint) (s : OptimizationState) : Prop where
  pureCurA : params.availableEsters.filter isEstradiolMedication ≠ [] →
    ∀ d ∈ s.currentDoses, isEstradiolMedication d.medication = true
  pureBestA : params.availableEsters.filter isEstradiolMedication ≠ [] →
    ∀ d ∈ s.bestDosesThisRun, isEstradiolMedication d.medication = true
  pureCurB : params.availableEsters.filter isEstradiolMedication = [] →
    ∀ d ∈ s.currentDoses, isEstradiolMedication d.medication = false
  pureBestB : params.availableEsters.filter isEstradiolMedication = [] →
    ∀ d ∈ s.bestDosesThisRun, isEstradiolMedication d.medication = false
  capCur : estCount s.currentDoses ≤ params.maxInjD
  capBest : estCount s.bestDosesThisRun ≤ params.maxInjD
  consistent : s.currentScore = scoreOf e referenceData params.scheduleLength
    params.steadyStateD params.accOnlyD s.currentDoses
  noImpBound : s.noImprovementCount ≤ 2
  sinceEq : s.iterationsSinceRefinement = s.noImprovementCount
  multMem : s.currentGranularityMultiplier = 4 ∨ s.currentGranularityMultiplier = 2 ∨
    s.currentGranularityMultiplier = 1

/-- Termination measure of the optimization loop: lexicographic
combination of the score in threshold units, the granularity
multiplier, and the remaining no-improvement budget. -/
def iterMeasure (s : OptimizationState) : ℕ :=
  100 * (⌊s.currentScore * 10000⌋).toNat +
    8 * (⌊s.currentGranularityMultiplier⌋).toNat +
    (3 - s.noImprovementCount)

/-- The cap property of claim C1 on a finished run value. -/
def CapOk (cap : ℕ) (v : Except String (Option (OptimizationResult × List ProgressCall))) :
    Prop :=
  match v with
  | .ok (some (r, _)) => estCount r.doses ≤ cap
  | _ => True

/-- The dose-bound property of the amended claim C3 on a finished run
value: every surviving dose is at least the minimum, and estradiol
doses are also clamped to the maximum. -/
def DoseBoundsOk (minDose maxDose : ℚ)
    (v : Except String (Option (OptimizationResult × List ProgressCall))) : Prop :=
  match v with
  | .ok (some (r, _)) => ∀ d ∈ r.doses,
      minDose ≤ d.dose ∧ (isEstradiolMedication d.medication = true → d.dose ≤ maxDose)
  | _ => True

/-- The progress-reporting contract of claim C7 on a finished run value:
at least one call, non-decreasing percentages, final call at 100. -/
def ProgressReportOk (v : Except String (Option (OptimizationResult × List ProgressCall))) :
    Prop :=
  match v with
  | .ok (some (_, calls)) => calls ≠ [] ∧
      List.Chain' (fun a b => a.1 ≤ b.1) calls ∧
      (calls.getLast?).map (fun c => c.1) = some (100 : ℚ)
  | _ => True

/-! Concrete inputs used by witnesses and counterexamples. -/

/-- A constant stand-in for Math.exp, usable wherever a claim does not
depend on the exponential values. -/
def expOne : ℚ → ℚ := fun _ => 1

/-- A rational stand-in for Math.log(2). -/
def lnTwoQ : ℚ := 7/10

/-- A concrete oral progesterone medication. -/
def progOral : Medication :=
  .progesterone ⟨"Progesterone oral", Route.oral, 1, 2, 1, 5⟩

/-- A concrete estradiol ester with pairwise distinct positive rate
constants. -/
def esterE1 : EstradiolMed := ⟨"Ester one", 5, 1, 2, 4⟩

/-- Parameters offering only the oral progesterone medication over a
two-day schedule, with every optional field left to its default. -/
def onlyProgParams : OptimizationParams :=
  { availableEsters := [progOral]
    scheduleLength := 2
    referenceCycleType := .typical
    esterConcentrations := [] }

/-- Reference data for the C4 counterexample: a single day-zero point
whose progesterone target is present but zero. -/
def cexRefC4 : List ReferencePoint := [⟨0, 1, some 0⟩]

/-- The relation between concentration points that the error function
observes for estradiol: equal time and equal estradiol component. -/

def PointRel (p q : ConcentrationPoint) : Prop :=
  p.time = q.time ∧ p.estradiolConcentration = q.estradiolConcentration

/-- One offset step of the per-point accumulation of calculateMSE. -/

def msePointStep (generated : List ConcentrationPoint) (refPoint : ReferencePoint)
    (acc : MSEAccum) (offset : ℚ) : MSEAccum :=
  let time := refPoint.day + offset
  match getConcentrationAtTime time generated with
  | none => acc
  | some genPoint =>
    let denom := if refPoint.estradiol = 0 then 1 else refPoint.estradiol
    let estradiolError := (genPoint.estradiolConcentration - refPoint.estradiol) / denom
    let acc1 : MSEAccum :=
      ⟨acc.estSum + estradiolError * estradiolError, acc.estCount + 1,
       acc.progSum, acc.progCount⟩
    match refPoint.progesterone with
    | some p =>
      if p > 0 then
        let progesteroneError := (genPoint.progesteroneConcentration - p) / p
        ⟨acc1.estSum, acc1.estCount,
         acc1.progSum + progesteroneError * progesteroneError, acc1.progCount + 1⟩
      else acc1
    | none => acc1

/-- The best (dose, score, improved) triple tryAdjustDoses selects for one
dose against a fixed context. -/

def adjustBest (e : ℚ → ℚ) (ref : List ReferencePoint) (L : ℕ) (ss acc : Bool)
    (progDoses : List ℚ) (gran maxD minD : ℚ) (concTbl : List (String × ℚ))
    (done : List Dose) (d : Dose) (rest : List Dose) (score : ℚ) : ℚ × ℚ × Bool :=
  let eval := fun amt =>
    scoreOf e ref L ss acc (done ++ { d with dose := amt } :: rest)
  match d.medication with
  | .progesterone _ =>
    progDoses.foldl (fun (best : ℚ × ℚ × Bool) testDose =>
      if testDose = d.dose then best
      else if testDose > maxD ∨ testDose < minD then best
      else
        let newScore := eval testDose
        if newScore < best.2.1 then (testDose, newScore, true) else best)
      (d.dose, score, false)
  | .estradiol _ =>
    let concentration := concLookup concTbl d.medication.name 40
    let originalVolumeMl := d.dose / concentration
    let afterUp := adjustStepsGo
      (fun n => (originalVolumeMl + gran * (n : ℚ)) * concentration)
      (fun t => t > maxD) eval MAX_DOSE_ADJUSTMENT_STEPS 1 (d.dose, score, false)
    adjustStepsGo
      (fun n => max (1/100) (originalVolumeMl - gran * (n : ℚ)) * concentration)
      (fun t => t < minD) eval MAX_DOSE_ADJUSTMENT_STEPS 1 afterUp

/-- The best (day, score, improved) triple tryMoveDays selects for one
dose against a fixed context. -/

def moveBest (e : ℚ → ℚ) (ref : List ReferencePoint) (L : ℕ) (ss acc : Bool)
    (highE highP : List ℚ) (done : List Dose) (d : Dose) (rest : List Dose)
    (score : ℚ) : ℚ × ℚ × Bool :=
  let isProg := isProgesteroneMedication d.medication
  let highValueDays := if isProg then highP else highE
  let candidateDays := orderedDedup (highValueDays ++
    [max 0 (d.day - 3), max 0 (d.day - 2), max 0 (d.day - 1),
     min ((L : ℚ) - 1) (d.day + 1),
     min ((L : ℚ) - 1) (d.day + 2),
     min ((L : ℚ) - 1) (d.day + 3)])
  candidateDays.foldl (fun best newDay =>
    if newDay = d.day then best
    else
      let newScore := scoreOf e ref L ss acc (done ++ { d with day := newDay } :: rest)
      if newScore < best.2.1 then (newDay, newScore, true) else best)
    (d.day, score, false)

/-- The candidate replacement medications trySwitchMedications considers
for one dose. -/

def switchCands (ln2 : ℚ) (L : ℕ) (availableEsters : List Medication)
    (cur : List Dose) (d : Dose) : List Medication :=
  if isEstradiolMedication d.medication then
    let nextInjection := (jsSortBy (fun a b => decide (a.day ≤ b.day))
      (cur.filter (fun x => x.day > d.day ∧ isEstradiolMedication x.medication))).head?
    let gapDays := match nextInjection with
      | some n => n.day - d.day
      | none => (L : ℚ) - d.day
    selectBestEstersForGap ln2 gapDays availableEsters
  else availableEsters

/-- The best (medication, dose, score, improved) tuple trySwitchMedications
selects for one dose against a fixed context. -/

def switchBest (e : ℚ → ℚ) (ln2 : ℚ) (ref : List ReferencePoint) (L : ℕ)
    (ss acc : Bool) (availableEsters : List Medication) (progDoses : List ℚ)
    (concTbl : List (String × ℚ)) (maxD : ℚ) (done : List Dose) (d : Dose)
    (rest : List Dose) (score : ℚ) : Medication × ℚ × ℚ × Bool :=
  let cur := done ++ d :: rest
  (switchCands ln2 L availableEsters cur d).foldl
    (fun (best : Medication × ℚ × ℚ × Bool) ester =>
      if ester.name = d.medication.name then best
      else if (match ester with
               | .progesterone m => m.route = Route.rectal
               | .estradiol _ => False : Bool) &&
              hasRectalProgesteroneOnDay cur d.day (some done.length) then best
      else
        let testDose :=
          if isProgesteroneMedication ester then nearestTo progDoses d.dose
          else if isProgesteroneMedication d.medication then
            min (DEFAULT_ESTRADIOL_STARTING_VOLUME_ML * concLookup concTbl ester.name 40)
              maxD
          else d.dose
        let newScore := scoreOf e ref L ss acc
          (done ++ { d with medication := ester, dose := testDose } :: rest)
        if newScore < best.2.2.1 then (ester, testDose, newScore, true) else best)
    (d.medication, d.dose, score, false)

/-- The invariant on the working dose list and score that every phase
preserves: score consistency, medication purity according to the
availability of an estradiol medication, and the estradiol cap. -/

def CurInv (e : ℚ → ℚ) (params : OptimizationParams) (ref : List ReferencePoint)
    (ds : List Dose) (sc : ℚ) : Prop :=
  sc = scoreOf e ref params.scheduleLength params.steadyStateD params.accOnlyD ds ∧
  (params.availableEsters.filter isEstradiolMedication ≠ [] →
    ∀ d ∈ ds, isEstradiolMedication d.medication = true) ∧
  (params.availableEsters.filter isEstradiolMedication = [] →
    ∀ d ∈ ds, isEstradiolMedication d.medication = false) ∧
  estCount ds ≤ params.maxInjD

/-! Lemmas about the stable sort model. -/

theorem insertLe_perm (le : α → α → Bool) (x : α) (l : List α) :
    (insertLe le x l).Perm (x :: l) := by
  induction l with
  | nil => rfl
  | cons y ys ih =>
    by_cases h : le y x
    · simpa [insertLe, h] using ((ih.cons y).trans (List.Perm.swap x y ys))
    · simp [insertLe, h]

theorem jsSortBy_perm (le : α → α → Bool) (l : List α) : (jsSortBy le l).Perm l := by
  suffices h : ∀ (l acc : List α),
      (l.foldl (fun acc x => insertLe le x acc) acc).Perm (acc ++ l) by
    simpa using h l []
  intro l
  induction l with
  | nil => simp
  | cons x xs ih =>
    intro acc
    have h1 := ih (insertLe le x acc)
    have h2 : (insertLe le x acc ++ xs).Perm (acc ++ x :: xs) := by
      have := (insertLe_perm le x acc).append_right xs
      exact this.trans (List.perm_middle.symm)
    simpa using h1.trans h2

theorem jsSortBy_length (le : α → α → Bool) (l : List α) :
    (jsSortBy le l).length = l.length :=
  (jsSortBy_perm le l).length_eq

theorem jsSortBy_mem (le : α → α → Bool) (l : List α) (x : α) :
    x ∈ jsSortBy le l ↔ x ∈ l :=
  (jsSortBy_perm le l).mem_iff

theorem insertLe_pairwise (κ : α → ℚ) (x : α) (l : List α)
    (h : l.Pairwise (fun a b => κ a ≤ κ b)) :
    (insertLe (fun a b => decide (κ a ≤ κ b)) x l).Pairwise (fun a b => κ a ≤ κ b) := by
  induction l with
  | nil => simp [insertLe]
  | cons y ys ih =>
    rcases List.pairwise_cons.mp h with ⟨hy, hys⟩
    by_cases hle : κ y ≤ κ x
    · have hmem : ∀ z ∈ insertLe (fun a b => decide (κ a ≤ κ b)) x ys, κ y ≤ κ z := by
        intro z hz
        rcases List.mem_cons.mp
            ((insertLe_perm (fun a b => decide (κ a ≤ κ b)) x ys).mem_iff.mp hz) with
          rfl | hz'
        · exact hle
        · exact hy z hz'
      simpa [insertLe, hle] using List.pairwise_cons.mpr ⟨hmem, ih hys⟩
    · have hxy : κ x ≤ κ y := le_of_not_le hle
      have : ∀ z ∈ y :: ys, κ x ≤ κ z := by
        intro z hz
        rcases List.mem_cons.mp hz with rfl | hz'
        · exact hxy
        · exact hxy.trans (hy z hz')
      simpa [insertLe, hle] using List.pairwise_cons.mpr ⟨this, h⟩

theorem jsSortBy_pairwise (κ : α → ℚ) (l : List α) :
    (jsSortBy (fun a b => decide (κ a ≤ κ b)) l).Pairwise (fun a b => κ a ≤ κ b) := by
  suffices h : ∀ (l acc : List α), acc.Pairwise (fun a b => κ a ≤ κ b) →
      (l.foldl (fun acc x => insertLe (fun a b => decide (κ a ≤ κ b)) x acc) acc).Pairwise
        (fun a b => κ a ≤ κ b) by
    exact h l [] (by simp)
  intro l
  induction l with
  | nil => intro acc hacc; simpa using hacc
  | cons x xs ih =>
    intro acc hacc
    exact ih _ (insertLe_pairwise κ x acc hacc)

/-! Lemmas characterizing calculateMSE over the matched sample list. -/

theorem mseAccumPoint_spec (gen : List ConcentrationPoint) (r : ReferencePoint)
    (offs : List ℚ) : ∀ acc : MSEAccum,
    mseAccumPoint gen r acc offs =
    ⟨acc.estSum + ((ptSamples gen r offs).map estSqErr).sum,
     acc.estCount + (ptSamples gen r offs).length,
     acc.progSum + ((ptSamples gen r offs).filterMap progSqErr).sum,
     acc.progCount + ((ptSamples gen r offs).filterMap progSqErr).length⟩ := by
  induction offs with
  | nil => intro acc; simp [mseAccumPoint, ptSamples]
  | cons o offs ih =>
    intro acc
    have hcons : mseAccumPoint gen r acc (o :: offs) =
        mseAccumPoint gen r (mseAccumPoint gen r acc [o]) offs := by
      simp [mseAccumPoint]
    rw [hcons, ih]
    rcases hg : getConcentrationAtTime (r.day + o) gen with _ | g
    · simp [mseAccumPoint, ptSamples, hg]
    · have hsamp : ptSamples gen r (o :: offs) = (r, g) :: ptSamples gen r offs := by
        simp [ptSamples, hg]
      rcases hp : r.progesterone with _ | p
      · have hone : mseAccumPoint gen r acc [o] =
            ⟨acc.estSum + estSqErr (r, g), acc.estCount + 1, acc.progSum, acc.progCount⟩ := by
          simp only [mseAccumPoint, List.foldl_cons, List.foldl_nil, hg, hp]
          simp [estSqErr, pow_two]
        rw [hone, hsamp]
        simp only [List.map_cons, List.sum_cons, List.length_cons, List.filterMap_cons,
          progSqErr, hp]
        simp only [MSEAccum.mk.injEq]
        refine ⟨by ring, by omega, by trivial, by trivial⟩
      · by_cases hppos : p > 0
        · have hone : mseAccumPoint gen r acc [o] =
              ⟨acc.estSum + estSqErr (r, g), acc.estCount + 1,
               acc.progSum + (((r, g) : ReferencePoint × ConcentrationPoint).2.progesteroneConcentration - p) / p *
                 ((((r, g) : ReferencePoint × ConcentrationPoint).2.progesteroneConcentration - p) / p),
               acc.progCount + 1⟩ := by
            simp only [mseAccumPoint, List.foldl_cons, List.foldl_nil, hg, hp]
            simp [estSqErr, pow_two, hppos]
          rw [hone, hsamp]
          simp only [List.map_cons, List.sum_cons, List.length_cons, List.filterMap_cons,
            progSqErr, hp, if_pos hppos, List.sum_cons]
          simp only [MSEAccum.mk.injEq]
          refine ⟨by ring, by omega, by ring_nf, by omega⟩
        · have hone : mseAccumPoint gen r acc [o] =
              ⟨acc.estSum + estSqErr (r, g), acc.estCount + 1, acc.progSum, acc.progCount⟩ := by
            simp only [mseAccumPoint, List.foldl_cons, List.foldl_nil, hg, hp]
            simp [estSqErr, pow_two, hppos]
          rw [hone, hsamp]
          simp only [List.map_cons, List.sum_cons, List.length_cons, List.filterMap_cons,
            progSqErr, hp, if_neg hppos]
          simp only [MSEAccum.mk.injEq]
          refine ⟨by ring, by omega, by trivial, by trivial⟩


theorem mseFold_spec (gen : List ConcentrationPoint) (l : List ReferencePoint) :
    ∀ acc : MSEAccum,
    l.foldl (fun acc r => mseAccumPoint gen r acc sampleOffsets) acc =
    ⟨acc.estSum + ((l.flatMap (fun r => ptSamples gen r sampleOffsets)).map estSqErr).sum,
     acc.estCount + (l.flatMap (fun r => ptSamples gen r sampleOffsets)).length,
     acc.progSum + ((l.flatMap (fun r => ptSamples gen r sampleOffsets)).filterMap progSqErr).sum,
     acc.progCount +
       ((l.flatMap (fun r => ptSamples gen r sampleOffsets)).filterMap progSqErr).length⟩ := by
  induction l with
  | nil => intro acc; simp
  | cons r rs ih =>
    intro acc
    rw [List.foldl_cons, mseAccumPoint_spec, ih]
    simp only [List.flatMap_cons, List.map_append, List.sum_append, List.length_append,
      List.filterMap_append, MSEAccum.mk.injEq]
    refine ⟨by ring, by omega, by ring, by omega⟩

theorem calculateMSE_eq_mseSpecAmended (e : ℚ → ℚ) (doses : List Dose)
    (referenceData : List ReferencePoint) (scheduleLength : ℕ) (steadyState : Bool) :
    calculateMSE e doses referenceData scheduleLength steadyState =
    mseSpecAmended e doses referenceData scheduleLength steadyState := by
  simp only [calculateMSE, mseSpecAmended, matchedSamples, generatedCurve]
  rw [mseFold_spec]
  simp


/-! Nonnegativity of the error and score functions. -/

theorem estSqErr_nonneg (s : ReferencePoint × ConcentrationPoint) : 0 ≤ estSqErr s :=
  sq_nonneg _

theorem progSqErr_nonneg (s : ReferencePoint × ConcentrationPoint) :
    ∀ q ∈ progSqErr s, 0 ≤ q := by
  intro q hq
  unfold progSqErr at hq
  rcases hp : s.1.progesterone with _ | p
  · simp [hp] at hq
  · rw [hp] at hq
    by_cases hppos : p > 0
    · simp only [if_pos hppos, Option.mem_def, Option.some.injEq] at hq
      exact hq ▸ sq_nonneg _
    · simp [hppos] at hq

theorem mseSpecAmended_nonneg (e : ℚ → ℚ) (doses : List Dose)
    (referenceData : List ReferencePoint) (scheduleLength : ℕ) (steadyState : Bool) :
    0 ≤ mseSpecAmended e doses referenceData scheduleLength steadyState := by
  have key : ∀ samples : List (ReferencePoint × ConcentrationPoint),
      (0:ℚ) ≤
      (let estErrs := samples.map estSqErr
       let progErrs := samples.filterMap progSqErr
       let estAvg := if estErrs.length > 0 then estErrs.sum / (estErrs.length : ℚ) else 0
       let progAvg := if progErrs.length > 0 then progErrs.sum / (progErrs.length : ℚ) else 0
       if progErrs.length > 0 then (estAvg + progAvg) / 2 else estAvg) := by
    intro samples
    have hest : 0 ≤ (samples.map estSqErr).sum :=
      List.sum_nonneg (by
        intro q hq
        rcases List.mem_map.mp hq with ⟨s, _, rfl⟩
        exact estSqErr_nonneg s)
    have hprog : 0 ≤ (samples.filterMap progSqErr).sum :=
      List.sum_nonneg (by
        intro q hq
        rcases List.mem_filterMap.mp hq with ⟨s, _, hs⟩
        exact progSqErr_nonneg s q hs)
    have hestAvg : (0:ℚ) ≤ (if (samples.map estSqErr).length > 0 then
        (samples.map estSqErr).sum / ((samples.map estSqErr).length : ℚ) else 0) := by
      split
      · exact div_nonneg hest (by positivity)
      · exact le_refl 0
    have hprogAvg : (0:ℚ) ≤ (if (samples.filterMap progSqErr).length > 0 then
        (samples.filterMap progSqErr).sum / ((samples.filterMap progSqErr).length : ℚ)
        else 0) := by
      split
      · exact div_nonneg hprog (by positivity)
      · exact le_refl 0
    show (0:ℚ) ≤ if (samples.filterMap progSqErr).length > 0 then (_ + _) / 2 else _
    split
    · rename_i hc
      rw [if_pos hc] at hprogAvg
      linarith
    · exact hestAvg
  exact key _

theorem calculateMSE_nonneg (e : ℚ → ℚ) (doses : List Dose)
    (referenceData : List ReferencePoint) (scheduleLength : ℕ) (steadyState : Bool) :
    0 ≤ calculateMSE e doses referenceData scheduleLength steadyState := by
  rw [calculateMSE_eq_mseSpecAmended]
  exact mseSpecAmended_nonneg e doses referenceData scheduleLength steadyState

theorem scoreOf_nonneg (e : ℚ → ℚ) (referenceData : List ReferencePoint)
    (scheduleLength : ℕ) (steadyState accuracyOnly : Bool) (doses : List Dose) :
    0 ≤ scoreOf e referenceData scheduleLength steadyState accuracyOnly doses := by
  unfold scoreOf calculateMultiObjectiveScore
  have hmse := calculateMSE_nonneg e doses referenceData scheduleLength steadyState
  split
  · exact hmse
  · simp only [PREFER_FEWER_MEDICATIONS, SIMPLICITY_WEIGHT, DOSE_COMPLEXITY_WEIGHT,
      Bool.false_eq_true, if_false]
    have h1 : (0:ℚ) ≤ (doses.countP (fun d => isEstradiolMedication d.medication) : ℚ) *
        (1/50) := by positivity
    have h2 : (0:ℚ) ≤ (((doses.map (fun d => round2 d.dose)).dedup.length : ℚ)) *
        (1/1000) := by positivity
    linarith


/-! Claims about the time grid, the concentration window, the error
function, and the fail-fast check. -/

theorem generateTimePointsGo_spec (maxDays step : ℚ) (hs : 0 < step) (h0 : 0 ≤ maxDays) :
    ∀ (n i : ℕ), (⌊maxDays / step⌋).toNat + 1 ≤ n + i →
    generateTimePointsGo maxDays step n ((i : ℚ) * step) =
    (List.range' i ((⌊maxDays / step⌋).toNat + 1 - i)).map (fun j : ℕ => (j : ℚ) * step) := by
  have hdiv : (0:ℚ) ≤ maxDays / step := div_nonneg h0 hs.le
  have hfl : (0:ℤ) ≤ ⌊maxDays / step⌋ := Int.floor_nonneg.mpr hdiv
  have hkey : ∀ i : ℕ, ((i : ℚ) * step ≤ maxDays ↔ i ≤ (⌊maxDays / step⌋).toNat) := by
    intro i
    constructor
    · intro h
      have h1 : ((i:ℚ)) ≤ maxDays / step := (le_div_iff₀ hs).mpr h
      have h2 : (i : ℤ) ≤ ⌊maxDays / step⌋ := Int.le_floor.mpr (by exact_mod_cast h1)
      omega
    · intro h
      have h2 : (i : ℤ) ≤ ⌊maxDays / step⌋ := by omega
      have h1 : ((i:ℚ)) ≤ maxDays / step :=
        calc ((i:ℚ)) ≤ (⌊maxDays/step⌋ : ℚ) := by exact_mod_cast h2
          _ ≤ maxDays / step := Int.floor_le _
      exact (le_div_iff₀ hs).mp h1
  intro n
  induction n with
  | zero =>
    intro i hi
    have hz : (⌊maxDays / step⌋).toNat + 1 - i = 0 := by omega
    simp [generateTimePointsGo, hz]
  | succ n ih =>
    intro i hi
    by_cases hc : (i : ℚ) * step ≤ maxDays
    · have hstep : generateTimePointsGo maxDays step (n+1) ((i:ℚ)*step) =
          ((i:ℚ)*step) :: generateTimePointsGo maxDays step n ((i:ℚ)*step + step) := by
        simp [generateTimePointsGo, hc]
      rw [hstep]
      have harg : (i:ℚ)*step + step = (((i+1 : ℕ)) : ℚ) * step := by push_cast; ring
      rw [harg, ih (i+1) (by omega)]
      have hiN : i ≤ (⌊maxDays / step⌋).toNat := (hkey i).mp hc
      have hlen : (⌊maxDays / step⌋).toNat + 1 - i =
          ((⌊maxDays / step⌋).toNat + 1 - (i+1)) + 1 := by omega
      rw [hlen, List.range'_succ]
      simp
    · have hiN : ¬ i ≤ (⌊maxDays / step⌋).toNat := fun h => hc ((hkey i).mpr h)
      have hz : (⌊maxDays / step⌋).toNat + 1 - i = 0 := by omega
      simp [generateTimePointsGo, hc, hz]

theorem generateTimePoints_eq (maxDays step : ℚ) (h0 : 0 ≤ maxDays) (hs : 0 < step) :
    generateTimePoints maxDays step =
    (List.range ((⌊maxDays / step⌋).toNat + 1)).map (fun j : ℕ => (j : ℚ) * step) := by
  unfold generateTimePoints
  have h00 : (0:ℚ) = ((0:ℕ):ℚ) * step := by simp
  rw [h00, generateTimePointsGo_spec maxDays step hs h0 _ 0 (by omega)]
  rw [List.range_eq_range']
  simp


/-- C6 counterexample: with maxDays 1 and step 3/5 the returned grid is
0, 3/5 and its last element is not the boundary maxDays. -/
theorem C6_cex_last_element_missing :
    (0:ℚ) ≤ 1 ∧ (0:ℚ) < 3/5 ∧ generateTimePoints 1 (3/5) = [0, 3/5] ∧
    (generateTimePoints 1 (3/5)).getLast? ≠ some 1 := by
  with_unfolding_all decide

/-- C6 amended: generateTimePoints returns the strictly increasing grid
of the multiples of step up to maxDays, and the last element equals
maxDays exactly when maxDays is a natural multiple of step. -/
theorem C6_time_grid_amended (maxDays step : ℚ) (h0 : 0 ≤ maxDays) (hs : 0 < step) :
    generateTimePoints maxDays step =
      (List.range ((⌊maxDays / step⌋).toNat + 1)).map (fun j : ℕ => (j : ℚ) * step) ∧
    List.Chain' (· < ·) (generateTimePoints maxDays step) ∧
    (∀ k : ℕ, maxDays = (k : ℚ) * step →
      (generateTimePoints maxDays step).getLast? = some maxDays) := by
  have heq := generateTimePoints_eq maxDays step h0 hs
  refine ⟨heq, ?_, ?_⟩
  · rw [heq]
    refine List.Pairwise.chain' ?_
    refine List.Pairwise.map _ ?_ (List.pairwise_lt_range _)
    intro a b hab
    have hcast : (a : ℚ) < (b : ℚ) := by exact_mod_cast hab
    calc (a : ℚ) * step < (b : ℚ) * step := by nlinarith
      _ = _ := rfl
  · intro k hk
    have hdivk : maxDays / step = (k : ℚ) := by
      rw [hk]; field_simp
    have hNk : (⌊maxDays / step⌋).toNat = k := by
      rw [hdivk]
      simp
    rw [heq, hNk, List.getLast?_map, List.range_succ]
    simp [hk]


/-- C4 counterexample: on reference data holding a progesterone target
that is present but never accumulated (here zero), calculateMSE returns
the estradiol-only average while the rule of the claim returns the mean
of the two per-hormone averages. -/
theorem C4_cex_mse_combination :
    calculateMSE expOne [] cexRefC4 1 false = 1 ∧
    mseSpecClaim expOne [] cexRefC4 1 false = 1/2 ∧
    calculateMSE expOne [] cexRefC4 1 false ≠ mseSpecClaim expOne [] cexRefC4 1 false := by
  with_unfolding_all decide

/-- C4 amended: calculateMSE accumulates squared relative errors over
the matched samples, dividing the estradiol error by the target with a
fallback divisor of 1 on a zero target, accumulating progesterone
errors only at matched samples with a present positive target, and
returns the mean of the two per-hormone averages exactly when at least
one such progesterone sample was accumulated, the estradiol-only
average otherwise. -/
theorem C4_mse_relative_error_amended (e : ℚ → ℚ) (doses : List Dose)
    (referenceData : List ReferencePoint) (scheduleLength : ℕ) (steadyState : Bool) :
    calculateMSE e doses referenceData scheduleLength steadyState =
    mseSpecAmended e doses referenceData scheduleLength steadyState :=
  calculateMSE_eq_mseSpecAmended e doses referenceData scheduleLength steadyState

/-- C10: when no in-range reference point yields a matched sample,
calculateMSE returns 0, treating the schedule as a perfect match. -/
theorem C10_no_matched_samples_scores_zero (e : ℚ → ℚ) (doses : List Dose)
    (referenceData : List ReferencePoint) (scheduleLength : ℕ) (steadyState : Bool)
    (h : matchedSamples e doses referenceData scheduleLength steadyState = []) :
    calculateMSE e doses referenceData scheduleLength steadyState = 0 := by
  rw [calculateMSE_eq_mseSpecAmended]
  unfold mseSpecAmended
  rw [h]
  simp

/-- Witness for C10 at a concrete input: a nonempty dose list against
empty reference data yields no matched samples and a zero error. -/
theorem C10_no_matched_samples_scores_zero_witness :
    matchedSamples expOne [⟨0, 6, .estradiol esterE1⟩] [] 1 false = [] ∧
    calculateMSE expOne [⟨0, 6, .estradiol esterE1⟩] [] 1 false = 0 := by
  have h : matchedSamples expOne [⟨0, 6, .estradiol esterE1⟩] [] 1 false = [] := by
    with_unfolding_all rfl
  exact ⟨h, C10_no_matched_samples_scores_zero expOne _ [] 1 false h⟩

/-- C5: the ester concentration is exactly 0 outside the dose window
and nonnegative inside it. -/
theorem C5_ester_concentration_window (e : ℚ → ℚ) (t day amount : ℚ)
    (ester : EstradiolMed) (_hamount : 0 < amount)
    (_hk1 : 0 < ester.k1) (_hk2 : 0 < ester.k2) (_hk3 : 0 < ester.k3)
    (_h12 : ester.k1 ≠ ester.k2) (_h13 : ester.k1 ≠ ester.k3) (_h23 : ester.k2 ≠ ester.k3) :
    ((t < day ∨ t > day + ESTER_EFFECT_DURATION_DAYS) →
      calculateConcentration e t day amount ester = 0) ∧
    (day ≤ t → t ≤ day + ESTER_EFFECT_DURATION_DAYS →
      0 ≤ calculateConcentration e t day amount ester) := by
  constructor
  · intro h
    unfold calculateConcentration
    rw [if_pos h]
  · intro h1 h2
    unfold calculateConcentration
    rw [if_neg (by push_neg; exact ⟨h1, h2⟩)]
    exact le_max_left 0 _

/-- Witness for C5 at a concrete ester and times on both sides of the
window. -/
theorem C5_ester_concentration_window_witness :
    ((0:ℚ) < 6 ∧ 0 < esterE1.k1 ∧ 0 < esterE1.k2 ∧ 0 < esterE1.k3 ∧
      esterE1.k1 ≠ esterE1.k2 ∧ esterE1.k1 ≠ esterE1.k3 ∧ esterE1.k2 ≠ esterE1.k3) ∧
    calculateConcentration expOne (-1) 0 6 esterE1 = 0 ∧
    0 ≤ calculateConcentration expOne 1 0 6 esterE1 := by
  refine ⟨by norm_num [esterE1], ?_, ?_⟩
  · exact (C5_ester_concentration_window expOne (-1) 0 6 esterE1 (by norm_num)
      (by norm_num [esterE1]) (by norm_num [esterE1]) (by norm_num [esterE1])
      (by norm_num [esterE1]) (by norm_num [esterE1]) (by norm_num [esterE1])).1
      (Or.inl (by norm_num))
  · exact (C5_ester_concentration_window expOne 1 0 6 esterE1 (by norm_num)
      (by norm_num [esterE1]) (by norm_num [esterE1]) (by norm_num [esterE1])
      (by norm_num [esterE1]) (by norm_num [esterE1]) (by norm_num [esterE1])).2
      (by norm_num) (by norm_num [ESTER_EFFECT_DURATION_DAYS])

/-- Witness for the amended C6 at maxDays 2, step one half, where the
boundary is included because the step divides it. -/
theorem C6_time_grid_amended_witness :
    ((0:ℚ) ≤ 2 ∧ (0:ℚ) < 1/2) ∧
    List.Chain' (· < ·) (generateTimePoints 2 (1/2)) ∧
    (generateTimePoints 2 (1/2)).getLast? = some 2 := by
  have h := C6_time_grid_amended 2 (1/2) (by norm_num) (by norm_num)
  exact ⟨⟨by norm_num, by norm_num⟩, h.2.1, h.2.2 4 (by norm_num)⟩

/-- C8: an empty medication list makes optimizeSchedule fail with the
ester-availability error before any work, and with a nonempty list that
error can never be raised. -/
theorem C8_empty_esters_fails_fast (e : ℚ → ℚ) (ln2 : ℚ) (fuel : ℕ)
    (params : OptimizationParams) (hasCallback : Bool) :
    (params.availableEsters = [] →
      optimizeSchedule e ln2 fuel params hasCallback =
        .error "At least one ester must be available") ∧
    (params.availableEsters ≠ [] →
      ∀ msg, optimizeSchedule e ln2 fuel params hasCallback ≠ .error msg) := by
  constructor
  · intro h
    unfold optimizeSchedule
    rw [if_pos h]
  · intro h msg
    unfold optimizeSchedule
    rw [if_neg h]
    simp only []
    split <;> simp

/-- Witness for C8: the error on an empty medication list, and its
absence on a nonempty one. -/
theorem C8_empty_esters_fails_fast_witness :
    (optimizeSchedule expOne lnTwoQ 0
        { availableEsters := [], scheduleLength := 1, referenceCycleType := .typical,
          esterConcentrations := [] } false =
      .error "At least one ester must be available") ∧
    optimizeSchedule expOne lnTwoQ 0 onlyProgParams false ≠
      .error "At least one ester must be available" := by
  constructor
  · exact (C8_empty_esters_fails_fast expOne lnTwoQ 0 _ false).1 rfl
  · exact (C8_empty_esters_fails_fast expOne lnTwoQ 0 onlyProgParams false).2
      (by simp [onlyProgParams]) _


/-! Claim C9: consolidation of duplicate medications. -/

theorem consUpdate_wellKeyed (m : List (ConsKey × Dose)) (d : Dose)
    (h : WellKeyed m) : WellKeyed (consUpdate m (d.day, d.medication.name) d) := by
  unfold consUpdate
  split
  · intro kv hkv
    rcases List.mem_map.mp hkv with ⟨kv0, hkv0, rfl⟩
    by_cases hk : kv0.1 = (d.day, d.medication.name)
    · simpa [hk] using h kv0 hkv0
    · simpa [hk] using h kv0 hkv0
  · intro kv hkv
    rcases List.mem_append.mp hkv with hkv | hkv
    · exact h kv hkv
    · simp at hkv
      subst hkv
      rfl

theorem consUpdate_keys (m : List (ConsKey × Dose)) (k : ConsKey) (d : Dose) :
    (consUpdate m k d).map Prod.fst =
    (if m.any (fun kv => kv.1 = k) then m.map Prod.fst else m.map Prod.fst ++ [k]) := by
  unfold consUpdate
  split
  · rw [List.map_map]
    refine List.map_congr_left ?_
    intro kv _
    by_cases hk : kv.1 = k <;> simp [hk]
  · simp

theorem consUpdate_keysNodup (m : List (ConsKey × Dose)) (k : ConsKey) (d : Dose)
    (h : (m.map Prod.fst).Nodup) : ((consUpdate m k d).map Prod.fst).Nodup := by
  rw [consUpdate_keys]
  split
  · exact h
  · rename_i hany
    have hk : k ∉ m.map Prod.fst := by
      intro hmem
      rcases List.mem_map.mp hmem with ⟨kv, hkv, hkk⟩
      exact hany (List.any_eq_true.mpr ⟨kv, hkv, by simp [hkk]⟩)
    rw [List.nodup_append]
    refine ⟨h, List.nodup_singleton k, ?_⟩
    intro a ha hb
    rw [List.mem_singleton] at hb
    exact hk (hb ▸ ha)


theorem sumDoseFor_cons (x : Dose) (l : List Dose) (day : ℚ) (nam : String) :
    sumDoseFor (x :: l) day nam =
    (if x.day = day ∧ x.medication.name = nam then x.dose else 0) + sumDoseFor l day nam := by
  unfold sumDoseFor
  rw [List.filter_cons]
  split
  · rename_i hx
    simp only [decide_eq_true_eq] at hx
    simp [hx]
  · rename_i hx
    simp only [decide_eq_true_eq] at hx
    simp [hx]

theorem sumDoseFor_append (l1 l2 : List Dose) (day : ℚ) (nam : String) :
    sumDoseFor (l1 ++ l2) day nam = sumDoseFor l1 day nam + sumDoseFor l2 day nam := by
  unfold sumDoseFor
  rw [List.filter_append, List.map_append, List.sum_append]

theorem consUpdate_sum (d : Dose) (day : ℚ) (nam : String) :
    ∀ m : List (ConsKey × Dose), WellKeyed m → (m.map Prod.fst).Nodup →
    sumDoseFor ((consUpdate m (d.day, d.medication.name) d).map Prod.snd) day nam =
    sumDoseFor (m.map Prod.snd) day nam +
      (if d.day = day ∧ d.medication.name = nam then d.dose else 0) := by
  intro m
  induction m with
  | nil =>
    intro _ _
    by_cases hmatch : d.day = day ∧ d.medication.name = nam
    · simp [consUpdate, sumDoseFor, hmatch]
    · simp only [Decidable.not_and_iff_or_not] at hmatch
      rcases hmatch with hm | hm <;> simp [consUpdate, sumDoseFor, hm]
  | cons kv rest ih =>
    intro hWK hND
    have hWKrest : WellKeyed rest := fun x hx => hWK x (List.mem_cons_of_mem kv hx)
    have hND2 : (kv.1 :: rest.map Prod.fst).Nodup := by simpa using hND
    have hNDrest : (rest.map Prod.fst).Nodup := (List.nodup_cons.mp hND2).2
    by_cases hk : kv.1 = (d.day, d.medication.name)
    · have hkey : kv.1 = (kv.2.day, kv.2.medication.name) := hWK kv (List.mem_cons_self kv rest)
      have hday : kv.2.day = d.day := by
        have := hkey ▸ hk
        exact (Prod.mk.injEq _ _ _ _ ▸ this).1
      have hnam : kv.2.medication.name = d.medication.name := by
        have := hkey ▸ hk
        exact (Prod.mk.injEq _ _ _ _ ▸ this).2
      have hnotin : ∀ kv' ∈ rest, ¬ kv'.1 = (d.day, d.medication.name) := by
        intro kv' hkv' heq
        have hmem : kv.1 ∈ rest.map Prod.fst := by
          rw [hk, ← heq]
          exact List.mem_map_of_mem Prod.fst hkv'
        exact (List.nodup_cons.mp hND2).1 hmem
      have hcons : consUpdate (kv :: rest) (d.day, d.medication.name) d =
          (kv.1, { kv.2 with dose := kv.2.dose + d.dose }) :: rest := by
        unfold consUpdate
        rw [if_pos (by simp [List.any_cons, hk])]
        rw [List.map_cons, if_pos hk]
        congr 1
        have hid : rest.map (fun kv =>
            if kv.1 = (d.day, d.medication.name) then
              (kv.1, { kv.2 with dose := kv.2.dose + d.dose }) else kv) = rest.map id :=
          List.map_congr_left (fun kv' hkv' => by rw [if_neg (hnotin kv' hkv')]; rfl)
        rw [hid, List.map_id]
      rw [hcons]
      simp only [List.map_cons]
      rw [sumDoseFor_cons, sumDoseFor_cons]
      by_cases hmatch : d.day = day ∧ d.medication.name = nam
      · have : kv.2.day = day ∧ kv.2.medication.name = nam := by
          exact ⟨hday ▸ hmatch.1, hnam ▸ hmatch.2⟩
        simp only [if_pos hmatch, if_pos this]
        ring
      · have : ¬ (kv.2.day = day ∧ kv.2.medication.name = nam) := by
          intro hx
          exact hmatch ⟨hday ▸ hx.1, hnam ▸ hx.2⟩
        simp only [if_neg hmatch, if_neg this]
        ring
    · by_cases hany : rest.any (fun kv => kv.1 = (d.day, d.medication.name))
      · have hcons : consUpdate (kv :: rest) (d.day, d.medication.name) d =
            kv :: consUpdate rest (d.day, d.medication.name) d := by
          unfold consUpdate
          rw [if_pos (by simp [List.any_cons, hany]), if_pos hany]
          rw [List.map_cons, if_neg hk]
        rw [hcons]
        simp only [List.map_cons]
        rw [sumDoseFor_cons, sumDoseFor_cons, ih hWKrest hNDrest]
        ring
      · have hcons : consUpdate (kv :: rest) (d.day, d.medication.name) d =
            (kv :: rest) ++ [((d.day, d.medication.name), d)] := by
          unfold consUpdate
          rw [if_neg (by simp [List.any_cons, hk]; simpa using hany)]
        have hcons2 : consUpdate rest (d.day, d.medication.name) d =
            rest ++ [((d.day, d.medication.name), d)] := by
          unfold consUpdate
          rw [if_neg (by simpa using hany)]
        rw [hcons]
        simp only [List.map_append, List.map_cons]
        rw [sumDoseFor_append, sumDoseFor_cons]
        simp only [List.map_nil, List.map_cons]
        rw [sumDoseFor_cons]
        simp only [sumDoseFor, List.filter_nil, List.map_nil, List.sum_nil]
        ring


theorem consFold_wellKeyed (ds : List Dose) :
    ∀ m : List (ConsKey × Dose), WellKeyed m →
    WellKeyed (ds.foldl (fun m dose => consUpdate m (dose.day, dose.medication.name) dose) m) := by
  induction ds with
  | nil => intro m h; exact h
  | cons d ds ih =>
    intro m h
    exact ih _ (consUpdate_wellKeyed m d h)

theorem consFold_keysNodup (ds : List Dose) :
    ∀ m : List (ConsKey × Dose), (m.map Prod.fst).Nodup →
    ((ds.foldl (fun m dose => consUpdate m (dose.day, dose.medication.name) dose) m).map
      Prod.fst).Nodup := by
  induction ds with
  | nil => intro m h; exact h
  | cons d ds ih =>
    intro m h
    exact ih _ (consUpdate_keysNodup m _ d h)

theorem consFold_sum (day : ℚ) (nam : String) (ds : List Dose) :
    ∀ m : List (ConsKey × Dose), WellKeyed m → (m.map Prod.fst).Nodup →
    sumDoseFor ((ds.foldl (fun m dose =>
      consUpdate m (dose.day, dose.medication.name) dose) m).map Prod.snd) day nam =
    sumDoseFor (m.map Prod.snd) day nam + sumDoseFor ds day nam := by
  induction ds with
  | nil => intro m _ _; simp [sumDoseFor]
  | cons d ds ih =>
    intro m hWK hND
    rw [List.foldl_cons, ih _ (consUpdate_wellKeyed m d hWK) (consUpdate_keysNodup m _ d hND),
      consUpdate_sum d day nam m hWK hND, sumDoseFor_cons]
    ring

theorem consolidate_pairwise_key (doses : List Dose) :
    ((doses.foldl (fun m dose =>
      consUpdate m (dose.day, dose.medication.name) dose) []).map Prod.snd).Pairwise
      (fun a b => ¬ (a.day = b.day ∧ a.medication.name = b.medication.name)) := by
  have hWK : WellKeyed (doses.foldl (fun m dose =>
      consUpdate m (dose.day, dose.medication.name) dose) []) :=
    consFold_wellKeyed doses [] (by intro kv h; simp at h)
  have hND : ((doses.foldl (fun m dose =>
      consUpdate m (dose.day, dose.medication.name) dose) []).map Prod.fst).Nodup :=
    consFold_keysNodup doses [] (by simp)
  have hpair : (doses.foldl (fun m dose =>
      consUpdate m (dose.day, dose.medication.name) dose) []).Pairwise
      (fun kv kv' => kv.1 ≠ kv'.1) := by
    exact List.pairwise_map.mp hND
  refine List.pairwise_map.mpr ?_
  refine hpair.imp_of_mem ?_
  intro kv kv' hkv hkv' hne hcontra
  apply hne
  rw [hWK kv hkv, hWK kv' hkv', hcontra.1, hcontra.2]


theorem sumDoseFor_perm {l l' : List Dose} (h : l.Perm l') (day : ℚ) (nam : String) :
    sumDoseFor l day nam = sumDoseFor l' day nam := by
  unfold sumDoseFor
  exact ((h.filter _).map _).sum_eq

/-- C9: consolidation leaves each (day, medication name) pair at most
once, preserves the summed dose amount of every such pair, and returns
a list sorted by day in non-decreasing order. -/
theorem C9_consolidate_merges_and_sorts (doses : List Dose) :
    (consolidateDuplicateMedications doses).Pairwise
      (fun a b => ¬ (a.day = b.day ∧ a.medication.name = b.medication.name)) ∧
    (∀ (day : ℚ) (nam : String),
      sumDoseFor (consolidateDuplicateMedications doses) day nam =
        sumDoseFor doses day nam) ∧
    List.Chain' (fun a b => a.day ≤ b.day) (consolidateDuplicateMedications doses) := by
  have hperm : (consolidateDuplicateMedications doses).Perm
      ((doses.foldl (fun m dose =>
        consUpdate m (dose.day, dose.medication.name) dose) []).map Prod.snd) := by
    unfold consolidateDuplicateMedications
    exact jsSortBy_perm _ _
  refine ⟨?_, ?_, ?_⟩
  · have hsym : Symmetric (fun a b : Dose =>
        ¬ (a.day = b.day ∧ a.medication.name = b.medication.name)) := by
      intro a b hab hcontra
      exact hab ⟨hcontra.1.symm, hcontra.2.symm⟩
    exact (hperm.pairwise_iff @hsym).mpr (consolidate_pairwise_key doses)
  · intro day nam
    rw [sumDoseFor_perm hperm day nam]
    have := consFold_sum day nam doses [] (by intro kv h; simp at h) (by simp)
    simpa [sumDoseFor] using this
  · unfold consolidateDuplicateMedications
    exact List.Pairwise.chain' (jsSortBy_pairwise (fun d : Dose => d.day) _)


/-! Claim C3: bounds on returned dose amounts. -/

theorem finalizeDose_medication (params : OptimizationParams) (d : Dose) :
    (finalizeDose params d).medication = d.medication := by
  unfold finalizeDose
  split
  · split <;> simp [*]
  · simp [*]

theorem finalizeDose_day (params : OptimizationParams) (d : Dose) :
    (finalizeDose params d).day = d.day := by
  unfold finalizeDose
  split
  · split <;> simp [*]
  · simp [*]

theorem finalizeDose_est_le (params : OptimizationParams) (d : Dose)
    (hest : isEstradiolMedication d.medication = true) :
    (finalizeDose params d).dose ≤ params.maxDoseD := by
  unfold finalizeDose
  split
  · rename_i m heq
    rw [heq] at hest
    simp [isEstradiolMedication] at hest
  · exact min_le_right _ _

set_option maxRecDepth 100000 in
/-- C3 counterexample: with only an oral progesterone medication
available and the default maximum dose of 10, the optimizer returns
100 mg doses, exceeding the maximum. -/
theorem C3_cex_progesterone_exceeds_max :
    (optimizeSchedule expOne lnTwoQ 10 onlyProgParams false).toOption =
      some (some (⟨[⟨0, 100, progOral⟩, ⟨1, 100, progOral⟩], 1, 7⟩, [])) ∧
    ¬ ((100:ℚ) ≤ onlyProgParams.maxDoseD) := by
  with_unfolding_all decide

/-- C3 amended: every surviving returned dose is at least
minDosePerInjection, and every returned estradiol dose is also at most
maxDosePerInjection; progesterone doses are not clamped above. -/
theorem C3_dose_bounds_amended (e : ℚ → ℚ) (ln2 : ℚ) (fuel : ℕ)
    (params : OptimizationParams) (hasCallback : Bool) :
    DoseBoundsOk params.minDoseD params.maxDoseD
      (optimizeSchedule e ln2 fuel params hasCallback) := by
  unfold optimizeSchedule
  by_cases h : params.availableEsters = []
  · rw [if_pos h]
    simp [DoseBoundsOk]
  · rw [if_neg h]
    simp only []
    split
    · simp [DoseBoundsOk]
    · simp only [DoseBoundsOk]
      intro d hd
      rw [List.mem_filter] at hd
      obtain ⟨hdmem, hdge⟩ := hd
      refine ⟨by simpa using of_decide_eq_true hdge, ?_⟩
      intro hest
      rcases List.mem_map.mp hdmem with ⟨d0, _, rfl⟩
      rw [finalizeDose_medication] at hest
      exact finalizeDose_est_le params d0 hest


end Estradial
namespace Estradial

theorem estStep_skip (e : ℚ → ℚ) (t sum : ℚ) (d : Dose)
    (h : isEstradiolMedication d.medication = false) : estStep e t sum d = sum := by
  unfold estStep
  cases hm : d.medication with
  | estradiol m => rw [hm] at h; simp [isEstradiolMedication] at h
  | progesterone m => rfl

theorem estFold_filter (e : ℚ → ℚ) (t : ℚ) : ∀ (l : List Dose) (init : ℚ),
    l.foldl (estStep e t) init =
    (l.filter (fun d => isEstradiolMedication d.medication)).foldl (estStep e t) init := by
  intro l
  induction l with
  | nil => intro init; rfl
  | cons d ds ih =>
    intro init
    by_cases hd : isEstradiolMedication d.medication
    · rw [List.foldl_cons, List.filter_cons_of_pos (by simpa using hd), List.foldl_cons, ih]
    · rw [List.foldl_cons, List.filter_cons_of_neg (by simpa using hd),
        estStep_skip e t init d (by simpa using hd), ih]

theorem totalConc_rel (e : ℚ → ℚ) (l1 l2 : List Dose) (tps : List ℚ)
    (h : l1.filter (fun d => isEstradiolMedication d.medication) =
         l2.filter (fun d => isEstradiolMedication d.medication)) :
    List.Forall₂ PointRel (calculateTotalConcentration e l1 tps)
      (calculateTotalConcentration e l2 tps) := by
  unfold calculateTotalConcentration
  induction tps with
  | nil => exact List.Forall₂.nil
  | cons t ts ih =>
    refine List.Forall₂.cons ?_ ih
    refine ⟨rfl, ?_⟩
    show max 0 (l1.foldl (estStep e t) 0) = max 0 (l2.foldl (estStep e t) 0)
    rw [estFold_filter e t l1 0, estFold_filter e t l2 0, h]

theorem forall₂_filter_time {l1 l2 : List ConcentrationPoint}
    (h : List.Forall₂ PointRel l1 l2) :
    List.Forall₂ PointRel (l1.filter (fun p => decide (p.time ≥ 0)))
      (l2.filter (fun p => decide (p.time ≥ 0))) := by
  induction h with
  | nil => exact List.Forall₂.nil
  | cons hpq hrest ih =>
    rename_i p q t1 t2
    by_cases hp : p.time ≥ 0
    · rw [List.filter_cons_of_pos (by simpa using hp),
        List.filter_cons_of_pos (by simpa [← hpq.1] using hp)]
      exact List.Forall₂.cons hpq ih
    · rw [List.filter_cons_of_neg (by simpa using hp),
        List.filter_cons_of_neg (by simpa [← hpq.1] using hp)]
      exact ih

theorem optionRel_cases {R : α → β → Prop} {o1 : Option α} {o2 : Option β}
    (h : Option.Rel R o1 o2) :
    (o1 = none ∧ o2 = none) ∨ ∃ a b, o1 = some a ∧ o2 = some b ∧ R a b := by
  cases h with
  | none => exact Or.inl ⟨rfl, rfl⟩
  | some hab => exact Or.inr ⟨_, _, rfl, rfl, hab⟩

theorem find?_rel {R : α → β → Prop} (p1 : α → Bool) (p2 : β → Bool)
    (hp : ∀ a b, R a b → p1 a = p2 b) :
    ∀ {l1 : List α} {l2 : List β}, List.Forall₂ R l1 l2 →
    Option.Rel R (l1.find? p1) (l2.find? p2) := by
  intro l1 l2 h
  induction h with
  | nil => exact Option.Rel.none
  | cons hpq hrest ih =>
    rename_i a b t1 t2
    by_cases ha : p1 a
    · rw [List.find?_cons_of_pos _ ha, List.find?_cons_of_pos _ (by rw [← hp a b hpq]; exact ha)]
      exact Option.Rel.some hpq
    · rw [List.find?_cons_of_neg _ ha,
        List.find?_cons_of_neg _ (by rw [← hp a b hpq]; simpa using ha)]
      exact ih

theorem getConcentrationAtTime_rel (time : ℚ) {l1 l2 : List ConcentrationPoint}
    (h : List.Forall₂ PointRel l1 l2) :
    Option.Rel PointRel (getConcentrationAtTime time l1) (getConcentrationAtTime time l2) := by
  have hexact := find?_rel (R := PointRel)
    (fun p => decide (round2 p.time = round2 time)) (fun p => decide (round2 p.time = round2 time))
    (by intro a b hab
        show decide (round2 a.time = round2 time) = decide (round2 b.time = round2 time)
        rw [hab.1]) (List.rel_reverse h)
  have htol := find?_rel (R := PointRel)
    (fun p => decide (|p.time - time| < TIME_POINT_TOLERANCE))
    (fun p => decide (|p.time - time| < TIME_POINT_TOLERANCE))
    (by intro a b hab
        show decide (|a.time - time| < TIME_POINT_TOLERANCE) =
          decide (|b.time - time| < TIME_POINT_TOLERANCE)
        rw [hab.1]) h
  unfold getConcentrationAtTime
  rcases optionRel_cases hexact with ⟨h1, h2⟩ | ⟨a, b, h1, h2, hab⟩
  · rw [h1, h2]; exact htol
  · rw [h1, h2]; exact Option.Rel.some hab

end Estradial
namespace Estradial

theorem refCycle_prog_none (totalDays : ℕ) (cycleType : ReferenceCycleType) :
    ∀ r ∈ generateReferenceCycle totalDays cycleType, r.progesterone = none := by
  intro r hr
  unfold generateReferenceCycle at hr
  rcases hfind : REFERENCE_CYCLES.find? (fun c => c.1 = cycleType) with _ | ci
  · rw [hfind] at hr; simp at hr
  · rw [hfind] at hr
    simp only [List.mem_map] at hr
    obtain ⟨day, _, hday⟩ := hr
    revert hday
    split <;> (intro hday; rw [← hday])

theorem mseAccumPoint_eq_foldl (generated : List ConcentrationPoint)
    (refPoint : ReferencePoint) (acc : MSEAccum) (offsets : List ℚ) :
    mseAccumPoint generated refPoint acc offsets =
      offsets.foldl (msePointStep generated refPoint) acc := rfl

theorem msePointStep_congr {g1 g2 : List ConcentrationPoint}
    (hrel : List.Forall₂ PointRel g1 g2) (r : ReferencePoint) (hr : r.progesterone = none)
    (acc : MSEAccum) (o : ℚ) :
    msePointStep g1 r acc o = msePointStep g2 r acc o := by
  unfold msePointStep
  simp only []
  rcases optionRel_cases (getConcentrationAtTime_rel (r.day + o) hrel) with
    ⟨h1, h2⟩ | ⟨a, b, h1, h2, hab⟩
  · rw [h1, h2]
  · rw [h1, h2]
    simp only [hr, hab.2]

theorem mseAccumPoint_congr {g1 g2 : List ConcentrationPoint}
    (hrel : List.Forall₂ PointRel g1 g2) (r : ReferencePoint) (hr : r.progesterone = none)
    (offsets : List ℚ) (acc : MSEAccum) :
    mseAccumPoint g1 r acc offsets = mseAccumPoint g2 r acc offsets := by
  rw [mseAccumPoint_eq_foldl, mseAccumPoint_eq_foldl]
  induction offsets generalizing acc with
  | nil => rfl
  | cons o os ih =>
    rw [List.foldl_cons, List.foldl_cons, msePointStep_congr hrel r hr acc o]
    exact ih _

theorem mseRefFold_congr {g1 g2 : List ConcentrationPoint}
    (hrel : List.Forall₂ PointRel g1 g2) (refs : List ReferencePoint)
    (hprog : ∀ r ∈ refs, r.progesterone = none) (acc : MSEAccum) :
    refs.foldl (fun acc r => mseAccumPoint g1 r acc sampleOffsets) acc =
    refs.foldl (fun acc r => mseAccumPoint g2 r acc sampleOffsets) acc := by
  induction refs generalizing acc with
  | nil => rfl
  | cons r rs ih =>
    rw [List.foldl_cons, List.foldl_cons,
      mseAccumPoint_congr hrel r (hprog r (by simp)) sampleOffsets acc]
    exact ih (fun x hx => hprog x (by simp [hx])) _

theorem filter_est_append_nonEst (ds : List Dose) (d : Dose)
    (hd : isEstradiolMedication d.medication = false) :
    (ds ++ [d]).filter (fun x => isEstradiolMedication x.medication) =
    ds.filter (fun x => isEstradiolMedication x.medication) := by
  simp [List.filter_append, hd]

theorem steadyStatePreCycles_filter_est (l1 l2 : List Dose) (L : ℕ)
    (h : l1.filter (fun x => isEstradiolMedication x.medication) =
         l2.filter (fun x => isEstradiolMedication x.medication)) :
    (steadyStatePreCycles l1 L).filter (fun x => isEstradiolMedication x.medication) =
    (steadyStatePreCycles l2 L).filter (fun x => isEstradiolMedication x.medication) := by
  unfold steadyStatePreCycles
  rw [List.filter_flatMap, List.filter_flatMap]
  congr 1
  funext cycle
  rw [List.filter_map, List.filter_map]
  show ((l1.filter fun x => isEstradiolMedication x.medication).map _ =
    (l2.filter fun x => isEstradiolMedication x.medication).map _)
  rw [h]

theorem dosesForCalc_filter_est (ds : List Dose) (d : Dose) (L : ℕ) (ss : Bool)
    (hd : isEstradiolMedication d.medication = false) :
    (if ss then steadyStatePreCycles (ds ++ [d]) L ++ (ds ++ [d]) else ds ++ [d]).filter
      (fun x => isEstradiolMedication x.medication) =
    (if ss then steadyStatePreCycles ds L ++ ds else ds).filter
      (fun x => isEstradiolMedication x.medication) := by
  cases ss
  · simpa using filter_est_append_nonEst ds d hd
  · show (steadyStatePreCycles (ds ++ [d]) L ++ (ds ++ [d])).filter _ =
      (steadyStatePreCycles ds L ++ ds).filter _
    rw [List.filter_append, List.filter_append,
      steadyStatePreCycles_filter_est (ds ++ [d]) ds L (filter_est_append_nonEst ds d hd)]
    simp [List.filter_append, hd]

theorem calculateMSE_append_nonEst (e : ℚ → ℚ) (ds : List Dose) (d : Dose)
    (ref : List ReferencePoint) (L : ℕ) (ss : Bool)
    (hd : isEstradiolMedication d.medication = false)
    (href : ∀ r ∈ ref, r.progesterone = none) :
    calculateMSE e (ds ++ [d]) ref L ss = calculateMSE e ds ref L ss := by
  simp only [calculateMSE]
  rw [mseRefFold_congr
    (forall₂_filter_time (totalConc_rel e _ _ (generateTimePoints (L : ℚ) TIME_POINT_STEP)
      (dosesForCalc_filter_est ds d L ss hd)))
    (ref.filter (fun r => decide (r.day ≥ 0 ∧ r.day < (L : ℚ))))
    (fun r hr => href r (List.mem_of_mem_filter hr)) ⟨0, 0, 0, 0⟩]

end Estradial

namespace Estradial

theorem dedup_length_le_append {α : Type} [DecidableEq α] (l : List α) (x : α) :
    l.dedup.length ≤ (l ++ [x]).dedup.length := by
  rw [← List.card_toFinset, ← List.card_toFinset]
  apply Finset.card_le_card
  intro a ha
  rw [List.mem_toFinset] at ha ⊢
  exact List.mem_append_left _ ha

theorem estCount_append_nonEst (ds : List Dose) (d : Dose)
    (hd : isEstradiolMedication d.medication = false) :
    estCount (ds ++ [d]) = estCount ds := by
  unfold estCount
  rw [List.countP_append]
  simp [hd]

theorem calcScore_append_nonEst_ge (ds : List Dose) (d : Dose) (mse : ℚ) (acc : Bool)
    (hd : isEstradiolMedication d.medication = false) :
    calculateMultiObjectiveScore ds mse acc ≤ calculateMultiObjectiveScore (ds ++ [d]) mse acc := by
  unfold calculateMultiObjectiveScore
  cases acc
  · simp only [Bool.false_eq_true, if_false, PREFER_FEWER_MEDICATIONS]
    have hcnt : (ds ++ [d]).countP (fun x => isEstradiolMedication x.medication) =
        ds.countP (fun x => isEstradiolMedication x.medication) := by
      rw [List.countP_append]; simp [hd]
    rw [hcnt]
    have hdl : ((ds.map (fun x => round2 x.dose)).dedup.length : ℚ) ≤
        (((ds ++ [d]).map (fun x => round2 x.dose)).dedup.length : ℚ) := by
      exact_mod_cast (by rw [List.map_append]; exact dedup_length_le_append _ _ :
        (ds.map (fun x => round2 x.dose)).dedup.length ≤
          ((ds ++ [d]).map (fun x => round2 x.dose)).dedup.length)
    unfold DOSE_COMPLEXITY_WEIGHT
    linarith
  · simp

theorem scoreOf_append_nonEst_ge (e : ℚ → ℚ) (ref : List ReferencePoint) (L : ℕ) (ss acc : Bool)
    (ds : List Dose) (d : Dose)
    (hd : isEstradiolMedication d.medication = false)
    (href : ∀ r ∈ ref, r.progesterone = none) :
    scoreOf e ref L ss acc ds ≤ scoreOf e ref L ss acc (ds ++ [d]) := by
  unfold scoreOf
  rw [calculateMSE_append_nonEst e ds d ref L ss hd href]
  exact calcScore_append_nonEst_ge ds d _ acc hd

/-- Invariant preservation along a left fold. -/
theorem foldl_preserve {α β : Type} (P : β → Prop) (f : β → α → β) :
    ∀ (l : List α) (b : β), P b → (∀ x a, a ∈ l → P x → P (f x a)) → P (l.foldl f b)
  | [], b, hb, _ => hb
  | a :: l, b, hb, hstep =>
    foldl_preserve P f l (f b a) (hstep b a (by simp) hb)
      (fun x a' ha' hx => hstep x a' (by simp [ha']) hx)

end Estradial

namespace Estradial

theorem adjustStepsGo_inv (tryDose : ℕ → ℚ) (stop : ℚ → Bool) (eval : ℚ → ℚ) (s0 : ℚ) :
    ∀ (remaining n : ℕ) (best : ℚ × ℚ × Bool),
      best.2.1 = eval best.1 → best.2.1 ≤ s0 →
      (adjustStepsGo tryDose stop eval remaining n best).2.1 =
        eval (adjustStepsGo tryDose stop eval remaining n best).1 ∧
      (adjustStepsGo tryDose stop eval remaining n best).2.1 ≤ s0 := by
  intro remaining
  induction remaining with
  | zero => intro n best h1 h2; exact ⟨h1, h2⟩
  | succ m ih =>
    intro n best h1 h2
    unfold adjustStepsGo
    simp only []
    split
    · exact ⟨h1, h2⟩
    · apply ih
      · by_cases hlt : eval (tryDose n) < best.2.1
        · rw [if_pos hlt]
        · rw [if_neg hlt]; exact h1
      · by_cases hlt : eval (tryDose n) < best.2.1
        · rw [if_pos hlt]; exact le_of_lt (lt_of_lt_of_le hlt h2)
        · rw [if_neg hlt]; exact h2

theorem tryAdjustDosesGo_cons (e : ℚ → ℚ) (ref : List ReferencePoint) (L : ℕ)
    (ss acc : Bool) (progDoses : List ℚ) (gran maxD minD : ℚ)
    (concTbl : List (String × ℚ)) (done : List Dose) (d : Dose) (rest : List Dose)
    (score : ℚ) (imp : Bool) :
    tryAdjustDosesGo e ref L ss acc progDoses gran maxD minD concTbl
      done (d :: rest) score imp =
    tryAdjustDosesGo e ref L ss acc progDoses gran maxD minD concTbl
      (done ++ [{ d with
        dose := (adjustBest e ref L ss acc progDoses gran maxD minD concTbl
          done d rest score).1 }]) rest
      (adjustBest e ref L ss acc progDoses gran maxD minD concTbl done d rest score).2.1
      (imp || (adjustBest e ref L ss acc progDoses gran maxD minD concTbl
        done d rest score).2.2) := rfl

theorem adjustBest_Q (e : ℚ → ℚ) (ref : List ReferencePoint) (L : ℕ)
    (ss acc : Bool) (progDoses : List ℚ) (gran maxD minD : ℚ)
    (concTbl : List (String × ℚ)) (done : List Dose) (d : Dose) (rest : List Dose)
    (score : ℚ) (h : score = scoreOf e ref L ss acc (done ++ d :: rest)) :
    (adjustBest e ref L ss acc progDoses gran maxD minD concTbl done d rest score).2.1 =
      scoreOf e ref L ss acc (done ++ { d with
        dose := (adjustBest e ref L ss acc progDoses gran maxD minD concTbl
          done d rest score).1 } :: rest) ∧
    (adjustBest e ref L ss acc progDoses gran maxD minD concTbl done d rest score).2.1 ≤
      score := by
  unfold adjustBest
  simp only []
  split
  · refine foldl_preserve
      (fun b : ℚ × ℚ × Bool => b.2.1 = scoreOf e ref L ss acc (done ++ { d with dose := b.1 } :: rest) ∧
        b.2.1 ≤ score) _ progDoses _ ⟨h, le_refl _⟩ ?_
    intro x a _ hx
    by_cases h1 : a = d.dose
    · simpa [h1] using hx
    · by_cases h2 : a > maxD ∨ a < minD
      · simpa [h1, h2] using hx
      · by_cases h3 : scoreOf e ref L ss acc (done ++ { d with dose := a } :: rest) < x.2.1
        · simp only [h1, h2, h3, if_false, if_true]
          exact ⟨by trivial, le_of_lt (lt_of_lt_of_le h3 hx.2)⟩
        · simpa [h1, h2, h3] using hx
  · exact adjustStepsGo_inv _ _ _ score _ _ _
      (adjustStepsGo_inv _ _ _ score _ _ _ h (le_refl _)).1
      (adjustStepsGo_inv _ _ _ score _ _ _ h (le_refl _)).2

theorem tryAdjustDosesGo_spec (e : ℚ → ℚ) (ref : List ReferencePoint) (L : ℕ)
    (ss acc : Bool) (progDoses : List ℚ) (gran maxD minD : ℚ)
    (concTbl : List (String × ℚ)) :
    ∀ (todo done : List Dose) (score : ℚ) (imp : Bool),
      score = scoreOf e ref L ss acc (done ++ todo) →
      (tryAdjustDosesGo e ref L ss acc progDoses gran maxD minD concTbl
          done todo score imp).1.map (fun d => (d.day, d.medication)) =
        (done ++ todo).map (fun d => (d.day, d.medication)) ∧
      (tryAdjustDosesGo e ref L ss acc progDoses gran maxD minD concTbl
          done todo score imp).2.1 =
        scoreOf e ref L ss acc
          (tryAdjustDosesGo e ref L ss acc progDoses gran maxD minD concTbl
            done todo score imp).1 ∧
      (tryAdjustDosesGo e ref L ss acc progDoses gran maxD minD concTbl
          done todo score imp).2.1 ≤ score := by
  intro todo
  induction todo with
  | nil =>
    intro done score imp h
    simp only [tryAdjustDosesGo]
    exact ⟨by simp, by simpa using h, le_refl _⟩
  | cons d rest ih =>
    intro done score imp h
    rw [tryAdjustDosesGo_cons]
    obtain ⟨hQ1, hQ2⟩ := adjustBest_Q e ref L ss acc progDoses gran maxD minD concTbl
      done d rest score h
    have hscore' : (adjustBest e ref L ss acc progDoses gran maxD minD concTbl
        done d rest score).2.1 = scoreOf e ref L ss acc
        ((done ++ [{ d with dose := (adjustBest e ref L ss acc progDoses gran maxD minD
          concTbl done d rest score).1 }]) ++ rest) := by
      rw [hQ1]
      simp [List.append_assoc]
    obtain ⟨hmap, hcons, hle⟩ := ih _ _ (imp || _) hscore'
    refine ⟨?_, hcons, le_trans hle hQ2⟩
    rw [hmap]
    simp [List.map_append]

end Estradial

namespace Estradial

theorem tryMoveDaysGo_cons (e : ℚ → ℚ) (ref : List ReferencePoint) (L : ℕ)
    (ss acc : Bool) (highE highP : List ℚ) (done : List Dose) (d : Dose)
    (rest : List Dose) (score : ℚ) (imp : Bool) :
    tryMoveDaysGo e ref L ss acc highE highP done (d :: rest) score imp =
    tryMoveDaysGo e ref L ss acc highE highP
      (done ++ [(if (moveBest e ref L ss acc highE highP done d rest score).1 ≠ d.day
        then ({ d with day := (moveBest e ref L ss acc highE highP done d rest score).1 },
          (moveBest e ref L ss acc highE highP done d rest score).2.1)
        else (d, score)).1]) rest
      (if (moveBest e ref L ss acc highE highP done d rest score).1 ≠ d.day
        then ({ d with day := (moveBest e ref L ss acc highE highP done d rest score).1 },
          (moveBest e ref L ss acc highE highP done d rest score).2.1)
        else (d, score)).2
      (imp || (moveBest e ref L ss acc highE highP done d rest score).2.2) := rfl

theorem moveBest_Q (e : ℚ → ℚ) (ref : List ReferencePoint) (L : ℕ)
    (ss acc : Bool) (highE highP : List ℚ) (done : List Dose) (d : Dose)
    (rest : List Dose) (score : ℚ) :
    (moveBest e ref L ss acc highE highP done d rest score).2.1 ≤ score ∧
    ((moveBest e ref L ss acc highE highP done d rest score).2.1 =
        scoreOf e ref L ss acc (done ++ { d with
          day := (moveBest e ref L ss acc highE highP done d rest score).1 } :: rest) ∨
      ((moveBest e ref L ss acc highE highP done d rest score).1 = d.day ∧
        (moveBest e ref L ss acc highE highP done d rest score).2.1 = score)) := by
  unfold moveBest
  simp only []
  refine foldl_preserve
    (fun b : ℚ × ℚ × Bool => b.2.1 ≤ score ∧
      (b.2.1 = scoreOf e ref L ss acc (done ++ { d with day := b.1 } :: rest) ∨
        (b.1 = d.day ∧ b.2.1 = score))) _ _ _ ⟨le_refl _, Or.inr ⟨rfl, rfl⟩⟩ ?_
  intro x a _ hx
  by_cases h1 : a = d.day
  · simpa [h1] using hx
  · by_cases h2 : scoreOf e ref L ss acc (done ++ { d with day := a } :: rest) < x.2.1
    · simp only [h1, h2, if_false, if_true]
      exact ⟨le_of_lt (lt_of_lt_of_le h2 hx.1), Or.inl (by trivial)⟩
    · simpa [h1, h2] using hx

theorem tryMoveDaysGo_spec (e : ℚ → ℚ) (ref : List ReferencePoint) (L : ℕ)
    (ss acc : Bool) (highE highP : List ℚ) :
    ∀ (todo done : List Dose) (score : ℚ) (imp : Bool),
      score = scoreOf e ref L ss acc (done ++ todo) →
      (tryMoveDaysGo e ref L ss acc highE highP done todo score imp).1.map
          (fun d => d.medication) =
        (done ++ todo).map (fun d => d.medication) ∧
      (tryMoveDaysGo e ref L ss acc highE highP done todo score imp).2.1 =
        scoreOf e ref L ss acc
          (tryMoveDaysGo e ref L ss acc highE highP done todo score imp).1 ∧
      (tryMoveDaysGo e ref L ss acc highE highP done todo score imp).2.1 ≤ score := by
  intro todo
  induction todo with
  | nil =>
    intro done score imp h
    simp only [tryMoveDaysGo]
    exact ⟨by simp, by simpa using h, le_refl _⟩
  | cons d rest ih =>
    intro done score imp h
    rw [tryMoveDaysGo_cons]
    obtain ⟨hle, hdisj⟩ := moveBest_Q e ref L ss acc highE highP done d rest score
    by_cases hne : (moveBest e ref L ss acc highE highP done d rest score).1 ≠ d.day
    · rw [if_pos hne]
      have hcons : (moveBest e ref L ss acc highE highP done d rest score).2.1 =
          scoreOf e ref L ss acc ((done ++ [{ d with
            day := (moveBest e ref L ss acc highE highP done d rest score).1 }]) ++ rest) := by
        rcases hdisj with h' | ⟨h', _⟩
        · rw [h']; simp [List.append_assoc]
        · exact absurd h' hne
      obtain ⟨hmap, hsc, hle2⟩ := ih _ _ (imp || _) hcons
      refine ⟨?_, hsc, le_trans hle2 hle⟩
      rw [hmap]
      simp [List.map_append]
    · rw [if_neg hne]
      have hcons : score = scoreOf e ref L ss acc ((done ++ [d]) ++ rest) := by
        rw [h]; simp [List.append_assoc]
      obtain ⟨hmap, hsc, hle2⟩ := ih _ _ (imp || _) hcons
      refine ⟨?_, hsc, le_trans hle2 (le_refl _)⟩
      rw [hmap]
      simp [List.map_append]

end Estradial

namespace Estradial

theorem trySwitchMedicationsGo_cons (e : ℚ → ℚ) (ln2 : ℚ) (ref : List ReferencePoint)
    (L : ℕ) (ss acc : Bool) (availableEsters : List Medication) (progDoses : List ℚ)
    (concTbl : List (String × ℚ)) (maxD : ℚ) (done : List Dose) (d : Dose)
    (rest : List Dose) (score : ℚ) (imp : Bool) :
    trySwitchMedicationsGo e ln2 ref L ss acc availableEsters progDoses concTbl maxD
      done (d :: rest) score imp =
    trySwitchMedicationsGo e ln2 ref L ss acc availableEsters progDoses concTbl maxD
      (done ++ [{ d with
        medication := (switchBest e ln2 ref L ss acc availableEsters progDoses concTbl
          maxD done d rest score).1,
        dose := (switchBest e ln2 ref L ss acc availableEsters progDoses concTbl
          maxD done d rest score).2.1 }]) rest
      (switchBest e ln2 ref L ss acc availableEsters progDoses concTbl
        maxD done d rest score).2.2.1
      (imp || (switchBest e ln2 ref L ss acc availableEsters progDoses concTbl
        maxD done d rest score).2.2.2) := rfl

theorem switchBest_Q (e : ℚ → ℚ) (ln2 : ℚ) (ref : List ReferencePoint) (L : ℕ)
    (ss acc : Bool) (availableEsters : List Medication) (progDoses : List ℚ)
    (concTbl : List (String × ℚ)) (maxD : ℚ) (done : List Dose) (d : Dose)
    (rest : List Dose) (score : ℚ)
    (h : score = scoreOf e ref L ss acc (done ++ d :: rest)) :
    (switchBest e ln2 ref L ss acc availableEsters progDoses concTbl
        maxD done d rest score).2.2.1 ≤ score ∧
    (switchBest e ln2 ref L ss acc availableEsters progDoses concTbl
        maxD done d rest score).2.2.1 =
      scoreOf e ref L ss acc (done ++ { d with
        medication := (switchBest e ln2 ref L ss acc availableEsters progDoses concTbl
          maxD done d rest score).1,
        dose := (switchBest e ln2 ref L ss acc availableEsters progDoses concTbl
          maxD done d rest score).2.1 } :: rest) ∧
    ((switchBest e ln2 ref L ss acc availableEsters progDoses concTbl
        maxD done d rest score).1 = d.medication ∨
      (switchBest e ln2 ref L ss acc availableEsters progDoses concTbl
        maxD done d rest score).1 ∈
          switchCands ln2 L availableEsters (done ++ d :: rest) d) := by
  unfold switchBest
  simp only []
  refine foldl_preserve
    (fun b : Medication × ℚ × ℚ × Bool => b.2.2.1 ≤ score ∧
      b.2.2.1 = scoreOf e ref L ss acc
        (done ++ { d with medication := b.1, dose := b.2.1 } :: rest) ∧
      (b.1 = d.medication ∨ b.1 ∈ switchCands ln2 L availableEsters (done ++ d :: rest) d))
    _ _ _ ⟨le_refl _, h, Or.inl rfl⟩ ?_
  intro x a ha hx
  repeat' split
  all_goals
    first
      | exact hx
      | (rename_i hlt
         exact ⟨le_of_lt (lt_of_lt_of_le hlt hx.1), rfl, Or.inr ha⟩)

end Estradial

namespace Estradial

theorem selectBestEstersForGap_est (ln2 gapDays : ℚ) (avail : List Medication)
    (havail : avail.filter isEstradiolMedication ≠ []) :
    ∀ m ∈ selectBestEstersForGap ln2 gapDays avail, isEstradiolMedication m = true := by
  intro m hm
  unfold selectBestEstersForGap at hm
  simp only [] at hm
  rw [if_neg (fun h0 => havail (List.length_eq_zero.mp h0))] at hm
  have h1 : m ∈ jsSortBy (fun a b =>
      decide (|getEstradiolHalfLife ln2 a - gapDays * (2/5)| ≤
              |getEstradiolHalfLife ln2 b - gapDays * (2/5)|))
      (avail.filter isEstradiolMedication) := List.mem_of_mem_take hm
  have h2 : m ∈ avail.filter isEstradiolMedication := (jsSortBy_mem _ _ _).mp h1
  exact (List.mem_filter.mp h2).2

theorem switchCands_est (ln2 : ℚ) (L : ℕ) (avail : List Medication) (cur : List Dose)
    (d : Dose) (havail : avail.filter isEstradiolMedication ≠ [])
    (hd : isEstradiolMedication d.medication = true) :
    ∀ m ∈ switchCands ln2 L avail cur d, isEstradiolMedication m = true := by
  intro m hm
  unfold switchCands at hm
  rw [if_pos hd] at hm
  exact selectBestEstersForGap_est ln2 _ avail havail m hm

theorem switchCands_nonEst (ln2 : ℚ) (L : ℕ) (avail : List Medication) (cur : List Dose)
    (d : Dose) (havail : avail.filter isEstradiolMedication = [])
    (hd : isEstradiolMedication d.medication = false) :
    ∀ m ∈ switchCands ln2 L avail cur d, isEstradiolMedication m = false := by
  intro m hm
  unfold switchCands at hm
  rw [if_neg (by simp [hd])] at hm
  by_contra hcon
  have hmt : isEstradiolMedication m = true := by
    cases hval : isEstradiolMedication m
    · exact absurd hval hcon
    · rfl
  have h1 : m ∈ avail.filter isEstradiolMedication := List.mem_filter.mpr ⟨hm, hmt⟩
  rw [havail] at h1
  exact (List.not_mem_nil m) h1

theorem trySwitchMedicationsGo_spec (e : ℚ → ℚ) (ln2 : ℚ) (ref : List ReferencePoint)
    (L : ℕ) (ss acc : Bool) (avail : List Medication) (progDoses : List ℚ)
    (concTbl : List (String × ℚ)) (maxD : ℚ) (pb : Bool)
    (hcands : ∀ (cur : List Dose) (d : Dose), isEstradiolMedication d.medication = pb →
      ∀ m ∈ switchCands ln2 L avail cur d, isEstradiolMedication m = pb) :
    ∀ (todo done : List Dose) (score : ℚ) (imp : Bool),
      score = scoreOf e ref L ss acc (done ++ todo) →
      (∀ x ∈ done ++ todo, isEstradiolMedication x.medication = pb) →
      (trySwitchMedicationsGo e ln2 ref L ss acc avail progDoses concTbl maxD
          done todo score imp).1.length = (done ++ todo).length ∧
      (∀ x ∈ (trySwitchMedicationsGo e ln2 ref L ss acc avail progDoses concTbl maxD
          done todo score imp).1, isEstradiolMedication x.medication = pb) ∧
      (trySwitchMedicationsGo e ln2 ref L ss acc avail progDoses concTbl maxD
          done todo score imp).2.1 =
        scoreOf e ref L ss acc
          (trySwitchMedicationsGo e ln2 ref L ss acc avail progDoses concTbl maxD
            done todo score imp).1 ∧
      (trySwitchMedicationsGo e ln2 ref L ss acc avail progDoses concTbl maxD
          done todo score imp).2.1 ≤ score := by
  intro todo
  induction todo with
  | nil =>
    intro done score imp h hpure
    simp only [trySwitchMedicationsGo]
    exact ⟨by simp, by simpa using hpure, by simpa using h, le_refl _⟩
  | cons d rest ih =>
    intro done score imp h hpure
    rw [trySwitchMedicationsGo_cons]
    obtain ⟨hle, hcons, hmemor⟩ := switchBest_Q e ln2 ref L ss acc avail progDoses
      concTbl maxD done d rest score h
    have hd : isEstradiolMedication d.medication = pb := hpure d (by simp)
    have hflag : isEstradiolMedication
        (switchBest e ln2 ref L ss acc avail progDoses concTbl maxD done d rest score).1 =
        pb := by
      rcases hmemor with h' | h'
      · rw [h']; exact hd
      · exact hcands (done ++ d :: rest) d hd _ h'
    have hscore' : (switchBest e ln2 ref L ss acc avail progDoses concTbl maxD
        done d rest score).2.2.1 = scoreOf e ref L ss acc
        ((done ++ [{ d with
          medication := (switchBest e ln2 ref L ss acc avail progDoses concTbl maxD
            done d rest score).1,
          dose := (switchBest e ln2 ref L ss acc avail progDoses concTbl maxD
            done d rest score).2.1 }]) ++ rest) := by
      rw [hcons]; simp [List.append_assoc]
    have hpure' : ∀ x ∈ (done ++ [{ d with
        medication := (switchBest e ln2 ref L ss acc avail progDoses concTbl maxD
          done d rest score).1,
        dose := (switchBest e ln2 ref L ss acc avail progDoses concTbl maxD
          done d rest score).2.1 }]) ++ rest,
        isEstradiolMedication x.medication = pb := by
      intro x hx
      rcases List.mem_append.mp hx with hx' | hx'
      · rcases List.mem_append.mp hx' with hx'' | hx''
        · exact hpure x (by simp [hx''])
        · rw [List.mem_singleton.mp hx'']
          exact hflag
      · exact hpure x (by simp [hx'])
    obtain ⟨hlen, hpure2, hsc, hle2⟩ := ih _ _ (imp || _) hscore' hpure'
    refine ⟨?_, hpure2, hsc, le_trans hle2 hle⟩
    rw [hlen]
    simp

end Estradial

namespace Estradial

theorem canAdd_est_count (med : Medication) (day : ℚ) (cur : List Dose) (cap : ℕ)
    (hcan : canAddMedicationToDay med day cur cap = true)
    (hest : isEstradiolMedication med = true) :
    cur.countP (fun d => isEstradiolMedication d.medication) < cap := by
  by_cases hc2 : cap ≤ cur.countP (fun d => isEstradiolMedication d.medication)
  · exfalso
    unfold canAddMedicationToDay at hcan
    simp only [] at hcan
    by_cases hc1 : (isEstradiolMedication med = true ∧
        ((cur.filter (fun d => decide (d.day = day))).map
          (fun d => d.medication.name)).contains med.name = true)
    · rw [if_pos hc1] at hcan
      exact Bool.false_ne_true hcan
    · rw [if_neg hc1, if_pos ⟨hest, hc2⟩] at hcan
      exact Bool.false_ne_true hcan
  · omega

theorem prog_of_not_est (m : Medication) (h : isEstradiolMedication m = false) :
    isProgesteroneMedication m = true := by
  cases m
  · simp [isEstradiolMedication] at h
  · rfl

theorem not_prog_of_est (m : Medication) (h : isEstradiolMedication m = true) :
    isProgesteroneMedication m = false := by
  cases m
  · rfl
  · simp [isEstradiolMedication] at h

theorem tryAddMedicationsDay_inv (e : ℚ → ℚ) (ref : List ReferencePoint) (L : ℕ)
    (ss accOnly : Bool) (avail : List Medication) (progDoses : List ℚ)
    (concTbl : List (String × ℚ)) (cap : ℕ) (maxD : ℚ) (day : ℚ) (s0 : ℚ) (pb : Bool)
    (href : ∀ r ∈ ref, r.progesterone = none)
    (hAvailB : pb = false → avail.filter isEstradiolMedication = [])
    (acc : List Dose × ℚ × Bool)
    (hacc : acc.2.1 = scoreOf e ref L ss accOnly acc.1 ∧ acc.2.1 ≤ s0 ∧
      (∀ x ∈ acc.1, isEstradiolMedication x.medication = pb) ∧ estCount acc.1 ≤ cap) :
    (tryAddMedicationsDay e ref L ss accOnly avail progDoses concTbl cap maxD day acc).2.1 =
      scoreOf e ref L ss accOnly
        (tryAddMedicationsDay e ref L ss accOnly avail progDoses concTbl cap maxD day acc).1 ∧
    (tryAddMedicationsDay e ref L ss accOnly avail progDoses concTbl cap maxD day acc).2.1 ≤
      s0 ∧
    (∀ x ∈ (tryAddMedicationsDay e ref L ss accOnly avail progDoses concTbl cap maxD
        day acc).1, isEstradiolMedication x.medication = pb) ∧
    estCount (tryAddMedicationsDay e ref L ss accOnly avail progDoses concTbl cap maxD
      day acc).1 ≤ cap := by
  unfold tryAddMedicationsDay
  refine foldl_preserve
    (fun a : List Dose × ℚ × Bool => a.2.1 = scoreOf e ref L ss accOnly a.1 ∧ a.2.1 ≤ s0 ∧
      (∀ x ∈ a.1, isEstradiolMedication x.medication = pb) ∧ estCount a.1 ≤ cap)
    _ _ _ hacc ?_
  intro x med hmed hx
  simp only []
  split
  · exact hx
  · rename_i hcannot
    have hcan : canAddMedicationToDay med day x.1 cap = true := by
      by_contra hc
      exact hcannot (by simpa using hc)
    cases hest : isEstradiolMedication med with
    | false =>
      split
      all_goals
        split
        · rename_i himp
          exact absurd himp (not_lt.mpr (le_trans (le_of_eq hx.1)
            (scoreOf_append_nonEst_ge e ref L ss accOnly x.1 _ hest href)))
        · exact hx
    | true =>
      have hpb : pb = true := by
        cases hpbv : pb
        · exfalso
          have hfe := hAvailB hpbv
          have hin : med ∈ avail.filter isEstradiolMedication :=
            List.mem_filter.mpr ⟨hmed, hest⟩
          rw [hfe] at hin
          exact List.not_mem_nil med hin
        · rfl
      have hcnt := canAdd_est_count med day x.1 cap hcan hest
      split
      · rename_i hPT
        exact absurd hPT (by simp [not_prog_of_est med hest])
      · split
        · rename_i himp
          refine ⟨rfl, le_of_lt (lt_of_lt_of_le himp hx.2.1), ?_, ?_⟩
          · intro y hy
            rcases List.mem_append.mp hy with hy' | hy'
            · exact hx.2.2.1 y hy'
            · rw [List.mem_singleton.mp hy', hpb]
              exact hest
          · show estCount (x.1 ++ _) ≤ cap
            unfold estCount
            rw [List.countP_append]
            have hone : List.countP (fun d : Dose => isEstradiolMedication d.medication)
                [(⟨day, min (DEFAULT_ESTRADIOL_STARTING_VOLUME_ML *
                  concLookup concTbl med.name 100) maxD, med⟩ : Dose)] = 1 := by
              simp [List.countP_cons, hest]
            rw [hone]
            omega
        · exact hx

end Estradial

namespace Estradial

theorem medmap_of_pairmap {l1 l2 : List Dose}
    (h : l1.map (fun d => (d.day, d.medication)) = l2.map (fun d => (d.day, d.medication))) :
    l1.map (fun d => d.medication) = l2.map (fun d => d.medication) := by
  have h2 := congrArg (List.map Prod.snd) h
  simpa [List.map_map, Function.comp] using h2

theorem purity_of_medmap {l1 l2 : List Dose} (b : Bool)
    (h : l1.map (fun d => d.medication) = l2.map (fun d => d.medication))
    (hp : ∀ x ∈ l2, isEstradiolMedication x.medication = b) :
    ∀ x ∈ l1, isEstradiolMedication x.medication = b := by
  intro x hx
  have hmem : x.medication ∈ l2.map (fun d => d.medication) := by
    rw [← h]
    exact List.mem_map.mpr ⟨x, hx, rfl⟩
  obtain ⟨y, hy, hye⟩ := List.mem_map.mp hmem
  rw [← hye]
  exact hp y hy

theorem estCount_of_medmap {l1 l2 : List Dose}
    (h : l1.map (fun d => d.medication) = l2.map (fun d => d.medication)) :
    estCount l1 = estCount l2 := by
  unfold estCount
  have h1 := List.countP_map isEstradiolMedication (fun d : Dose => d.medication) l1
  have h2 := List.countP_map isEstradiolMedication (fun d : Dose => d.medication) l2
  have h3 : List.countP (isEstradiolMedication ∘ fun d : Dose => d.medication) l1 =
      List.countP (fun d : Dose => isEstradiolMedication d.medication) l1 := rfl
  have h4 : List.countP (isEstradiolMedication ∘ fun d : Dose => d.medication) l2 =
      List.countP (fun d : Dose => isEstradiolMedication d.medication) l2 := rfl
  rw [← h3, ← h1, ← h4, ← h2, h]

theorem tryRemove_id (e : ℚ → ℚ) (params : OptimizationParams)
    (ref : List ReferencePoint) (s : OptimizationState)
    (hcap : estCount s.currentDoses ≤ params.maxInjD) :
    tryRemoveEstradiolDose e s ref params.scheduleLength params.steadyStateD
      params.maxInjD params.accOnlyD = ⟨s.currentDoses, s.currentScore, false⟩ := by
  unfold tryRemoveEstradiolDose
  simp only []
  have hcap2 : List.countP (fun d => isEstradiolMedication d.medication)
    s.currentDoses ≤ params.maxInjD := hcap
  rw [if_pos hcap2]

theorem tryAdjustDoses_spec (e : ℚ → ℚ) (params : OptimizationParams)
    (ref : List ReferencePoint) (s : OptimizationState)
    (h : s.currentScore = scoreOf e ref params.scheduleLength params.steadyStateD
      params.accOnlyD s.currentDoses) :
    (tryAdjustDoses e s ref params.scheduleLength params.steadyStateD params
        params.accOnlyD).doses.map (fun d => d.medication) =
      s.currentDoses.map (fun d => d.medication) ∧
    (tryAdjustDoses e s ref params.scheduleLength params.steadyStateD params
        params.accOnlyD).score =
      scoreOf e ref params.scheduleLength params.steadyStateD params.accOnlyD
        (tryAdjustDoses e s ref params.scheduleLength params.steadyStateD params
          params.accOnlyD).doses ∧
    (tryAdjustDoses e s ref params.scheduleLength params.steadyStateD params
        params.accOnlyD).score ≤ s.currentScore := by
  unfold tryAdjustDoses
  simp only []
  obtain ⟨hmap, hcons, hle⟩ := tryAdjustDosesGo_spec e ref params.scheduleLength
    params.steadyStateD params.accOnlyD params.progDosesD
    (params.granularityD * s.currentGranularityMultiplier) params.maxDoseD params.minDoseD
    params.esterConcentrations s.currentDoses [] s.currentScore false (by simpa using h)
  exact ⟨medmap_of_pairmap (by simpa using hmap), hcons, hle⟩

theorem tryMoveDays_spec (e : ℚ → ℚ) (params : OptimizationParams)
    (ref : List ReferencePoint) (s : OptimizationState)
    (h : s.currentScore = scoreOf e ref params.scheduleLength params.steadyStateD
      params.accOnlyD s.currentDoses) :
    (tryMoveDays e s ref params.scheduleLength params.steadyStateD
        params.accOnlyD).doses.map (fun d => d.medication) =
      s.currentDoses.map (fun d => d.medication) ∧
    (tryMoveDays e s ref params.scheduleLength params.steadyStateD
        params.accOnlyD).score =
      scoreOf e ref params.scheduleLength params.steadyStateD params.accOnlyD
        (tryMoveDays e s ref params.scheduleLength params.steadyStateD
          params.accOnlyD).doses ∧
    (tryMoveDays e s ref params.scheduleLength params.steadyStateD
        params.accOnlyD).score ≤ s.currentScore := by
  unfold tryMoveDays
  simp only []
  obtain ⟨hmap, hcons, hle⟩ := tryMoveDaysGo_spec e ref params.scheduleLength
    params.steadyStateD params.accOnlyD
    (getHighValueDays ref params.scheduleLength false)
    (getHighValueDays ref params.scheduleLength true)
    s.currentDoses [] s.currentScore false (by simpa using h)
  exact ⟨by simpa using hmap, hcons, hle⟩

end Estradial

namespace Estradial

theorem trySwitchMedications_spec (e : ℚ → ℚ) (lnv : ℚ) (params : OptimizationParams)
    (ref : List ReferencePoint) (s : OptimizationState)
    (h : s.currentScore = scoreOf e ref params.scheduleLength params.steadyStateD
      params.accOnlyD s.currentDoses)
    (hpureA : params.availableEsters.filter isEstradiolMedication ≠ [] →
      ∀ x ∈ s.currentDoses, isEstradiolMedication x.medication = true)
    (hpureB : params.availableEsters.filter isEstradiolMedication = [] →
      ∀ x ∈ s.currentDoses, isEstradiolMedication x.medication = false)
    (hcap : estCount s.currentDoses ≤ params.maxInjD) :
    (trySwitchMedications e lnv s ref params.scheduleLength params.steadyStateD params
        params.accOnlyD).score =
      scoreOf e ref params.scheduleLength params.steadyStateD params.accOnlyD
        (trySwitchMedications e lnv s ref params.scheduleLength params.steadyStateD params
          params.accOnlyD).doses ∧
    (trySwitchMedications e lnv s ref params.scheduleLength params.steadyStateD params
        params.accOnlyD).score ≤ s.currentScore ∧
    (params.availableEsters.filter isEstradiolMedication ≠ [] →
      ∀ x ∈ (trySwitchMedications e lnv s ref params.scheduleLength params.steadyStateD
        params params.accOnlyD).doses, isEstradiolMedication x.medication = true) ∧
    (params.availableEsters.filter isEstradiolMedication = [] →
      ∀ x ∈ (trySwitchMedications e lnv s ref params.scheduleLength params.steadyStateD
        params params.accOnlyD).doses, isEstradiolMedication x.medication = false) ∧
    estCount (trySwitchMedications e lnv s ref params.scheduleLength params.steadyStateD
      params params.accOnlyD).doses ≤ params.maxInjD := by
  unfold trySwitchMedications
  split
  · exact ⟨h, le_refl _, hpureA, hpureB, hcap⟩
  · simp only []
    by_cases hfe : params.availableEsters.filter isEstradiolMedication = []
    · obtain ⟨hlen, hpure, hcons, hle⟩ := trySwitchMedicationsGo_spec e lnv ref
        params.scheduleLength params.steadyStateD params.accOnlyD params.availableEsters
        params.progDosesD params.esterConcentrations params.maxDoseD false
        (fun cur d hd m hm => switchCands_nonEst lnv params.scheduleLength
          params.availableEsters cur d hfe hd m hm)
        s.currentDoses [] s.currentScore false (by simpa using h)
        (by simpa using hpureB hfe)
      refine ⟨hcons, hle, ?_, fun _ => hpure, ?_⟩
      · intro habs
        exact absurd hfe habs
      · have hz : estCount (trySwitchMedicationsGo e lnv ref params.scheduleLength
            params.steadyStateD params.accOnlyD params.availableEsters params.progDosesD
            params.esterConcentrations params.maxDoseD [] s.currentDoses
            s.currentScore false).1 = 0 := by
          unfold estCount
          rw [List.countP_eq_zero]
          intro a ha
          simp [hpure a ha]
        rw [hz]
        exact Nat.zero_le _
    · obtain ⟨hlen, hpure, hcons, hle⟩ := trySwitchMedicationsGo_spec e lnv ref
        params.scheduleLength params.steadyStateD params.accOnlyD params.availableEsters
        params.progDosesD params.esterConcentrations params.maxDoseD true
        (fun cur d hd m hm => switchCands_est lnv params.scheduleLength
          params.availableEsters cur d hfe hd m hm)
        s.currentDoses [] s.currentScore false (by simpa using h)
        (by simpa using hpureA hfe)
      refine ⟨hcons, hle, fun _ => hpure, ?_, ?_⟩
      · intro habs
        exact absurd habs hfe
      · have hfull : estCount (trySwitchMedicationsGo e lnv ref params.scheduleLength
            params.steadyStateD params.accOnlyD params.availableEsters params.progDosesD
            params.esterConcentrations params.maxDoseD [] s.currentDoses
            s.currentScore false).1 = (trySwitchMedicationsGo e lnv ref
              params.scheduleLength params.steadyStateD params.accOnlyD
              params.availableEsters params.progDosesD params.esterConcentrations
              params.maxDoseD [] s.currentDoses s.currentScore false).1.length := by
          unfold estCount
          rw [List.countP_eq_length]
          exact fun a ha => hpure a ha
        have hcur : estCount s.currentDoses = s.currentDoses.length := by
          unfold estCount
          rw [List.countP_eq_length]
          exact fun a ha => hpureA hfe a ha
        rw [hfull, hlen]
        simp only [List.nil_append]
        rw [← hcur]
        exact hcap

end Estradial

namespace Estradial

theorem tryAddMedications_spec (e : ℚ → ℚ) (params : OptimizationParams)
    (ref : List ReferencePoint) (s : OptimizationState)
    (href : ∀ r ∈ ref, r.progesterone = none)
    (h : s.currentScore = scoreOf e ref params.scheduleLength params.steadyStateD
      params.accOnlyD s.currentDoses)
    (hpureA : params.availableEsters.filter isEstradiolMedication ≠ [] →
      ∀ x ∈ s.currentDoses, isEstradiolMedication x.medication = true)
    (hpureB : params.availableEsters.filter isEstradiolMedication = [] →
      ∀ x ∈ s.currentDoses, isEstradiolMedication x.medication = false)
    (hcap : estCount s.currentDoses ≤ params.maxInjD) :
    (tryAddMedications e s ref params.scheduleLength params.steadyStateD params
        params.accOnlyD).score =
      scoreOf e ref params.scheduleLength params.steadyStateD params.accOnlyD
        (tryAddMedications e s ref params.scheduleLength params.steadyStateD params
          params.accOnlyD).doses ∧
    (tryAddMedications e s ref params.scheduleLength params.steadyStateD params
        params.accOnlyD).score ≤ s.currentScore ∧
    (params.availableEsters.filter isEstradiolMedication ≠ [] →
      ∀ x ∈ (tryAddMedications e s ref params.scheduleLength params.steadyStateD
        params params.accOnlyD).doses, isEstradiolMedication x.medication = true) ∧
    (params.availableEsters.filter isEstradiolMedication = [] →
      ∀ x ∈ (tryAddMedications e s ref params.scheduleLength params.steadyStateD
        params params.accOnlyD).doses, isEstradiolMedication x.medication = false) ∧
    estCount (tryAddMedications e s ref params.scheduleLength params.steadyStateD
      params params.accOnlyD).doses ≤ params.maxInjD := by
  unfold tryAddMedications
  split
  · exact ⟨h, le_refl _, hpureA, hpureB, hcap⟩
  · simp only []
    by_cases hfe : params.availableEsters.filter isEstradiolMedication = []
    · have hres := foldl_preserve
        (fun a : List Dose × ℚ × Bool =>
          a.2.1 = scoreOf e ref params.scheduleLength params.steadyStateD params.accOnlyD
            a.1 ∧ a.2.1 ≤ s.currentScore ∧
          (∀ x ∈ a.1, isEstradiolMedication x.medication = false) ∧
          estCount a.1 ≤ params.maxInjD)
        (fun acc day => tryAddMedicationsDay e ref params.scheduleLength
          params.steadyStateD params.accOnlyD params.availableEsters params.progDosesD
          params.esterConcentrations params.maxInjD params.maxDoseD day acc)
        ((jsSortBy
          (fun a b => decide (b.estradiol + b.progesterone.getD 0 * 10 ≤
            a.estradiol + a.progesterone.getD 0 * 10))
          (ref.filter (fun r => r.day ≥ 0 ∧ r.day < (params.scheduleLength : ℚ)))).map
            (fun r => ((⌊r.day⌋ : ℤ) : ℚ)))
        (s.currentDoses, s.currentScore, false)
        ⟨h, le_refl _, hpureB hfe, hcap⟩
        (fun x day _ hx => tryAddMedicationsDay_inv e ref params.scheduleLength
          params.steadyStateD params.accOnlyD params.availableEsters params.progDosesD
          params.esterConcentrations params.maxInjD params.maxDoseD day s.currentScore
          false href (fun _ => hfe) x hx)
      exact ⟨hres.1, hres.2.1, fun habs => absurd hfe habs, fun _ => hres.2.2.1,
        hres.2.2.2⟩
    · have hres := foldl_preserve
        (fun a : List Dose × ℚ × Bool =>
          a.2.1 = scoreOf e ref params.scheduleLength params.steadyStateD params.accOnlyD
            a.1 ∧ a.2.1 ≤ s.currentScore ∧
          (∀ x ∈ a.1, isEstradiolMedication x.medication = true) ∧
          estCount a.1 ≤ params.maxInjD)
        (fun acc day => tryAddMedicationsDay e ref params.scheduleLength
          params.steadyStateD params.accOnlyD params.availableEsters params.progDosesD
          params.esterConcentrations params.maxInjD params.maxDoseD day acc)
        ((jsSortBy
          (fun a b => decide (b.estradiol + b.progesterone.getD 0 * 10 ≤
            a.estradiol + a.progesterone.getD 0 * 10))
          (ref.filter (fun r => r.day ≥ 0 ∧ r.day < (params.scheduleLength : ℚ)))).map
            (fun r => ((⌊r.day⌋ : ℤ) : ℚ)))
        (s.currentDoses, s.currentScore, false)
        ⟨h, le_refl _, hpureA hfe, hcap⟩
        (fun x day _ hx => tryAddMedicationsDay_inv e ref params.scheduleLength
          params.steadyStateD params.accOnlyD params.availableEsters params.progDosesD
          params.esterConcentrations params.maxInjD params.maxDoseD day s.currentScore
          true href (fun habs => absurd habs (by simp)) x hx)
      exact ⟨hres.1, hres.2.1, fun _ => hres.2.2.1, fun habs => absurd habs hfe,
        hres.2.2.2⟩

end Estradial

namespace Estradial

theorem commitPhase_best (s : OptimizationState) (r : PhaseResult) :
    (commitPhase s r).bestDosesThisRun = s.bestDosesThisRun ∧
    (commitPhase s r).bestScoreThisRun = s.bestScoreThisRun ∧
    (commitPhase s r).iterations = s.iterations ∧
    (commitPhase s r).noImprovementCount = s.noImprovementCount ∧
    (commitPhase s r).iterationsSinceRefinement = s.iterationsSinceRefinement ∧
    (commitPhase s r).currentGranularityMultiplier = s.currentGranularityMultiplier := by
  unfold commitPhase
  split <;> exact ⟨rfl, rfl, rfl, rfl, rfl, rfl⟩

theorem commit_ok (e : ℚ → ℚ) (params : OptimizationParams) (ref : List ReferencePoint)
    (s : OptimizationState) (r : PhaseResult)
    (hs : CurInv e params ref s.currentDoses s.currentScore)
    (hr1 : r.score = scoreOf e ref params.scheduleLength params.steadyStateD
      params.accOnlyD r.doses)
    (hr2 : r.score ≤ s.currentScore)
    (hr3 : params.availableEsters.filter isEstradiolMedication ≠ [] →
      ∀ x ∈ r.doses, isEstradiolMedication x.medication = true)
    (hr4 : params.availableEsters.filter isEstradiolMedication = [] →
      ∀ x ∈ r.doses, isEstradiolMedication x.medication = false)
    (hr5 : estCount r.doses ≤ params.maxInjD) :
    CurInv e params ref (commitPhase s r).currentDoses (commitPhase s r).currentScore ∧
    (commitPhase s r).currentScore ≤ s.currentScore := by
  unfold commitPhase
  split
  · exact ⟨⟨hr1, hr3, hr4, hr5⟩, hr2⟩
  · exact ⟨hs, le_refl _⟩

theorem runPhases_spec (e : ℚ → ℚ) (lnv : ℚ) (params : OptimizationParams)
    (ref : List ReferencePoint) (href : ∀ r ∈ ref, r.progesterone = none)
    (s1 : OptimizationState)
    (hcur : CurInv e params ref s1.currentDoses s1.currentScore)
    (hbA : params.availableEsters.filter isEstradiolMedication ≠ [] →
      ∀ x ∈ s1.bestDosesThisRun, isEstradiolMedication x.medication = true)
    (hbB : params.availableEsters.filter isEstradiolMedication = [] →
      ∀ x ∈ s1.bestDosesThisRun, isEstradiolMedication x.medication = false)
    (hbCap : estCount s1.bestDosesThisRun ≤ params.maxInjD) :
    CurInv e params ref (runPhases e lnv params ref s1).currentDoses
      (runPhases e lnv params ref s1).currentScore ∧
    (runPhases e lnv params ref s1).currentScore ≤ s1.currentScore ∧
    (params.availableEsters.filter isEstradiolMedication ≠ [] →
      ∀ x ∈ (runPhases e lnv params ref s1).bestDosesThisRun,
        isEstradiolMedication x.medication = true) ∧
    (params.availableEsters.filter isEstradiolMedication = [] →
      ∀ x ∈ (runPhases e lnv params ref s1).bestDosesThisRun,
        isEstradiolMedication x.medication = false) ∧
    estCount (runPhases e lnv params ref s1).bestDosesThisRun ≤ params.maxInjD ∧
    (runPhases e lnv params ref s1).iterations = s1.iterations ∧
    (runPhases e lnv params ref s1).noImprovementCount = s1.noImprovementCount ∧
    (runPhases e lnv params ref s1).iterationsSinceRefinement =
      s1.iterationsSinceRefinement ∧
    (runPhases e lnv params ref s1).currentGranularityMultiplier =
      s1.currentGranularityMultiplier := by
  unfold runPhases
  simp only []
  set s2 := commitPhase s1 (tryRemoveEstradiolDose e s1 ref params.scheduleLength
    params.steadyStateD params.maxInjD params.accOnlyD) with hs2
  set s3 := commitPhase s2 (tryAdjustDoses e s2 ref params.scheduleLength
    params.steadyStateD params params.accOnlyD) with hs3
  set s4 := commitPhase s3 (tryMoveDays e s3 ref params.scheduleLength
    params.steadyStateD params.accOnlyD) with hs4
  set s5 := commitPhase s4 (trySwitchMedications e lnv s4 ref params.scheduleLength
    params.steadyStateD params params.accOnlyD) with hs5
  set s6 := commitPhase s5 (tryAddMedications e s5 ref params.scheduleLength
    params.steadyStateD params params.accOnlyD) with hs6
  have hrm := tryRemove_id e params ref s1 hcur.2.2.2
  have hok2 : CurInv e params ref s2.currentDoses s2.currentScore ∧
      s2.currentScore ≤ s1.currentScore := by
    rw [hs2]
    exact commit_ok e params ref s1 _ hcur (by rw [hrm]; exact hcur.1)
      (by rw [hrm]) (by rw [hrm]; exact hcur.2.1) (by rw [hrm]; exact hcur.2.2.1)
      (by rw [hrm]; exact hcur.2.2.2)
  have hadj := tryAdjustDoses_spec e params ref s2 hok2.1.1
  have hok3 : CurInv e params ref s3.currentDoses s3.currentScore ∧
      s3.currentScore ≤ s2.currentScore := by
    rw [hs3]
    exact commit_ok e params ref s2 _ hok2.1 hadj.2.1 hadj.2.2
      (fun hne => purity_of_medmap true hadj.1 (hok2.1.2.1 hne))
      (fun heq => purity_of_medmap false hadj.1 (hok2.1.2.2.1 heq))
      (le_of_le_of_eq (le_of_eq (estCount_of_medmap hadj.1)) (by rfl) |>.trans
        hok2.1.2.2.2)
  have hmv := tryMoveDays_spec e params ref s3 hok3.1.1
  have hok4 : CurInv e params ref s4.currentDoses s4.currentScore ∧
      s4.currentScore ≤ s3.currentScore := by
    rw [hs4]
    exact commit_ok e params ref s3 _ hok3.1 hmv.2.1 hmv.2.2
      (fun hne => purity_of_medmap true hmv.1 (hok3.1.2.1 hne))
      (fun heq => purity_of_medmap false hmv.1 (hok3.1.2.2.1 heq))
      ((le_of_eq (estCount_of_medmap hmv.1)).trans hok3.1.2.2.2)
  have hsw := trySwitchMedications_spec e lnv params ref s4 hok4.1.1 hok4.1.2.1
    hok4.1.2.2.1 hok4.1.2.2.2
  have hok5 : CurInv e params ref s5.currentDoses s5.currentScore ∧
      s5.currentScore ≤ s4.currentScore := by
    rw [hs5]
    exact commit_ok e params ref s4 _ hok4.1 hsw.1 hsw.2.1 hsw.2.2.1 hsw.2.2.2.1
      hsw.2.2.2.2
  have hadd := tryAddMedications_spec e params ref s5 href hok5.1.1 hok5.1.2.1
    hok5.1.2.2.1 hok5.1.2.2.2
  have hok6 : CurInv e params ref s6.currentDoses s6.currentScore ∧
      s6.currentScore ≤ s5.currentScore := by
    rw [hs6]
    exact commit_ok e params ref s5 _ hok5.1 hadd.1 hadd.2.1 hadd.2.2.1 hadd.2.2.2.1
      hadd.2.2.2.2
  have hbest6 : s6.bestDosesThisRun = s1.bestDosesThisRun ∧
      s6.bestScoreThisRun = s1.bestScoreThisRun ∧ s6.iterations = s1.iterations ∧
      s6.noImprovementCount = s1.noImprovementCount ∧
      s6.iterationsSinceRefinement = s1.iterationsSinceRefinement ∧
      s6.currentGranularityMultiplier = s1.currentGranularityMultiplier := by
    rw [hs6, hs5, hs4, hs3, hs2]
    refine ⟨?_, ?_, ?_, ?_, ?_, ?_⟩ <;>
      simp [commitPhase_best _ _ |>.1, (commitPhase_best _ _).2.1,
        (commitPhase_best _ _).2.2.1, (commitPhase_best _ _).2.2.2.1,
        (commitPhase_best _ _).2.2.2.2.1, (commitPhase_best _ _).2.2.2.2.2]
  have hscore6 : s6.currentScore ≤ s1.currentScore :=
    le_trans hok6.2 (le_trans hok5.2 (le_trans hok4.2 (le_trans hok3.2 hok2.2)))
  split
  · refine ⟨⟨hok6.1.1, hok6.1.2.1, hok6.1.2.2.1, hok6.1.2.2.2⟩, hscore6, ?_, ?_, ?_,
      hbest6.2.2.1, hbest6.2.2.2.1, hbest6.2.2.2.2.1, hbest6.2.2.2.2.2⟩
    · intro hne
      exact hok6.1.2.1 hne
    · intro heq
      exact hok6.1.2.2.1 heq
    · exact hok6.1.2.2.2
  · exact ⟨hok6.1, hscore6, fun hne => hbest6.1 ▸ hbA hne,
      fun heq => hbest6.1 ▸ hbB heq, hbest6.1 ▸ hbCap, hbest6.2.2.1,
      hbest6.2.2.2.1, hbest6.2.2.2.2.1, hbest6.2.2.2.2.2⟩

end Estradial

namespace Estradial

theorem floor_toNat_lt_of_gap (x y : ℚ) (hx : 0 ≤ x) (hgap : y - x > 1/10000) :
    (⌊x * 10000⌋).toNat < (⌊y * 10000⌋).toNat := by
  have h1 : x * 10000 + 1 ≤ y * 10000 := by linarith
  have h2 : ⌊x * 10000⌋ + 1 ≤ ⌊y * 10000⌋ := by
    have h3 : ⌊x * 10000 + 1⌋ ≤ ⌊y * 10000⌋ := Int.floor_le_floor h1
    rw [Int.floor_add_one] at h3
    omega
  have h4 : 0 ≤ ⌊x * 10000⌋ := Int.floor_nonneg.mpr (by positivity)
  omega

theorem floor_toNat_le (x y : ℚ) (h : x ≤ y) :
    (⌊x * 10000⌋).toNat ≤ (⌊y * 10000⌋).toNat :=
  Int.toNat_le_toNat (Int.floor_le_floor (by linarith))

theorem floor_max_half4 : (⌊max MIN_GRANULARITY_MULTIPLIER ((4:ℚ)/2)⌋).toNat = 2 := by
  unfold MIN_GRANULARITY_MULTIPLIER
  rw [show (4:ℚ)/2 = 2 by norm_num, max_eq_right (by norm_num : (1:ℚ) ≤ 2),
    show ⌊(2:ℚ)⌋ = 2 by norm_num]
  rfl

theorem floor_max_half2 : (⌊max MIN_GRANULARITY_MULTIPLIER ((2:ℚ)/2)⌋).toNat = 1 := by
  unfold MIN_GRANULARITY_MULTIPLIER
  rw [show (2:ℚ)/2 = 1 by norm_num, max_self, show ⌊(1:ℚ)⌋ = 1 by norm_num]
  rfl

theorem convergenceStep_inv (e : ℚ → ℚ) (params : OptimizationParams)
    (ref : List ReferencePoint) (prev : ℚ) (s7 : OptimizationState)
    (hok : CurInv e params ref s7.currentDoses s7.currentScore)
    (hle : s7.currentScore ≤ prev)
    (hnoImp : s7.noImprovementCount ≤ 2)
    (hsince : s7.iterationsSinceRefinement = s7.noImprovementCount)
    (hmult : s7.currentGranularityMultiplier = 4 ∨ s7.currentGranularityMultiplier = 2 ∨
      s7.currentGranularityMultiplier = 1) :
    (∀ s', convergenceStep prev s7 = .inl s' →
       s'.currentDoses = s7.currentDoses ∧ s'.currentScore = s7.currentScore ∧
       s'.bestDosesThisRun = s7.bestDosesThisRun ∧
       s'.bestScoreThisRun = s7.bestScoreThisRun ∧
       s'.iterations = s7.iterations ∧
       s'.noImprovementCount ≤ 2 ∧
       s'.iterationsSinceRefinement = s'.noImprovementCount ∧
       (s'.currentGranularityMultiplier = 4 ∨ s'.currentGranularityMultiplier = 2 ∨
         s'.currentGranularityMultiplier = 1) ∧
       iterMeasure s' < 100 * (⌊prev * 10000⌋).toNat +
         8 * (⌊s7.currentGranularityMultiplier⌋).toNat + (3 - s7.noImprovementCount)) ∧
    (∀ s', convergenceStep prev s7 = .inr s' →
       s'.currentDoses = s7.currentDoses ∧ s'.currentScore = s7.currentScore ∧
       s'.bestDosesThisRun = s7.bestDosesThisRun ∧
       s'.bestScoreThisRun = s7.bestScoreThisRun ∧
       s'.iterations = s7.iterations ∧
       prev - s'.currentScore ≤ MIN_IMPROVEMENT_THRESHOLD ∧
       s'.noImprovementCount = NO_IMPROVEMENT_ITERATIONS_LIMIT ∧
       s'.currentGranularityMultiplier = MIN_GRANULARITY_MULTIPLIER) := by
  have hsc0 : 0 ≤ s7.currentScore := by
    rw [hok.1]
    exact scoreOf_nonneg e ref params.scheduleLength params.steadyStateD params.accOnlyD
      s7.currentDoses
  unfold convergenceStep
  simp only []
  by_cases himp : prev - s7.currentScore > MIN_IMPROVEMENT_THRESHOLD
  · rw [if_neg (not_not_intro himp)]
    constructor
    · intro s' hs'
      cases hs'
      refine ⟨rfl, rfl, rfl, rfl, rfl, show (0:ℕ) ≤ 2 by omega, rfl, hmult, ?_⟩
      unfold iterMeasure
      show 100 * (⌊s7.currentScore * 10000⌋).toNat +
        8 * (⌊s7.currentGranularityMultiplier⌋).toNat + (3 - 0) <
        100 * (⌊prev * 10000⌋).toNat + 8 * (⌊s7.currentGranularityMultiplier⌋).toNat +
        (3 - s7.noImprovementCount)
      have hlt := floor_toNat_lt_of_gap s7.currentScore prev hsc0 (by
        unfold MIN_IMPROVEMENT_THRESHOLD at himp
        linarith)
      omega
    · intro s' hs'
      cases hs'
  · rw [if_pos (by simpa using himp)]
    by_cases hg : ADAPTIVE_GRANULARITY_ENABLED = true ∧
        s7.iterationsSinceRefinement + 1 ≥ GRANULARITY_REFINEMENT_TRIGGER ∧
        s7.currentGranularityMultiplier > MIN_GRANULARITY_MULTIPLIER
    · rw [if_pos hg]
      constructor
      · intro s' hs'
        cases hs'
        have hm41 : s7.currentGranularityMultiplier = 4 ∨
            s7.currentGranularityMultiplier = 2 := by
          rcases hmult with h4 | h2 | h1
          · exact Or.inl h4
          · exact Or.inr h2
          · exfalso
            have := hg.2.2
            rw [h1] at this
            unfold MIN_GRANULARITY_MULTIPLIER at this
            exact absurd this (by norm_num)
        refine ⟨rfl, rfl, rfl, rfl, rfl, show (0:ℕ) ≤ 2 by omega, rfl, ?_, ?_⟩
        · show max MIN_GRANULARITY_MULTIPLIER (s7.currentGranularityMultiplier / 2) = 4 ∨
            max MIN_GRANULARITY_MULTIPLIER (s7.currentGranularityMultiplier / 2) = 2 ∨
            max MIN_GRANULARITY_MULTIPLIER (s7.currentGranularityMultiplier / 2) = 1
          rcases hm41 with h4 | h2
          · rw [h4]
            right; left
            unfold MIN_GRANULARITY_MULTIPLIER
            rw [show (4:ℚ)/2 = 2 by norm_num]
            exact max_eq_right (by norm_num)
          · rw [h2]
            right; right
            unfold MIN_GRANULARITY_MULTIPLIER
            rw [show (2:ℚ)/2 = 1 by norm_num]
            exact max_self 1
        · unfold iterMeasure
          show 100 * (⌊s7.currentScore * 10000⌋).toNat +
            8 * (⌊max MIN_GRANULARITY_MULTIPLIER
              (s7.currentGranularityMultiplier / 2)⌋).toNat + (3 - 0) <
            100 * (⌊prev * 10000⌋).toNat +
            8 * (⌊s7.currentGranularityMultiplier⌋).toNat + (3 - s7.noImprovementCount)
          have hsle := floor_toNat_le s7.currentScore prev hle
          rcases hm41 with h4 | h2
          · rw [h4, floor_max_half4, show ⌊(4:ℚ)⌋ = 4 by norm_num,
              show ((4:ℤ)).toNat = 4 by rfl]
            omega
          · rw [h2, floor_max_half2, show ⌊(2:ℚ)⌋ = 2 by norm_num,
              show ((2:ℤ)).toNat = 2 by rfl]
            omega
      · intro s' hs'
        cases hs'
    · rw [if_neg hg]
      by_cases hbrk : s7.noImprovementCount + 1 ≥ NO_IMPROVEMENT_ITERATIONS_LIMIT
      · rw [if_pos hbrk]
        constructor
        · intro s' hs'
          cases hs'
        · intro s' hs'
          cases hs'
          refine ⟨rfl, rfl, rfl, rfl, rfl, ?_, ?_, ?_⟩
          · show prev - s7.currentScore ≤ MIN_IMPROVEMENT_THRESHOLD
            exact le_of_not_lt himp
          · show s7.noImprovementCount + 1 = NO_IMPROVEMENT_ITERATIONS_LIMIT
            unfold NO_IMPROVEMENT_ITERATIONS_LIMIT at hbrk ⊢
            omega
          · show s7.currentGranularityMultiplier = MIN_GRANULARITY_MULTIPLIER
            have hmle : ¬ s7.currentGranularityMultiplier > MIN_GRANULARITY_MULTIPLIER := by
              intro hmgt
              refine hg ⟨rfl, ?_, hmgt⟩
              unfold NO_IMPROVEMENT_ITERATIONS_LIMIT at hbrk
              unfold GRANULARITY_REFINEMENT_TRIGGER
              omega
            unfold MIN_GRANULARITY_MULTIPLIER at hmle ⊢
            rcases hmult with h4 | h2 | h1
            · exfalso
              rw [h4] at hmle
              exact hmle (by norm_num)
            · exfalso
              rw [h2] at hmle
              exact hmle (by norm_num)
            · exact h1
      · rw [if_neg hbrk]
        constructor
        · intro s' hs'
          cases hs'
          refine ⟨rfl, rfl, rfl, rfl, rfl, ?_, ?_, hmult, ?_⟩
          · show s7.noImprovementCount + 1 ≤ 2
            unfold NO_IMPROVEMENT_ITERATIONS_LIMIT at hbrk
            omega
          · show s7.iterationsSinceRefinement + 1 = s7.noImprovementCount + 1
            omega
          · unfold iterMeasure
            show 100 * (⌊s7.currentScore * 10000⌋).toNat +
              8 * (⌊s7.currentGranularityMultiplier⌋).toNat +
              (3 - (s7.noImprovementCount + 1)) <
              100 * (⌊prev * 10000⌋).toNat +
              8 * (⌊s7.currentGranularityMultiplier⌋).toNat +
              (3 - s7.noImprovementCount)
            have hsle := floor_toNat_le s7.currentScore prev hle
            omega
        · intro s' hs'
          cases hs'

end Estradial

namespace Estradial

theorem iterationStep_inv (e : ℚ → ℚ) (lnv : ℚ) (params : OptimizationParams)
    (ref : List ReferencePoint) (href : ∀ r ∈ ref, r.progesterone = none)
    (hasCallback : Bool) (ls : LoopState)
    (hinv : StateInv e params ref ls.state) :
    (∀ ls', iterationStep e lnv params ref hasCallback ls = .inl ls' →
       StateInv e params ref ls'.state ∧
       iterMeasure ls'.state < iterMeasure ls.state ∧
       ls'.state.currentScore ≤ ls.state.currentScore ∧
       ls'.state.iterations = ls.state.iterations + 1 ∧
       (ls'.calls = ls.calls ∨ ls'.calls = ls.calls ++
         [(progressValue e (ls.state.iterations + 1), ls.state.currentScore,
           ls.state.iterations + 1)])) ∧
    (∀ ls', iterationStep e lnv params ref hasCallback ls = .inr ls' →
       ls'.state.currentScore ≤ ls.state.currentScore ∧
       ls.state.currentScore - ls'.state.currentScore ≤ MIN_IMPROVEMENT_THRESHOLD ∧
       ls'.state.noImprovementCount = NO_IMPROVEMENT_ITERATIONS_LIMIT ∧
       ls'.state.currentGranularityMultiplier = MIN_GRANULARITY_MULTIPLIER ∧
       estCount ls'.state.bestDosesThisRun ≤ params.maxInjD ∧
       (params.availableEsters.filter isEstradiolMedication ≠ [] →
         ∀ x ∈ ls'.state.bestDosesThisRun, isEstradiolMedication x.medication = true) ∧
       (params.availableEsters.filter isEstradiolMedication = [] →
         ∀ x ∈ ls'.state.bestDosesThisRun, isEstradiolMedication x.medication = false) ∧
       ls'.state.iterations = ls.state.iterations + 1 ∧
       (ls'.calls = ls.calls ∨ ls'.calls = ls.calls ++
         [(progressValue e (ls.state.iterations + 1), ls.state.currentScore,
           ls.state.iterations + 1)])) := by
  unfold iterationStep
  simp only []
  have hinv1 : StateInv e params ref
      { ls.state with iterations := ls.state.iterations + 1 } :=
    ⟨hinv.pureCurA, hinv.pureBestA, hinv.pureCurB, hinv.pureBestB, hinv.capCur,
      hinv.capBest, hinv.consistent, hinv.noImpBound, hinv.sinceEq, hinv.multMem⟩
  have hrp := runPhases_spec e lnv params ref href
    { ls.state with iterations := ls.state.iterations + 1 }
    ⟨hinv1.consistent, hinv1.pureCurA, hinv1.pureCurB, hinv1.capCur⟩
    hinv1.pureBestA hinv1.pureBestB hinv1.capBest
  obtain ⟨hok7, hle7, hbA7, hbB7, hbCap7, hit7, hni7, hsr7, hgm7⟩ := hrp
  have hcv := convergenceStep_inv e params ref
    ({ ls.state with iterations := ls.state.iterations + 1 } :
      OptimizationState).currentScore
    (runPhases e lnv params ref { ls.state with iterations := ls.state.iterations + 1 })
    hok7 hle7 (by rw [hni7]; exact hinv.noImpBound)
    (by rw [hsr7, hni7]; exact hinv.sinceEq) (by rw [hgm7]; exact hinv.multMem)
  have hcalls : (if (hasCallback &&
        decide ((ls.state.iterations + 1) % 5 = 0)) = true then
      ls.calls ++ [(progressValue e (ls.state.iterations + 1), ls.state.currentScore,
        ls.state.iterations + 1)]
    else ls.calls) = ls.calls ∨ (if (hasCallback &&
        decide ((ls.state.iterations + 1) % 5 = 0)) = true then
      ls.calls ++ [(progressValue e (ls.state.iterations + 1), ls.state.currentScore,
        ls.state.iterations + 1)]
    else ls.calls) = ls.calls ++ [(progressValue e (ls.state.iterations + 1),
      ls.state.currentScore, ls.state.iterations + 1)] := by
    split
    · exact Or.inr rfl
    · exact Or.inl rfl
  constructor
  · intro ls' hls'
    revert hls'
    cases hconv : convergenceStep
        ({ ls.state with iterations := ls.state.iterations + 1 } :
          OptimizationState).currentScore
        (runPhases e lnv params ref
          { ls.state with iterations := ls.state.iterations + 1 }) with
    | inl continued =>
      intro hls'
      simp only [Sum.inl.injEq] at hls'
      obtain ⟨hd, hsc, hbd, hbs, hit, hnb, hse, hmm, hms⟩ := hcv.1 continued hconv
      subst hls'
      refine ⟨⟨?_, ?_, ?_, ?_, ?_, ?_, ?_, hnb, hse, hmm⟩, ?_, ?_, ?_, hcalls⟩
      · intro hne x hx
        rw [hd] at hx
        exact hok7.2.1 hne x hx
      · intro hne x hx
        rw [hbd] at hx
        exact hbA7 hne x hx
      · intro heq x hx
        rw [hd] at hx
        exact hok7.2.2.1 heq x hx
      · intro heq x hx
        rw [hbd] at hx
        exact hbB7 heq x hx
      · show estCount continued.currentDoses ≤ params.maxInjD
        rw [hd]
        exact hok7.2.2.2
      · show estCount continued.bestDosesThisRun ≤ params.maxInjD
        rw [hbd]
        exact hbCap7
      · show continued.currentScore = _
        rw [hsc, hd]
        exact hok7.1
      · show iterMeasure continued < iterMeasure ls.state
        refine lt_of_lt_of_le hms (le_of_eq ?_)
        unfold iterMeasure
        rw [hgm7, hni7]
      · show continued.currentScore ≤ ls.state.currentScore
        rw [hsc]
        exact hle7
      · show continued.iterations = ls.state.iterations + 1
        rw [hit, hit7]
    | inr finished =>
      intro hls'
      simp at hls'
  · intro ls' hls'
    revert hls'
    cases hconv : convergenceStep
        ({ ls.state with iterations := ls.state.iterations + 1 } :
          OptimizationState).currentScore
        (runPhases e lnv params ref
          { ls.state with iterations := ls.state.iterations + 1 }) with
    | inl continued =>
      intro hls'
      simp at hls'
    | inr finished =>
      intro hls'
      simp only [Sum.inr.injEq] at hls'
      obtain ⟨hd, hsc, hbd, hbs, hit, hgap, hni, hmm⟩ := hcv.2 finished hconv
      subst hls'
      refine ⟨?_, hgap, hni, hmm, ?_, ?_, ?_, ?_, hcalls⟩
      · show finished.currentScore ≤ ls.state.currentScore
        rw [hsc]
        exact hle7
      · show estCount finished.bestDosesThisRun ≤ params.maxInjD
        rw [hbd]
        exact hbCap7
      · intro hne x hx
        rw [hbd] at hx
        exact hbA7 hne x hx
      · intro heq x hx
        rw [hbd] at hx
        exact hbB7 heq x hx
      · show finished.iterations = ls.state.iterations + 1
        rw [hit, hit7]

end Estradial

namespace Estradial

theorem foldl_length_le {α β : Type} (f : List β → α → List β)
    (hf : ∀ acc a, (f acc a).length ≤ acc.length + 1) :
    ∀ (l : List α) (init : List β),
      (l.foldl f init).length ≤ init.length + l.length := by
  intro l
  induction l with
  | nil => intro init; simp
  | cons a t ih =>
    intro init
    rw [List.foldl_cons]
    calc (t.foldl f (f init a)).length ≤ (f init a).length + t.length := ih _
      _ ≤ init.length + 1 + t.length := by
          have := hf init a
          omega
      _ = init.length + (a :: t).length := by simp; omega

theorem generateCandidateDays_length (L maxInj : ℕ) :
    (generateCandidateDays L maxInj).length ≤ maxInj := by
  unfold generateCandidateDays
  split
  · rename_i h1
    rw [h1]
    simp
  · rename_i hne
    have h := foldl_length_le
      (fun days (i : ℕ) =>
        if days.contains (min (jsRound ((i : ℚ) * ((L : ℚ) / (maxInj : ℚ))))
          ((L : ℚ) - 1)) then days
        else days ++ [min (jsRound ((i : ℚ) * ((L : ℚ) / (maxInj : ℚ)))) ((L : ℚ) - 1)])
      (by
        intro acc a
        simp only []
        split
        · omega
        · simp)
      (List.range maxInj) []
    simpa using h

theorem generateInitialDays_length (strat : InitStrategy) (L maxInj : ℕ)
    (refD : List ReferencePoint) :
    (generateInitialDays strat L maxInj refD).length ≤ maxInj := by
  have hcd : (generateCandidateDays L maxInj).length ≤ maxInj :=
    generateCandidateDays_length L maxInj
  cases strat with
  | peakDays =>
    unfold generateInitialDays
    simp only []
    split
    · rename_i hge
      calc (jsSortBy (fun a b => decide (a ≤ b))
            (((jsSortBy (fun a b => decide (b.estradiol ≤ a.estradiol))
              (refD.filter (fun r => r.day ≥ 0 ∧ r.day < (L : ℚ)))).take maxInj).map
                (fun r => ((⌊r.day⌋ : ℤ) : ℚ)))).length
          = (((jsSortBy (fun a b => decide (b.estradiol ≤ a.estradiol))
              (refD.filter (fun r => r.day ≥ 0 ∧ r.day < (L : ℚ)))).take maxInj).map
                (fun r => ((⌊r.day⌋ : ℤ) : ℚ))).length := jsSortBy_length _ _
        _ ≤ maxInj := by
            rw [List.length_map, List.length_take]
            exact min_le_left _ _
    · exact hcd
  | evenDistribution => exact hcd
  | frontLoaded =>
    unfold generateInitialDays
    simp only []
    rw [List.length_take]
    exact min_le_left _ _
  | backLoaded =>
    unfold generateInitialDays
    simp only []
    rw [List.length_take]
    exact min_le_left _ _

end Estradial

namespace Estradial

theorem getD_mod_mem {α : Type} [Inhabited α] (l : List α) (i : ℕ) (h : l ≠ []) :
    (l.get? (i % l.length)).getD default ∈ l := by
  have hlen : 0 < l.length := List.length_pos.mpr h
  have hlt : i % l.length < l.length := Nat.mod_lt _ hlen
  rw [List.get?_eq_get hlt]
  exact List.get_mem _ _ _

theorem stateInv_mk (e : ℚ → ℚ) (params : OptimizationParams) (refD : List ReferencePoint)
    (ds : List Dose) (sc gm : ℚ)
    (hsc : sc = scoreOf e refD params.scheduleLength params.steadyStateD params.accOnlyD ds)
    (hpA : params.availableEsters.filter isEstradiolMedication ≠ [] →
      ∀ d ∈ ds, isEstradiolMedication d.medication = true)
    (hpB : params.availableEsters.filter isEstradiolMedication = [] →
      ∀ d ∈ ds, isEstradiolMedication d.medication = false)
    (hcap : estCount ds ≤ params.maxInjD)
    (hgm : gm = 4 ∨ gm = 2 ∨ gm = 1) :
    StateInv e params refD ⟨ds, sc, 0, 0, sc, ds, gm, 0⟩ :=
  ⟨hpA, hpA, hpB, hpB, hcap, hcap, hsc, show (0:ℕ) ≤ 2 by omega, rfl, hgm⟩

theorem initialBeam_inv (e : ℚ → ℚ) (params : OptimizationParams)
    (refD : List ReferencePoint) (hne : params.availableEsters ≠ []) :
    ∀ s ∈ initialBeam e params refD, StateInv e params refD s := by
  intro s hs
  unfold initialBeam at hs
  simp only [List.mem_map] at hs
  obtain ⟨is, _hm, hbody⟩ := hs
  subst hbody
  refine stateInv_mk e params refD _ _ _ rfl ?_ ?_ ?_ ?_
  · intro hne2 d hd
    obtain ⟨day, _hday, hde⟩ := List.mem_map.mp hd
    rw [← hde]
    show isEstradiolMedication _ = true
    have hgt : (params.availableEsters.filter isEstradiolMedication).length > 0 :=
      List.length_pos.mpr hne2
    rw [if_pos hgt]
    have hmem := getD_mod_mem (params.availableEsters.filter isEstradiolMedication)
      is.1 hne2
    exact (List.mem_filter.mp hmem).2
  · intro heq d hd
    obtain ⟨day, _hday, hde⟩ := List.mem_map.mp hd
    rw [← hde]
    show isEstradiolMedication _ = false
    have hngt : ¬ (params.availableEsters.filter isEstradiolMedication).length > 0 := by
      rw [heq]
      simp
    rw [if_neg hngt]
    have hmem := getD_mod_mem params.availableEsters is.1 hne
    cases hval : isEstradiolMedication
        ((params.availableEsters.get? (is.1 % params.availableEsters.length)).getD default)
    · rfl
    · exfalso
      have hfin : ((params.availableEsters.get? (is.1 %
          params.availableEsters.length)).getD default) ∈
          params.availableEsters.filter isEstradiolMedication :=
        List.mem_filter.mpr ⟨hmem, hval⟩
      rw [heq] at hfin
      exact List.not_mem_nil _ hfin
  · show estCount _ ≤ params.maxInjD
    calc estCount ((generateInitialDays is.2 params.scheduleLength params.maxInjD
          refD).map _) ≤ ((generateInitialDays is.2 params.scheduleLength params.maxInjD
            refD).map _).length := List.countP_le_length _
      _ = (generateInitialDays is.2 params.scheduleLength params.maxInjD refD).length :=
          List.length_map _ _
      _ ≤ params.maxInjD := generateInitialDays_length is.2 params.scheduleLength
          params.maxInjD refD
  · left
    rfl

end Estradial

namespace Estradial

theorem headD_mem {α : Type} {l : List α} (h : l ≠ []) (d : α) : l.headD d ∈ l := by
  cases l with
  | nil => exact absurd rfl h
  | cons a t => simp

theorem beamHead_inv (e : ℚ → ℚ) (params : OptimizationParams)
    (refD : List ReferencePoint) (hne : params.availableEsters ≠ []) :
    StateInv e params refD
      (((jsSortBy (fun a b => decide (a.currentScore ≤ b.currentScore))
        (initialBeam e params refD)).take BEAM_WIDTH).headD junkState) := by
  have hlen : (initialBeam e params refD).length = 3 := by
    unfold initialBeam
    simp
  have hsl : (jsSortBy (fun a b => decide (a.currentScore ≤ b.currentScore))
      (initialBeam e params refD)).length = 3 := by
    rw [jsSortBy_length, hlen]
  have htne : ((jsSortBy (fun a b => decide (a.currentScore ≤ b.currentScore))
      (initialBeam e params refD)).take BEAM_WIDTH) ≠ [] := by
    intro habs
    have := congrArg List.length habs
    rw [List.length_take, hsl] at this
    unfold BEAM_WIDTH at this
    simp at this
  have hmem := headD_mem htne junkState
  have hmem2 : (((jsSortBy (fun a b => decide (a.currentScore ≤ b.currentScore))
      (initialBeam e params refD)).take BEAM_WIDTH).headD junkState) ∈
      initialBeam e params refD :=
    (jsSortBy_mem _ _ _).mp (List.mem_of_mem_take hmem)
  exact initialBeam_inv e params refD hne _ hmem2

theorem consUpdate_estCount (m : List (ConsKey × Dose)) (k : ConsKey) (d : Dose) :
    estCount ((consUpdate m k d).map Prod.snd) ≤ estCount (m.map Prod.snd) +
      (if isEstradiolMedication d.medication then 1 else 0) := by
  unfold consUpdate estCount
  split
  · rw [List.map_map, List.countP_map, List.countP_map]
    have hcongr : ∀ kv ∈ m,
        (((fun x : Dose => isEstradiolMedication x.medication) ∘ Prod.snd ∘
          (fun kv : ConsKey × Dose =>
            if kv.1 = k then (kv.1, { kv.2 with dose := kv.2.dose + d.dose }) else kv)) kv
          = true) ↔
        (((fun x : Dose => isEstradiolMedication x.medication) ∘ Prod.snd) kv = true) := by
      intro kv _
      by_cases hk : kv.1 = k
      · simp [Function.comp, hk]
      · simp [Function.comp, hk]
    rw [List.countP_congr hcongr]
    omega
  · rw [List.map_append, List.countP_append]
    simp only [List.map_cons, List.map_nil]
    have : List.countP (fun x : Dose => isEstradiolMedication x.medication) [d] =
        if isEstradiolMedication d.medication then 1 else 0 := by
      simp [List.countP_cons]
    omega

theorem consFold_estCount :
    ∀ (l : List Dose) (m : List (ConsKey × Dose)),
      estCount ((l.foldl (fun m dose =>
        consUpdate m (dose.day, dose.medication.name) dose) m).map Prod.snd) ≤
      estCount (m.map Prod.snd) + estCount l := by
  intro l
  induction l with
  | nil =>
    intro m
    simp [estCount]
  | cons d t ih =>
    intro m
    rw [List.foldl_cons]
    calc estCount ((t.foldl (fun m dose =>
          consUpdate m (dose.day, dose.medication.name) dose)
            (consUpdate m (d.day, d.medication.name) d)).map Prod.snd)
        ≤ estCount ((consUpdate m (d.day, d.medication.name) d).map Prod.snd) +
          estCount t := ih _
      _ ≤ estCount (m.map Prod.snd) +
          (if isEstradiolMedication d.medication then 1 else 0) + estCount t := by
          have := consUpdate_estCount m (d.day, d.medication.name) d
          omega
      _ = estCount (m.map Prod.snd) + estCount (d :: t) := by
          unfold estCount
          rw [List.countP_cons]
          split <;> simp_all <;> omega

theorem consolidate_estCount (l : List Dose) :
    estCount (consolidateDuplicateMedications l) ≤ estCount l := by
  unfold consolidateDuplicateMedications
  simp only []
  unfold estCount
  have hperm : List.countP (fun d : Dose => isEstradiolMedication d.medication)
      (jsSortBy (fun a b => decide (a.day ≤ b.day))
        ((l.foldl (fun m dose =>
          consUpdate m (dose.day, dose.medication.name) dose) []).map Prod.snd)) =
    List.countP (fun d : Dose => isEstradiolMedication d.medication)
      ((l.foldl (fun m dose =>
        consUpdate m (dose.day, dose.medication.name) dose) []).map Prod.snd) := by
    exact (jsSortBy_perm _ _).countP_eq _
  rw [hperm]
  have := consFold_estCount l []
  unfold estCount at this
  simpa using this

end Estradial

namespace Estradial

theorem final_estCount_le (params : OptimizationParams) (l : List Dose) (p : Dose → Bool) :
    estCount ((l.map (finalizeDose params)).filter p) ≤ estCount l := by
  unfold estCount
  calc List.countP (fun d => isEstradiolMedication d.medication)
        ((l.map (finalizeDose params)).filter p)
      ≤ List.countP (fun d => isEstradiolMedication d.medication)
        (l.map (finalizeDose params)) :=
        (List.filter_sublist _).countP_le _
    _ = List.countP (fun d => isEstradiolMedication d.medication) l := by
        rw [List.countP_map]
        refine List.countP_congr ?_
        intro d _
        show (isEstradiolMedication (finalizeDose params d).medication = true) ↔
          (isEstradiolMedication d.medication = true)
        rw [finalizeDose_medication]

theorem optimizeLoopGo_terminates (e : ℚ → ℚ) (lnv : ℚ) (params : OptimizationParams)
    (ref : List ReferencePoint) (href : ∀ r ∈ ref, r.progesterone = none)
    (hasCallback : Bool) :
    ∀ (n : ℕ) (ls : LoopState), iterMeasure ls.state ≤ n →
      StateInv e params ref ls.state →
      ∃ fuel lsEnd, optimizeLoopGo e lnv params ref hasCallback fuel ls = some lsEnd := by
  intro n
  induction n with
  | zero =>
    intro ls hm hinv
    cases hstep : iterationStep e lnv params ref hasCallback ls with
    | inl continued =>
      exfalso
      have := ((iterationStep_inv e lnv params ref href hasCallback ls hinv).1
        continued hstep).2.1
      omega
    | inr finished =>
      refine ⟨1, finished, ?_⟩
      unfold optimizeLoopGo
      rw [hstep]
  | succ n ih =>
    intro ls hm hinv
    cases hstep : iterationStep e lnv params ref hasCallback ls with
    | inl continued =>
      obtain ⟨hinv', hlt, _⟩ := (iterationStep_inv e lnv params ref href hasCallback ls
        hinv).1 continued hstep
      obtain ⟨fuel, lsEnd, hrun⟩ := ih continued (by omega) hinv'
      refine ⟨fuel + 1, lsEnd, ?_⟩
      unfold optimizeLoopGo
      rw [hstep]
      exact hrun
    | inr finished =>
      refine ⟨1, finished, ?_⟩
      unfold optimizeLoopGo
      rw [hstep]

theorem optimizeLoopGo_final (e : ℚ → ℚ) (lnv : ℚ) (params : OptimizationParams)
    (ref : List ReferencePoint) (href : ∀ r ∈ ref, r.progesterone = none)
    (hasCallback : Bool) :
    ∀ (fuel : ℕ) (ls lsEnd : LoopState), StateInv e params ref ls.state →
      optimizeLoopGo e lnv params ref hasCallback fuel ls = some lsEnd →
      estCount lsEnd.state.bestDosesThisRun ≤ params.maxInjD ∧
      lsEnd.state.noImprovementCount = NO_IMPROVEMENT_ITERATIONS_LIMIT ∧
      lsEnd.state.currentGranularityMultiplier = MIN_GRANULARITY_MULTIPLIER := by
  intro fuel
  induction fuel with
  | zero =>
    intro ls lsEnd _ hrun
    exact absurd hrun (by unfold optimizeLoopGo; simp)
  | succ n ih =>
    intro ls lsEnd hinv hrun
    unfold optimizeLoopGo at hrun
    revert hrun
    cases hstep : iterationStep e lnv params ref hasCallback ls with
    | inl continued =>
      intro hrun
      exact ih continued lsEnd
        ((iterationStep_inv e lnv params ref href hasCallback ls hinv).1
          continued hstep).1 hrun
    | inr finished =>
      intro hrun
      have hfin := (iterationStep_inv e lnv params ref href hasCallback ls hinv).2
        finished hstep
      cases hrun
      exact ⟨hfin.2.2.2.2.1, hfin.2.2.1, hfin.2.2.2.1⟩

end Estradial

namespace Estradial

/-- C1: for every parameter set, the dose list returned by a finished
optimizeSchedule run contains at most maxInjectionsPerCycle estradiol
doses. -/
theorem C1_ester_cap (e : ℚ → ℚ) (lnv : ℚ) (fuel : ℕ) (params : OptimizationParams)
    (hasCallback : Bool) :
    CapOk params.maxInjD (optimizeSchedule e lnv fuel params hasCallback) := by
  unfold optimizeSchedule
  split
  · trivial
  · rename_i hne
    simp only []
    split
    · trivial
    · rename_i lsEnd hloop
      show estCount _ ≤ params.maxInjD
      have hinv0 := beamHead_inv e params
        (generateReferenceCycle params.scheduleLength params.referenceCycleType) hne
      have hfin := optimizeLoopGo_final e lnv params
        (generateReferenceCycle params.scheduleLength params.referenceCycleType)
        (refCycle_prog_none params.scheduleLength params.referenceCycleType)
        hasCallback fuel _ lsEnd hinv0 hloop
      calc estCount ((( consolidateDuplicateMedications
            lsEnd.state.bestDosesThisRun).map (finalizeDose params)).filter
              (fun d => decide (d.dose ≥ params.minDoseD)))
          ≤ estCount (consolidateDuplicateMedications lsEnd.state.bestDosesThisRun) :=
            final_estCount_le params _ _
        _ ≤ estCount lsEnd.state.bestDosesThisRun := consolidate_estCount _
        _ ≤ params.maxInjD := hfin.1

end Estradial

namespace Estradial

theorem optimizeLoopGo_some (e : ℚ → ℚ) (lnv : ℚ) (params : OptimizationParams)
    (ref : List ReferencePoint) (href : ∀ r ∈ ref, r.progesterone = none)
    (hasCallback : Bool) (ls : LoopState) (hinv : StateInv e params ref ls.state) :
    ∃ fuel lsEnd, optimizeLoopGo e lnv params ref hasCallback fuel ls = some lsEnd :=
  optimizeLoopGo_terminates e lnv params ref href hasCallback
    (iterMeasure ls.state) ls (le_refl _) hinv

/-- C2: whenever an estradiol or progesterone medication is available, the
optimization loop terminates through its sole exit: the score never
increases across an iteration, an iteration improves only by more than the
minimum-improvement threshold, and the loop breaks exactly when the
no-improvement count reaches its limit with the granularity multiplier at
its floor. -/
theorem C2_loop_termination (e : ℚ → ℚ) (lnv : ℚ) (params : OptimizationParams)
    (hasCallback : Bool) (hne : params.availableEsters ≠ []) :
    (∃ fuel result, optimizeSchedule e lnv fuel params hasCallback = .ok (some result)) ∧
    (∀ ls : LoopState,
      StateInv e params (generateReferenceCycle params.scheduleLength
        params.referenceCycleType) ls.state →
      (∀ ls', iterationStep e lnv params (generateReferenceCycle params.scheduleLength
          params.referenceCycleType) hasCallback ls = .inl ls' →
        ls'.state.currentScore ≤ ls.state.currentScore ∧
        StateInv e params (generateReferenceCycle params.scheduleLength
          params.referenceCycleType) ls'.state) ∧
      (∀ ls', iterationStep e lnv params (generateReferenceCycle params.scheduleLength
          params.referenceCycleType) hasCallback ls = .inr ls' →
        ls'.state.currentScore ≤ ls.state.currentScore ∧
        ls.state.currentScore - ls'.state.currentScore ≤ MIN_IMPROVEMENT_THRESHOLD ∧
        ls'.state.noImprovementCount = NO_IMPROVEMENT_ITERATIONS_LIMIT ∧
        ls'.state.currentGranularityMultiplier = MIN_GRANULARITY_MULTIPLIER)) := by
  constructor
  · have hinv0 := beamHead_inv e params
      (generateReferenceCycle params.scheduleLength params.referenceCycleType) hne
    obtain ⟨fuel, lsEnd, hloop⟩ := optimizeLoopGo_some e lnv params
      (generateReferenceCycle params.scheduleLength params.referenceCycleType)
      (refCycle_prog_none params.scheduleLength params.referenceCycleType) hasCallback
      ⟨_, []⟩ hinv0
    have hloop2 : optimizeLoopGo e lnv params
        (generateReferenceCycle params.scheduleLength params.referenceCycleType)
        hasCallback fuel
        ⟨((jsSortBy (fun a b => decide (a.currentScore ≤ b.currentScore))
          (initialBeam e params (generateReferenceCycle params.scheduleLength
            params.referenceCycleType))).take BEAM_WIDTH).headD junkState, []⟩ =
        some lsEnd := hloop
    exact ⟨fuel, _, by
      unfold optimizeSchedule
      rw [if_neg hne]
      simp only []
      rw [hloop2]⟩
  · intro ls hinv
    constructor
    · intro ls' h
      obtain ⟨hinv', _, hle, _⟩ := (iterationStep_inv e lnv params _
        (refCycle_prog_none params.scheduleLength params.referenceCycleType)
        hasCallback ls hinv).1 ls' h
      exact ⟨hle, hinv'⟩
    · intro ls' h
      obtain ⟨hle, hgap, hni, hmm, _⟩ := (iterationStep_inv e lnv params _
        (refCycle_prog_none params.scheduleLength params.referenceCycleType)
        hasCallback ls hinv).2 ls' h
      exact ⟨hle, hgap, hni, hmm⟩

/-- Witness for C2 at the concrete progesterone-only parameter set. -/
theorem C2_loop_termination_witness :
    onlyProgParams.availableEsters ≠ [] ∧
    (∃ fuel result, optimizeSchedule expOne lnTwoQ fuel onlyProgParams false =
      .ok (some result)) :=
  ⟨by unfold onlyProgParams; simp,
   (C2_loop_termination expOne lnTwoQ onlyProgParams false
     (by unfold onlyProgParams; simp)).1⟩

end Estradial

namespace Estradial

theorem progressValue_le (e : ℚ → ℚ) (n : ℕ) :
    progressValue e n ≤ MAX_DISPLAYED_PROGRESS_UNTIL_COMPLETE :=
  min_le_left _ _

theorem progressValue_mono (e : ℚ → ℚ) (hmono : Monotone e) {n m : ℕ} (h : n ≤ m) :
    progressValue e n ≤ progressValue e m := by
  unfold progressValue
  refine min_le_min (le_refl _) ?_
  unfold jsRound
  have harg : -(m : ℚ) / PROGRESS_CONVERGENCE_RATE ≤ -(n : ℚ) / PROGRESS_CONVERGENCE_RATE := by
    unfold PROGRESS_CONVERGENCE_RATE
    have hq : (n : ℚ) ≤ (m : ℚ) := Nat.cast_le.mpr h
    linarith
  have he := hmono harg
  exact Int.cast_le.mpr (Int.floor_le_floor (by linarith))

end Estradial

namespace Estradial

theorem chain'_append_singleton {α : Type} {R : α → α → Prop} {l : List α} {b : α}
    (hc : List.Chain' R l) (hall : ∀ a ∈ l, R a b) : List.Chain' R (l ++ [b]) := by
  rw [List.chain'_append]
  refine ⟨hc, List.chain'_singleton _, ?_⟩
  intro x hx y hy
  simp only [List.head?_cons, Option.mem_def, Option.some.injEq] at hy
  subst hy
  cases hgl : l.getLast? with
  | none => rw [hgl] at hx; simp at hx
  | some a =>
    rw [hgl] at hx
    have hxa : x = a := by
      have := hx
      simp only [Option.mem_def, Option.some.injEq] at this
      exact this.symm
    rw [hxa]
    exact hall a (List.mem_of_mem_getLast? (by rw [hgl]; rfl))

theorem optimizeLoopGo_callsOk (e : ℚ → ℚ) (lnv : ℚ) (params : OptimizationParams)
    (ref : List ReferencePoint) (href : ∀ r ∈ ref, r.progesterone = none)
    (hmono : Monotone e) (hasCallback : Bool) :
    ∀ (fuel : ℕ) (ls lsEnd : LoopState), StateInv e params ref ls.state →
      List.Chain' (fun a b : ProgressCall => a.1 ≤ b.1) ls.calls →
      (∀ c ∈ ls.calls, c.1 ≤ progressValue e ls.state.iterations) →
      optimizeLoopGo e lnv params ref hasCallback fuel ls = some lsEnd →
      List.Chain' (fun a b : ProgressCall => a.1 ≤ b.1) lsEnd.calls ∧
      (∀ c ∈ lsEnd.calls, c.1 ≤ MAX_DISPLAYED_PROGRESS_UNTIL_COMPLETE) := by
  intro fuel
  induction fuel with
  | zero =>
    intro ls lsEnd _ _ _ hrun
    exact absurd hrun (by unfold optimizeLoopGo; simp)
  | succ n ih =>
    intro ls lsEnd hinv hchain hbound hrun
    unfold optimizeLoopGo at hrun
    revert hrun
    cases hstep : iterationStep e lnv params ref hasCallback ls with
    | inl continued =>
      intro hrun
      obtain ⟨hinv', _, _, hits, hcalls⟩ :=
        (iterationStep_inv e lnv params ref href hasCallback ls hinv).1 continued hstep
      refine ih continued lsEnd hinv' ?_ ?_ hrun
      · rcases hcalls with hsame | happ
        · rw [hsame]
          exact hchain
        · rw [happ]
          refine chain'_append_singleton hchain ?_
          intro a ha
          exact le_trans (hbound a ha) (progressValue_mono e hmono (Nat.le_succ _))
      · intro c hc
        rw [hits]
        rcases hcalls with hsame | happ
        · rw [hsame] at hc
          exact le_trans (hbound c hc) (progressValue_mono e hmono (Nat.le_succ _))
        · rw [happ] at hc
          rcases List.mem_append.mp hc with hc' | hc'
          · exact le_trans (hbound c hc') (progressValue_mono e hmono (Nat.le_succ _))
          · rw [List.mem_singleton.mp hc']
    | inr finished =>
      intro hrun
      obtain ⟨_, _, _, _, _, _, _, hits, hcalls⟩ :=
        (iterationStep_inv e lnv params ref href hasCallback ls hinv).2 finished hstep
      cases hrun
      have hboundF : ∀ c ∈ lsEnd.calls, c.1 ≤ progressValue e lsEnd.state.iterations := by
        intro c hc
        rw [hits]
        rcases hcalls with hsame | happ
        · rw [hsame] at hc
          exact le_trans (hbound c hc) (progressValue_mono e hmono (Nat.le_succ _))
        · rw [happ] at hc
          rcases List.mem_append.mp hc with hc' | hc'
          · exact le_trans (hbound c hc') (progressValue_mono e hmono (Nat.le_succ _))
          · rw [List.mem_singleton.mp hc']
      constructor
      · rcases hcalls with hsame | happ
        · rw [hsame]
          exact hchain
        · rw [happ]
          refine chain'_append_singleton hchain ?_
          intro a ha
          exact le_trans (hbound a ha) (progressValue_mono e hmono (Nat.le_succ _))
      · intro c hc
        exact le_trans (hboundF c hc) (progressValue_le e _)

end Estradial

namespace Estradial

/-- C7: in a run invoking the progress callback, the reported percentages
never decrease from call to call, and the final call reports exactly 100. -/
theorem C7_progress_reporting (e : ℚ → ℚ) (lnv : ℚ) (fuel : ℕ)
    (params : OptimizationParams) (hmono : Monotone e) :
    ProgressReportOk (optimizeSchedule e lnv fuel params true) := by
  unfold optimizeSchedule
  split
  · trivial
  · rename_i hne
    simp only []
    split
    · trivial
    · rename_i lsEnd hloop
      have hinv0 := beamHead_inv e params
        (generateReferenceCycle params.scheduleLength params.referenceCycleType) hne
      have hok := optimizeLoopGo_callsOk e lnv params
        (generateReferenceCycle params.scheduleLength params.referenceCycleType)
        (refCycle_prog_none params.scheduleLength params.referenceCycleType) hmono true
        fuel _ lsEnd hinv0 List.chain'_nil (by simp) hloop
      refine ⟨?_, ?_, ?_⟩
      · show (lsEnd.calls ++ [((100:ℚ), lsEnd.state.bestScoreThisRun,
          lsEnd.state.iterations)]) ≠ []
        simp
      · show List.Chain' (fun a b => a.1 ≤ b.1) (lsEnd.calls ++
          [((100:ℚ), lsEnd.state.bestScoreThisRun, lsEnd.state.iterations)])
        refine chain'_append_singleton hok.1 ?_
        intro a ha
        refine le_trans (hok.2 a ha) ?_
        unfold MAX_DISPLAYED_PROGRESS_UNTIL_COMPLETE
        norm_num
      · show ((lsEnd.calls ++ [((100:ℚ), lsEnd.state.bestScoreThisRun,
          lsEnd.state.iterations)]).getLast?).map (fun c => c.1) = some (100 : ℚ)
        rw [List.getLast?_concat]
        rfl

set_option maxRecDepth 100000 in
/-- Witness for C7 with the identity exponential stand-in, at a fuel on
which the run finishes: the middle conjunct evaluates the run and checks
that it returns a finished result, so the progress contract is exercised
on its non-trivial arm. -/
theorem C7_progress_reporting_witness :
    Monotone (fun q : ℚ => q) ∧
    (match optimizeSchedule (fun q : ℚ => q) lnTwoQ 10 onlyProgParams true with
      | .ok (some _) => true
      | _ => false) = true ∧
    ProgressReportOk (optimizeSchedule (fun q : ℚ => q) lnTwoQ 10 onlyProgParams true) :=
  ⟨fun _ _ h => h,
   by with_unfolding_all decide,
   C7_progress_reporting (fun q : ℚ => q) lnTwoQ 10 onlyProgParams (fun _ _ h => h)⟩

end Estradial
